import Mathlib

/-!
# tauray: shader sources, recorded command buffers, scene bindings, frame loops

A shallow embedding of

* `src/shader_source.cc`: the text-splicing preprocessor, the process-wide binary
  cache and the descriptor-layout merging of `shader_source` / `shader_sources`;
* `src/svgf_stage.cc` and `src/spatial_reprojection_stage.cc`: the command
  buffers that the stages record, and their push-constant records;
* `src/path_tracer_stage.cc`: the shader sources of the path tracer;
* `src/scene.cc`: the descriptor bindings of the scene-to-stage protocol;
* `src/tauray.cc`: the frame loops of `interactive_viewer` and `replay_viewer`.

Conventions:

* `std::string` is a list of characters, `std::string::npos` is `2^64 - 1` and
  `size_t` arithmetic wraps modulo `2^64`; `uint32_t` arithmetic wraps modulo
  `2^32`.
* `std::map<std::string, V>` is an association list kept in strictly ascending
  key order (byte-wise lexicographic order of the keys).
* C++ exceptions are the `Except.error` results of the embedded functions.
* glslang and SPIRV-Reflect are external libraries: they enter as the fields of
  a `toolchain` value; `get_resource_path` and `load_text_file` (misc.hh) enter
  as the fields of a `resources` value.
* A loop of a viewer is a function from the local variables that steer it and
  from what the environment does during one iteration (`viewer_input`) to the
  calls made and the way the iteration ends.
-/

namespace tr

/-- The model of `std::string`. -/
abbrev Str := List Char

/-- The C++ exceptions the embedded code can raise. -/
inductive exception where
  | runtime_error (what : Str)
  | out_of_range (what : Str)
  deriving DecidableEq, Repr

/-! ## std::string -/

/-- The value of `std::string::npos`, the largest `size_t`. -/
def npos : Nat := 2 ^ 64 - 1

/-- Scan for `pat`, the current position being `i`. -/
def find_from (pat : Str) : Str → Nat → Nat
  | [], i => if pat.isPrefixOf [] then i else npos
  | c :: rest, i => if pat.isPrefixOf (c :: rest) then i else find_from pat rest (i + 1)

/-- The model of `std::string::find(pat)`: index of the first occurrence, or `npos`. -/
def string_find (s pat : Str) : Nat := find_from pat s 0

/-- Scan for the character `ch`, the current position being `i`. -/
def find_char_from (ch : Char) : Str → Nat → Nat
  | [], _ => npos
  | c :: rest, i => if c = ch then i else find_char_from ch rest (i + 1)

/-- The model of `std::string::find_first_of(ch, pos)`. -/
def find_first_of (s : Str) (ch : Char) (pos : Nat) : Nat :=
  find_char_from ch (s.drop pos) pos

/-- The model of `std::string::substr(pos, count)`. -/
def substr (s : Str) (pos count : Nat) : Except exception Str :=
  if pos > s.length then .error (.out_of_range "basic_string::substr".toList)
  else .ok ((s.drop pos).take count)

/-- The model of `std::string::substr(pos)`, the count defaulting to `npos`. -/
def substr_from (s : Str) (pos : Nat) : Except exception Str :=
  if pos > s.length then .error (.out_of_range "basic_string::substr".toList)
  else .ok (s.drop pos)

/-- The order of `std::string` keys: lexicographic on the character codes. -/
def str_lt : Str → Str → Bool
  | [], [] => false
  | [], _ :: _ => true
  | _ :: _, [] => false
  | a :: as, b :: bs =>
    if a.toNat < b.toNat then true
    else if b.toNat < a.toNat then false
    else str_lt as bs

/-! ## std::map with string keys -/

/-- The model of `std::map<std::string, V>`: the entries in iteration order. -/
abbrev std_map (V : Type) := List (Str × V)

/-- The invariant of a `std::map`: keys strictly ascending. -/
def std_map.wf {V : Type} (m : std_map V) : Prop :=
  List.Pairwise (fun p q => str_lt p.1 q.1 = true) m

/-- The model of `std::map::find`: the mapped value, `none` standing for `end()`. -/
def std_map.find {V : Type} : std_map V → Str → Option V
  | [], _ => none
  | (k, v) :: rest, key => if k = key then some v else std_map.find rest key

/-- The model of `std::map::insert`: an existing key keeps its value. -/
def std_map.insert {V : Type} : std_map V → Str → V → std_map V
  | [], key, val => [(key, val)]
  | (k, v) :: rest, key, val =>
    if k = key then (k, v) :: rest
    else if str_lt key k then (key, val) :: (k, v) :: rest
    else (k, v) :: std_map.insert rest key val

/-- The model of `m[key] = val`: an existing key has its value replaced. -/
def std_map.assign {V : Type} : std_map V → Str → V → std_map V
  | [], key, val => [(key, val)]
  | (k, v) :: rest, key, val =>
    if k = key then (k, val) :: rest
    else if str_lt key k then (key, val) :: (k, v) :: rest
    else (k, v) :: std_map.assign rest key val

/-- A map built by assigning the given entries in turn to an empty map. -/
def std_map.of_list {V : Type} (entries : List (Str × V)) : std_map V :=
  entries.foldl (fun m p => std_map.assign m p.1 p.2) []

/-! ## std::filesystem::path -/

/-- The model of `path::filename()` for a generic-format path. -/
def path_filename (p : Str) : Str :=
  (p.reverse.takeWhile (fun c => c != '/')).reverse

/-- The model of `path::extension()`: the part of the filename from its last
period on, a leading period and the names `.` and `..` having none. -/
def path_extension (p : Str) : Str :=
  match path_filename p with
  | [] => []
  | c :: rest =>
    if c :: rest = ['.', '.'] then []
    else if rest.contains '.' then '.' :: (rest.reverse.takeWhile (fun d => d != '.')).reverse
    else []

/-- The model of `path::parent_path()` for a generic-format path. -/
def path_parent_path (p : Str) : Str :=
  let stem := (p.reverse.dropWhile (fun c => c != '/')).reverse
  let dir := (stem.reverse.dropWhile (fun c => c == '/')).reverse
  if dir = [] ∧ stem ≠ [] then ['/'] else dir

/-! ## Vulkan and glslang types -/

/-- The glslang enumeration `EShLanguage`, restricted to the stages used. -/
inductive EShLanguage where
  | EShLangVertex | EShLangTessControl | EShLangTessEvaluation | EShLangGeometry
  | EShLangFragment | EShLangCompute | EShLangRayGen | EShLangIntersect
  | EShLangAnyHit | EShLangClosestHit | EShLangMiss
  deriving DecidableEq, Repr

/-- The bit values of `vk::ShaderStageFlagBits`. -/
def eVertex : Nat := 0x1
def eTessellationControl : Nat := 0x2
def eTessellationEvaluation : Nat := 0x4
def eGeometry : Nat := 0x8
def eFragment : Nat := 0x10
def eCompute : Nat := 0x20
def eRaygenKHR : Nat := 0x100
def eAnyHitKHR : Nat := 0x200
def eClosestHitKHR : Nat := 0x400
def eMissKHR : Nat := 0x800
def eIntersectionKHR : Nat := 0x1000

/-- The fields of `vk::DescriptorSetLayoutBinding` that the code sets
(`pImmutableSamplers` stays null throughout). -/
structure DescriptorSetLayoutBinding where
  binding : Nat
  descriptorType : Nat
  descriptorCount : Nat
  stageFlags : Nat
  deriving DecidableEq, Repr

/-- The fields of `vk::PushConstantRange`. -/
structure PushConstantRange where
  stageFlags : Nat
  offset : Nat
  size : Nat
  deriving DecidableEq, Repr

/-- The record `shader_source`: SPIR-V words, reflected bindings, push-constant
ranges and the name-to-slot map. -/
structure shader_source where
  data : List Nat
  bindings : List DescriptorSetLayoutBinding
  push_constant_ranges : List PushConstantRange
  binding_names : std_map Nat
  deriving DecidableEq, Repr

/-- A default-constructed `shader_source`. -/
def shader_source.empty : shader_source := ⟨[], [], [], []⟩

/-- The record `shader_sources::hit_group`. -/
structure hit_group where
  type : Nat
  rchit : shader_source
  rahit : shader_source
  rint : shader_source
  deriving DecidableEq, Repr

/-- The record `shader_sources`: one source per stage slot. -/
structure shader_sources where
  vert : shader_source
  frag : shader_source
  rgen : shader_source
  rhit : List hit_group
  rmiss : List shader_source
  comp : shader_source
  deriving DecidableEq, Repr

/-! ## Anonymous-namespace helpers of shader_source.cc -/

/-- The function `detect_shader_language`. -/
def detect_shader_language (ext : Str) : Except exception EShLanguage :=
  if ext = ".vert".toList then .ok .EShLangVertex
  else if ext = ".tesc".toList then .ok .EShLangTessControl
  else if ext = ".tese".toList then .ok .EShLangTessEvaluation
  else if ext = ".geom".toList then .ok .EShLangGeometry
  else if ext = ".frag".toList then .ok .EShLangFragment
  else if ext = ".comp".toList then .ok .EShLangCompute
  else if ext = ".rgen".toList then .ok .EShLangRayGen
  else if ext = ".rint".toList then .ok .EShLangIntersect
  else if ext = ".rahit".toList then .ok .EShLangAnyHit
  else if ext = ".rchit".toList then .ok .EShLangClosestHit
  else if ext = ".rmiss".toList then .ok .EShLangMiss
  else .error (.runtime_error ("Unknown shader extension ".toList ++ ext))

/-- The function `detect_shader_stage`. -/
def detect_shader_stage (ext : Str) : Except exception Nat :=
  if ext = ".vert".toList then .ok eVertex
  else if ext = ".tesc".toList then .ok eTessellationControl
  else if ext = ".tese".toList then .ok eTessellationEvaluation
  else if ext = ".geom".toList then .ok eGeometry
  else if ext = ".frag".toList then .ok eFragment
  else if ext = ".comp".toList then .ok eCompute
  else if ext = ".rgen".toList then .ok eRaygenKHR
  else if ext = ".rint".toList then .ok eIntersectionKHR
  else if ext = ".rahit".toList then .ok eAnyHitKHR
  else if ext = ".rchit".toList then .ok eClosestHitKHR
  else if ext = ".rmiss".toList then .ok eMissKHR
  else .error (.runtime_error ("Unknown shader extension ".toList ++ ext))

/-- The function `remove_newlines`: erase-remove of the newline character. -/
def remove_newlines (orig : Str) : Str :=
  orig.filter (fun c => c != '\n')

/-- The function `generate_definition_src`: the stream `ss` receives one
`#define` line per entry, in the iteration order of the map. -/
def generate_definition_src (defines : std_map Str) : Str :=
  defines.foldl
    (fun ss pair =>
      ss ++ "#define ".toList ++ pair.1 ++ " ".toList ++ remove_newlines pair.2 ++ ['\n'])
    []

/-- The inner loop of `append_shader_bindings`: merge `i` into the first entry
of `bindings` with the same slot; the flag tells whether one was found. -/
def merge_existing (i : DescriptorSetLayoutBinding) :
    List DescriptorSetLayoutBinding → Bool × List DescriptorSetLayoutBinding
  | [] => (false, [])
  | o :: rest =>
    if o.binding = i.binding then
      (true,
        { o with
          stageFlags := o.stageFlags ||| i.stageFlags
          descriptorCount := max i.descriptorCount o.descriptorCount } :: rest)
    else
      ((merge_existing i rest).1, o :: (merge_existing i rest).2)

/-- The body of the outer loop of `append_shader_bindings`. -/
def append_binding (bindings : List DescriptorSetLayoutBinding)
    (i : DescriptorSetLayoutBinding) : List DescriptorSetLayoutBinding :=
  if (merge_existing i bindings).1 then (merge_existing i bindings).2
  else (merge_existing i bindings).2 ++ [i]

/-- The function `append_shader_bindings`. -/
def append_shader_bindings (bindings : List DescriptorSetLayoutBinding)
    (src : shader_source) : List DescriptorSetLayoutBinding :=
  src.bindings.foldl append_binding bindings

/-- The body of the loop of `append_shader_names`. -/
def append_name (names : std_map Nat) (pair : Str × Nat) : Except exception (std_map Nat) :=
  match std_map.find names pair.1 with
  | none => .ok (std_map.insert names pair.1 pair.2)
  | some second =>
    if second ≠ pair.2 then
      .error (.runtime_error
        ("Same variable name has two different bindings: ".toList
          ++ pair.1 ++ " != ".toList ++ pair.1))
    else .ok names

/-- The function `append_shader_names`. -/
def append_shader_names (names : std_map Nat) (src : shader_source) :
    Except exception (std_map Nat) :=
  src.binding_names.foldlM append_name names

/-! ## Lines 144-153 of the constructor: splicing the defines -/

/-- The splice of `definition_src` into `src`, as the constructor of
`shader_source` computes it; `offset` is a `size_t`. -/
def splice_defines (src definition_src : Str) : Except exception Str :=
  let offset := string_find src "#version".toList
  if offset = npos then .ok (definition_src ++ src)
  else
    let offset := (find_first_of src '\n' offset + 1) % 2 ^ 64
    match substr src 0 offset, substr_from src offset with
    | .ok head, .ok tail => .ok (head ++ definition_src ++ tail)
    | .error e, _ => .error e
    | _, .error e => .error e

/-! ## The compiler and the binary cache -/

/-- A descriptor binding as SPIRV-Reflect reports it. -/
structure SpvReflectDescriptorBinding where
  binding : Nat
  descriptor_type : Nat
  count : Nat
  name : Str
  deriving DecidableEq, Repr

/-- A push-constant block as SPIRV-Reflect reports it. -/
structure SpvReflectBlockVariable where
  offset : Nat
  size : Nat
  deriving DecidableEq, Repr

/-- What glslang does with one shader: parse fails, link fails, or SPIR-V. -/
inductive glslang_outcome where
  | parse_failed (info_log : Str)
  | link_failed (info_log : Str)
  | spirv (data : List Nat)

/-- What `spvReflectCreateShaderModule` and the enumerations give. -/
inductive reflect_outcome where
  | failure (res : Nat)
  | module (bindings : List SpvReflectDescriptorBinding)
      (push_constant_blocks : List SpvReflectBlockVariable)

/-- The external libraries: glslang (language, source text, include directory)
and SPIRV-Reflect (SPIR-V words). -/
structure toolchain where
  glslang : EShLanguage → Str → Str → glslang_outcome
  spv_reflect : List Nat → reflect_outcome

/-- The helpers of misc.hh and the files they read. -/
structure resources where
  get_resource_path : Str → Str
  load_text_file : Str → Except exception Str

/-- The model of `std::to_string` on a result code. -/
def to_string (n : Nat) : Str := (Nat.repr n).toList

/-- The body of the loop over the reflected descriptor bindings (lines 221-230). -/
def reflect_binding (stage : Nat) (this : shader_source)
    (binding : SpvReflectDescriptorBinding) : shader_source :=
  { this with
    bindings := this.bindings ++
      [⟨binding.binding, binding.descriptor_type, binding.count, stage⟩]
    binding_names := std_map.assign this.binding_names binding.name binding.binding }

/-- The body of the loop over the reflected push-constant blocks (lines 239-244). -/
def reflect_push_constant_block (stage : Nat) (this : shader_source)
    (pc : SpvReflectBlockVariable) : shader_source :=
  { this with
    push_constant_ranges := this.push_constant_ranges ++ [⟨stage, pc.offset, pc.size⟩] }

/-- The miss branch of the constructor (lines 158-246): compile, link, reflect
and fill the fields of `*this`. -/
def shader_source.compile (tc : toolchain) (path ext dir_path src : Str) :
    Except exception shader_source :=
  match detect_shader_language ext with
  | .error e => .error e
  | .ok type =>
    match tc.glslang type src dir_path with
    | .parse_failed log =>
      .error (.runtime_error ("Failed to compile ".toList ++ path ++ ": ".toList ++ log))
    | .link_failed log =>
      .error (.runtime_error ("Failed to link ".toList ++ path ++ ": ".toList ++ log))
    | .spirv data =>
      match detect_shader_stage ext with
      | .error e => .error e
      | .ok stage =>
        match tc.spv_reflect data with
        | .failure res =>
          .error (.runtime_error
            ("Failed to reflect ".toList ++ path ++ ": ".toList ++ to_string res))
        | .module bindings push_constant_blocks =>
          let this : shader_source := { shader_source.empty with data := data }
          let this := bindings.foldl (reflect_binding stage) this
          let this := push_constant_blocks.foldl (reflect_push_constant_block stage) this
          .ok this

/-- The constructor `shader_source::shader_source(path, defines)`, the static
map `binaries` being passed in and out; an exception leaves it as it was. -/
def shader_source.new (rs : resources) (tc : toolchain) (binaries : std_map shader_source)
    (path : Str) (defines : std_map Str) :
    Except exception shader_source × std_map shader_source :=
  let res_path := rs.get_resource_path path
  let ext := path_extension res_path
  let dir_path := path_parent_path res_path
  match rs.load_text_file res_path with
  | .error e => (.error e, binaries)
  | .ok src =>
    let definition_src := generate_definition_src defines
    match splice_defines src definition_src with
    | .error e => (.error e, binaries)
    | .ok src =>
      match std_map.find binaries src with
      | none =>
        match shader_source.compile tc path ext dir_path src with
        | .error e => (.error e, binaries)
        | .ok this => (.ok this, std_map.assign binaries src this)
      | some second => (.ok second, binaries)

/-- The function `shader_source::clear_binary_cache`. -/
def shader_source.clear_binary_cache (_binaries : std_map shader_source) :
    std_map shader_source := []

/-! ## shader_sources -/

/-- The function `shader_sources::get_binding_names`. -/
def shader_sources.get_binding_names (self : shader_sources) :
    Except exception (std_map Nat) := do
  let names : std_map Nat := []
  let names ← append_shader_names names self.vert
  let names ← append_shader_names names self.frag
  let names ← append_shader_names names self.rgen
  let names ← self.rhit.foldlM
    (fun names hg => do
      let names ← append_shader_names names hg.rchit
      let names ← append_shader_names names hg.rahit
      append_shader_names names hg.rint)
    names
  let names ← self.rmiss.foldlM append_shader_names names
  append_shader_names names self.comp

/-- The inner loop of the override pass of `get_bindings`: the first binding
with the given slot receives the count. -/
def override_count (slot count : Nat) :
    List DescriptorSetLayoutBinding → List DescriptorSetLayoutBinding
  | [] => []
  | o :: rest =>
    if o.binding = slot then { o with descriptorCount := count } :: rest
    else o :: override_count slot count rest

/-- The merging part of `get_bindings` (lines 284-299). -/
def shader_sources.merged_bindings (self : shader_sources) :
    List DescriptorSetLayoutBinding :=
  let bindings : List DescriptorSetLayoutBinding := []
  let bindings := append_shader_bindings bindings self.vert
  let bindings := append_shader_bindings bindings self.frag
  let bindings := append_shader_bindings bindings self.rgen
  let bindings := self.rhit.foldl
    (fun bindings hg =>
      let bindings := append_shader_bindings bindings hg.rchit
      let bindings := append_shader_bindings bindings hg.rahit
      append_shader_bindings bindings hg.rint)
    bindings
  let bindings := self.rmiss.foldl append_shader_bindings bindings
  append_shader_bindings bindings self.comp

/-- The body of the override loop of `get_bindings` (lines 303-317): an
override whose name is not in `binding_names` is skipped. -/
def apply_override (binding_names : std_map Nat)
    (bindings : List DescriptorSetLayoutBinding) (pair : Str × Nat) :
    List DescriptorSetLayoutBinding :=
  match std_map.find binding_names pair.1 with
  | none => bindings
  | some second => override_count second pair.2 bindings

/-- The function `shader_sources::get_bindings`. -/
def shader_sources.get_bindings (self : shader_sources) (count_overrides : std_map Nat) :
    Except exception (List DescriptorSetLayoutBinding) :=
  let bindings := self.merged_bindings
  match self.get_binding_names with
  | .error e => .error e
  | .ok binding_names =>
    .ok (count_overrides.foldl (apply_override binding_names) bindings)

/-- The two loops of `append_shader_pc_ranges`, position by position: while
`ranges` and the ranges of the source both have an `i`-th entry, the stage flags
of the source are OR-ed into `ranges[i]`; the entries of the source past the
end of `ranges` are pushed back as they are. -/
def union_pc_ranges : List PushConstantRange → List PushConstantRange → List PushConstantRange
  | r :: ranges, p :: rest =>
    { r with stageFlags := r.stageFlags ||| p.stageFlags } :: union_pc_ranges ranges rest
  | [], rest => rest
  | ranges, [] => ranges

/-- The function `append_shader_pc_ranges`. -/
def append_shader_pc_ranges (ranges : List PushConstantRange) (src : shader_source) :
    List PushConstantRange :=
  union_pc_ranges ranges src.push_constant_ranges

/-- The function `shader_sources::get_push_constant_ranges`. -/
def shader_sources.get_push_constant_ranges (self : shader_sources) :
    List PushConstantRange :=
  let ranges : List PushConstantRange := []
  let ranges := append_shader_pc_ranges ranges self.vert
  let ranges := append_shader_pc_ranges ranges self.frag
  let ranges := append_shader_pc_ranges ranges self.rgen
  let ranges := self.rhit.foldl
    (fun ranges hg =>
      let ranges := append_shader_pc_ranges ranges hg.rchit
      let ranges := append_shader_pc_ranges ranges hg.rahit
      append_shader_pc_ranges ranges hg.rint)
    ranges
  let ranges := self.rmiss.foldl append_shader_pc_ranges ranges
  append_shader_pc_ranges ranges self.comp

/-! ## Recorded command buffers (svgf_stage.cc, spatial_reprojection_stage.cc) -/

/-- The constant `MAX_FRAMES_IN_FLIGHT` of context.hh. -/
def MAX_FRAMES_IN_FLIGHT : Nat := 2

/-- Conversion of an integer to `uint32_t`. -/
def to_uint32 (i : Int) : Nat := (i % 2 ^ 32).toNat

/-- Conversion of an unsigned value to `int` (32 bits, two's complement). -/
def to_int32 (n : Nat) : Int :=
  if n % 2 ^ 32 < 2 ^ 31 then ((n % 2 ^ 32 : Nat) : Int) else ((n % 2 ^ 32 : Nat) : Int) - 2 ^ 32

/-- A `float`, as far as the modelled code goes: it stores constants and never
computes with them. -/
inductive float32 where
  | nan
  | bits (pattern : Nat)
  deriving DecidableEq, Repr

/-- What the stages read of a `gbuffer_target`: `get_size()` (a `uvec2`) and
`get_layer_count()`. -/
structure gbuffer_target where
  size : Nat × Nat
  layer_count : Nat
  deriving DecidableEq, Repr

/-- The compute pipelines that the modelled stages bind. -/
inductive pipeline_name where
  | svgf_atrous
  | svgf_temporal
  | svgf_estimate_variance
  | spatial_reprojection
  deriving DecidableEq, Repr

/-- The record `push_constant_buffer_atrous` of svgf_stage.cc; a member that
the code leaves unassigned is `none`. -/
structure push_constant_buffer_atrous where
  size : Int × Int
  parity : Option Int
  iteration : Int
  stride : Option Int
  iteration_count : Int
  deriving DecidableEq, Repr

/-- The record `push_constant_buffer_temporal` of svgf_stage.cc. -/
structure push_constant_buffer_temporal where
  size : Int × Int
  deriving DecidableEq, Repr

/-- The record `push_constant_buffer` of spatial_reprojection_stage.cc. -/
structure spatial_reprojection_push_constant_buffer where
  default_value : float32 × float32 × float32 × float32
  size : Int × Int
  source_count : Nat
  deriving DecidableEq, Repr

/-- The argument of `push_constants`. -/
inductive push_constants_value where
  | atrous (control : push_constant_buffer_atrous)
  | temporal (control : push_constant_buffer_temporal)
  | spatial_reprojection (control : spatial_reprojection_push_constant_buffer)
  deriving DecidableEq, Repr

/-- The bit `vk::PipelineStageFlagBits::eComputeShader`. -/
def eComputeShader : Nat := 0x800

/-- The bit `vk::AccessFlagBits::eShaderRead`. -/
def eShaderRead : Nat := 0x20

/-- The bit `vk::AccessFlagBits::eShaderWrite`. -/
def eShaderWrite : Nat := 0x40

/-- The value `vk::ImageLayout::eGeneral`. -/
def eGeneral : Nat := 1

/-- What the modelled stages record into a command buffer. -/
inductive command where
  | timer_begin (frame : Nat)
  | timer_end (frame : Nat)
  | upload (frame : Nat)
  | transition_layout_temporary (frame : Nat) (layout : Nat) (ignore_src : Bool)
  | bind (pipeline : pipeline_name) (frame : Nat)
  | push_constants (control : push_constants_value)
  | dispatch (x y z : Nat)
  | pipeline_barrier (src_stage dst_stage src_access dst_access : Nat)
  deriving DecidableEq, Repr

/-- The expression `(size + 15u) / 16u` on a `uvec2`. -/
def workgroups (size : Nat × Nat) : Nat × Nat :=
  (((size.1 + 15) % 2 ^ 32) / 16, ((size.2 + 15) % 2 ^ 32) / 16)

/-- The record `svgf_stage::options` of svgf_stage.hh. -/
structure svgf_stage.options where
  active_viewport_count : Nat
  atrous_diffuse_iters : Int
  atrous_spec_iters : Int
  atrous_kernel_radius : Int
  sigma_l : float32
  sigma_z : float32
  sigma_n : float32
  temporal_alpha_color : float32
  temporal_alpha_moments : float32
  deriving DecidableEq, Repr

/-- The barrier that `record_command_buffers` inserts: compute to compute,
shader write to shader read. -/
def svgf_stage.barrier : command :=
  .pipeline_barrier eComputeShader eComputeShader eShaderWrite eShaderRead

/-- The body of the loop over `j` in `svgf_stage::record_command_buffers`
(lines 186-202). -/
def svgf_stage.record_atrous_iteration (input_features : gbuffer_target)
    (iteration_count : Int) (j : Nat) : List command :=
  (if j ≠ 0 then [svgf_stage.barrier] else [])
    ++ [.push_constants (.atrous
          { size := (to_int32 input_features.size.1, to_int32 input_features.size.2)
            parity := none
            iteration := (j : Int)
            stride := none
            iteration_count := iteration_count }),
        .dispatch (workgroups input_features.size).1 (workgroups input_features.size).2
          (input_features.layer_count % 2 ^ 32)]

/-- The body of the loop over `i` in `svgf_stage::record_command_buffers`: the
commands of the buffer of frame `i`. -/
def svgf_stage.record_command_buffer (input_features : gbuffer_target)
    (_opt : svgf_stage.options) (i : Nat) : List command :=
  let wg := workgroups input_features.size
  let control_temporal : push_constant_buffer_temporal :=
    { size := (to_int32 input_features.size.1, to_int32 input_features.size.2) }
  let iteration_count : Nat := 4
  [ .timer_begin i,
    .upload i,
    .bind .svgf_temporal i,
    .push_constants (.temporal control_temporal),
    .dispatch wg.1 wg.2 (input_features.layer_count % 2 ^ 32),
    svgf_stage.barrier,
    .bind .svgf_estimate_variance i,
    .push_constants (.temporal control_temporal),
    .dispatch wg.1 wg.2 (input_features.layer_count % 2 ^ 32),
    svgf_stage.barrier,
    .bind .svgf_atrous i ]
    ++ (List.range iteration_count).flatMap
        (svgf_stage.record_atrous_iteration input_features iteration_count)
    ++ [ .timer_end i ]

/-- The function `svgf_stage::record_command_buffers`: one buffer per frame
in flight. -/
def svgf_stage.record_command_buffers (input_features : gbuffer_target)
    (opt : svgf_stage.options) : List (List command) :=
  (List.range MAX_FRAMES_IN_FLIGHT).map (svgf_stage.record_command_buffer input_features opt)

/-- The record `spatial_reprojection_stage::options`, as far as the stage
reads it. -/
structure spatial_reprojection_stage.options where
  active_viewport_count : Nat
  deriving DecidableEq, Repr

/-- The body of the loop of `spatial_reprojection_stage::set_scene`: the
commands of the buffer of frame `i`. -/
def spatial_reprojection_stage.record_command_buffer (target_viewport : gbuffer_target)
    (opt : spatial_reprojection_stage.options) (i : Nat) : List command :=
  let control : spatial_reprojection_push_constant_buffer :=
    { size := (to_int32 target_viewport.size.1, to_int32 target_viewport.size.2)
      source_count := opt.active_viewport_count % 2 ^ 32
      default_value := (.nan, .nan, .nan, .nan) }
  let wg := workgroups (to_uint32 control.size.1, to_uint32 control.size.2)
  [ .timer_begin i,
    .transition_layout_temporary i eGeneral true,
    .upload i,
    .bind .spatial_reprojection i,
    .push_constants (.spatial_reprojection control),
    .dispatch wg.1 wg.2
      ((target_viewport.layer_count % 2 ^ 32 + 2 ^ 32 - control.source_count) % 2 ^ 32),
    .timer_end i ]

/-- The function `spatial_reprojection_stage::set_scene`: the command buffers
it leaves recorded; `has_scene` tells whether the scene pointer is non-null. -/
def spatial_reprojection_stage.set_scene (has_scene : Bool) (target_viewport : gbuffer_target)
    (opt : spatial_reprojection_stage.options) : List (List command) :=
  if !has_scene then []
  else
    (List.range MAX_FRAMES_IN_FLIGHT).map
      (spatial_reprojection_stage.record_command_buffer target_viewport opt)

/-! ## Push-constant records and their size -/

/-- Size and alignment of a member. -/
structure member_layout where
  size : Nat
  align : Nat
  deriving DecidableEq, Repr

/-- The least multiple of `align` that is at least `offset`. -/
def align_up (offset align : Nat) : Nat :=
  ((offset + align - 1) / align) * align

/-- The value of `sizeof` for a standard-layout struct with the given members:
each member goes to the next offset that its alignment allows, and the size is
rounded up to the largest alignment. -/
def struct_sizeof (members : List member_layout) : Nat :=
  align_up (members.foldl (fun offset m => align_up offset m.align + m.size) 0)
    (members.foldl (fun a m => max a m.align) 1)

/-- A member of type `uint32_t`, `int` or `float`. -/
def scalar32 : member_layout := ⟨4, 4⟩

/-- A member of type `pivec2` (math.hh, not under src): two `int`; the
alignment is left open. -/
def pivec2_member (align : Nat) : member_layout := ⟨8, align⟩

/-- A member of type `pvec4` (math.hh, not under src): four `float`; the
alignment is left open. -/
def pvec4_member (align : Nat) : member_layout := ⟨16, align⟩

/-- The members of `path_tracer::push_constant_buffer` (path_tracer_stage.cc). -/
def path_tracer.push_constant_buffer_members (pvec4_align : Nat) : List member_layout :=
  [scalar32, scalar32, scalar32, scalar32, scalar32, scalar32, scalar32, scalar32,
    pvec4_member pvec4_align, scalar32]

/-- The members of `push_constant_buffer_atrous` (svgf_stage.cc). -/
def push_constant_buffer_atrous_members (pivec2_align : Nat) : List member_layout :=
  [pivec2_member pivec2_align, scalar32, scalar32, scalar32, scalar32]

/-- The members of `push_constant_buffer_temporal` (svgf_stage.cc). -/
def push_constant_buffer_temporal_members (pivec2_align : Nat) : List member_layout :=
  [pivec2_member pivec2_align]

/-- The members of `push_constant_buffer` of spatial_reprojection_stage.cc. -/
def spatial_reprojection_push_constant_buffer_members (pivec2_align pvec4_align : Nat) :
    List member_layout :=
  [pvec4_member pvec4_align, pivec2_member pivec2_align, scalar32]

/-! ## The scene-to-stage protocol (scene.cc) -/

/-- The value `VK_WHOLE_SIZE`. -/
def VK_WHOLE_SIZE : Nat := 2 ^ 64 - 1

/-- The payload of a `descriptor_state`, as far as scene.cc fills it in. -/
inductive descriptor_value where
  | buffer (name : Str) (offset range : Nat)
  | buffer_array (count : Nat)
  | image (view : Option Nat)
  | image_array (views : List Nat)
  | acceleration_structure (count handle : Nat)
  deriving DecidableEq, Repr

/-- A `descriptor_state`: the binding name and what is bound to it. -/
abbrev descriptor_state := Str × descriptor_value

/-- What `get_acceleration_structure` and `get_descriptor_info` read of a scene.
The member `tlas` is emplaced by `init_acceleration_structures` when ray tracing
is supported and is read behind that test only; `tlas i` is the handle that
`*tlas->get_tlas_handle(i)` yields. -/
structure scene where
  ray_tracing_supported : Bool
  tlas : Nat → Nat
  smr : Option Nat
  sh_grids : List Nat
  sh_grid_textures : Option (List (Nat × Nat))
  environment_map : Option Nat
  vertex_buffer_count : Nat
  index_buffer_count : Nat
  texture_count : Nat
  camera_data_offsets : Int → Nat × Nat
  shadow_map_range : Nat
  shadow_map_cascade_range : Nat

/-- The model of `std::unordered_map::at`. -/
def unordered_map_at (m : List (Nat × Nat)) (key : Nat) : Except exception Nat :=
  match m.find? (fun p => p.1 = key) with
  | some p => .ok p.2
  | none => .error (.out_of_range "unordered_map::at".toList)

/-- The function `scene::get_acceleration_structure`. -/
def scene.get_acceleration_structure (self : scene) (device_index : Nat) :
    Except exception Nat :=
  if !self.ray_tracing_supported then
    .error (.runtime_error "Trying to use TLAS, but ray tracing is not available!".toList)
  else .ok (self.tlas device_index)

/-- The loop that fills `dii_3d` in `get_descriptor_info` (lines 191-203). -/
def scene.sh_grid_image_views (self : scene) : Except exception (List Nat) :=
  match self.sh_grid_textures with
  | none => .ok []
  | some textures => self.sh_grids.mapM (unordered_map_at textures)

/-- The function `scene::get_descriptor_info`, `dev_index` being `dev->index`. -/
def scene.get_descriptor_info (self : scene) (dev_index : Nat) (camera_index : Int) :
    Except exception (List descriptor_state) := do
  let dii_3d ← self.sh_grid_image_views
  let _tlas ← if self.ray_tracing_supported then self.get_acceleration_structure dev_index
    else pure 0
  let descriptors : List descriptor_state :=
    [ ("scene".toList, .buffer "scene_data".toList 0 VK_WHOLE_SIZE),
      ("scene_metadata".toList, .buffer "scene_metadata".toList 0 VK_WHOLE_SIZE),
      ("vertices".toList, .buffer_array self.vertex_buffer_count),
      ("indices".toList, .buffer_array self.index_buffer_count),
      ("textures".toList, .image_array (List.range self.texture_count)),
      ("directional_lights".toList, .buffer "directional_light_data".toList 0 VK_WHOLE_SIZE),
      ("point_lights".toList, .buffer "point_light_data".toList 0 VK_WHOLE_SIZE),
      ("tri_lights".toList, .buffer "tri_light_data".toList 0 VK_WHOLE_SIZE),
      ("environment_map_tex".toList, .image self.environment_map),
      ("environment_map_alias_table".toList, .buffer "alias_table".toList 0 VK_WHOLE_SIZE),
      ("textures3d".toList, .image_array dii_3d),
      ("sh_grids".toList, .buffer "sh_grid_data".toList 0 VK_WHOLE_SIZE) ]
  let descriptors :=
    if camera_index ≥ 0 then
      descriptors ++ [("camera".toList,
        .buffer "camera_data".toList (self.camera_data_offsets camera_index).1 VK_WHOLE_SIZE)]
    else descriptors
  let descriptors :=
    if self.ray_tracing_supported then
      descriptors ++ [("tlas".toList, .acceleration_structure 1 (self.tlas dev_index))]
    else descriptors
  let descriptors :=
    match self.smr with
    | some shadow_map_atlas =>
      descriptors ++
        [ ("shadow_maps".toList, .buffer "shadow_map_data".toList 0 self.shadow_map_range),
          ("shadow_map_cascades".toList,
            .buffer "shadow_map_data".toList self.shadow_map_range
              self.shadow_map_cascade_range),
          ("shadow_map_atlas".toList, .image (some shadow_map_atlas)),
          ("shadow_map_atlas_test".toList, .image (some shadow_map_atlas)) ]
    | none => descriptors
  pure descriptors

/-! ## The frame loops of tauray.cc -/

/-- The dynamic type of the context, as the `dynamic_cast`s of the viewers
tell it apart. -/
inductive context_kind where
  | window
  | openxr
  | looking_glass
  | other
  deriving DecidableEq, Repr

/-- What a call made by a viewer can throw. `vk::OutOfDateKHRError` derives from
`std::system_error` and so from `std::runtime_error`. -/
inductive thrown where
  | out_of_date
  | runtime_error (what : Str)
  | other (what : Str)
  deriving DecidableEq, Repr

/-- Whether `catch(std::runtime_error&)` catches the exception. -/
def thrown.is_runtime_error : thrown → Bool
  | .out_of_date => true
  | .runtime_error _ => true
  | .other _ => false

/-- The text of `what()`. -/
def thrown.what : thrown → Str
  | .out_of_date => "vk::Queue::presentKHR: ErrorOutOfDateKHR".toList
  | .runtime_error what => what
  | .other what => what

/-- The calls of a viewer that the model records, in the order in which they
are made. A renderer is named by a number; `lb_update` records `lb.update(*rr)`
with the renderer that `rr` holds, if any. -/
inductive viewer_action where
  | create_renderer
  | renderer_reset (r : Option Nat)
  | set_scene (r : Nat)
  | render (r : Nat)
  | reset_accumulation (r : Nat)
  | set_displaying (displaying : Bool)
  | clear_binary_cache
  | log (what : Str)
  | init_frame
  | sync
  | scene_update
  | begin_end_frame
  | recreate_swapchains (ctx : context_kind)
  | print_timing
  | throttle_step
  | lb_update (r : Option Nat)
  deriving DecidableEq, Repr

/-- The options that steer the frame loops. -/
structure viewer_options where
  warmup_frames : Nat
  skip_render : Bool
  accumulation : Bool
  timing : Bool
  skip_frames : Int
  frames : Nat
  deriving DecidableEq, Repr

/-- How one pass through a loop body ends. -/
inductive loop_step (σ : Type) where
  | next (st : σ)
  | exit (st : σ)
  | raised (e : thrown)
  | null_dereference

/-- The SDL events, as far as they steer the loop: `camera` stands for every
event that sets `camera_moved`. -/
inductive sdl_event where
  | quit
  | escape
  | f5
  | camera
  | other
  deriving DecidableEq, Repr

/-- The local variables of `interactive_viewer` that steer the loop. -/
structure interactive_state where
  rr : Option Nat
  running : Bool
  recreate_renderer : Bool
  crash_on_exception : Bool
  deriving DecidableEq, Repr

/-- What the environment does during one iteration of a viewer: the outcome of
`create_renderer`, of `set_scene` and of the warm-up renders should they be
called, the pending events, the results of `init_frame`, of the camera
movement test, of `ply_stream->refresh()` and of `is_playing()`, and what the
submission of the frame throws, if anything. -/
structure viewer_input where
  create : Except thrown Nat
  set_scene : Option thrown
  warmup : List (Option thrown)
  events : List sdl_event
  init_frame : Bool
  camera_movement : Bool
  ply_refresh : Bool
  playing : Bool
  frame : Option thrown

/-- The warm-up loop of `interactive_viewer`: `n` renders unless
`opt.skip_render`, up to the first that throws. -/
def interactive_viewer.warmup (opt : viewer_options) (r : Nat) :
    Nat → List (Option thrown) → List viewer_action × Option thrown
  | 0, _ => ([], none)
  | n + 1, outcomes =>
    if opt.skip_render then interactive_viewer.warmup opt r n outcomes
    else
      match outcomes.head? with
      | some (some e) => ([.render r], some e)
      | _ =>
        ((.render r) :: (interactive_viewer.warmup opt r n outcomes.tail).1,
          (interactive_viewer.warmup opt r n outcomes.tail).2)

/-- The `try` block of lines 646-654: the renderer that `rr` holds afterwards,
the calls made, and the exception that leaves the block, if any. -/
def interactive_viewer.create_block (opt : viewer_options) (rr : Option Nat)
    (inp : viewer_input) : Option Nat × List viewer_action × Option thrown :=
  match inp.create with
  | .error e => (rr, [.create_renderer], some e)
  | .ok r =>
    match inp.set_scene with
    | some e => (some r, [.create_renderer, .renderer_reset (some r), .set_scene r], some e)
    | none =>
      match interactive_viewer.warmup opt r opt.warmup_frames inp.warmup with
      | (renders, some e) =>
        (some r,
          [.create_renderer, .renderer_reset (some r), .set_scene r, .set_displaying false]
            ++ renders,
          some e)
      | (renders, none) =>
        (some r,
          [.create_renderer, .renderer_reset (some r), .set_scene r, .set_displaying false]
            ++ renders ++ [.set_displaying true],
          none)

/-- Lines 644-661 of `interactive_viewer`: the renderer is created when
`recreate_renderer` is set; a `std::runtime_error` is thrown again (as a
`std::runtime_error`, `throw err` copying the caught reference) under
`crash_on_exception` and logged otherwise. -/
def interactive_viewer.recreate_phase (opt : viewer_options) (st : interactive_state)
    (inp : viewer_input) : List viewer_action × Except thrown interactive_state :=
  if st.recreate_renderer then
    match interactive_viewer.create_block opt st.rr inp with
    | (rr, calls, none) => (calls, .ok { st with rr := rr, recreate_renderer := false })
    | (rr, calls, some e) =>
      if e.is_runtime_error then
        if st.crash_on_exception then (calls, .error (.runtime_error e.what))
        else (calls ++ [.log e.what], .ok { st with rr := rr, recreate_renderer := false })
      else (calls, .error e)
  else ([], .ok st)

/-- The handling of one event (lines 664-746); the flag is `camera_moved`. -/
def interactive_viewer.handle_event (acc : List viewer_action × interactive_state × Bool)
    (event : sdl_event) : List viewer_action × interactive_state × Bool :=
  match event with
  | .quit => (acc.1, { acc.2.1 with running := false }, acc.2.2)
  | .escape => (acc.1, { acc.2.1 with running := false }, acc.2.2)
  | .f5 =>
    (acc.1 ++ [.clear_binary_cache, .renderer_reset none],
      { acc.2.1 with rr := none, recreate_renderer := true, crash_on_exception := false },
      acc.2.2)
  | .camera => (acc.1, acc.2.1, true)
  | .other => acc

/-- The body of the `try` of lines 778-785. -/
def interactive_viewer.submit_frame (rr : Option Nat) : List viewer_action :=
  match rr with
  | some r => [.render r]
  | none => [.begin_end_frame]

/-- The handler of `vk::OutOfDateKHRError` in `interactive_viewer` (lines
786-796): the calls made and whether the loop is left by `break`. -/
def interactive_viewer.out_of_date_handler (ctx : context_kind) :
    List viewer_action × Bool :=
  match ctx with
  | .window => ([.renderer_reset none, .recreate_swapchains .window], false)
  | .openxr => ([.renderer_reset none, .recreate_swapchains .openxr], false)
  | .looking_glass => ([.renderer_reset none, .recreate_swapchains .looking_glass], false)
  | .other => ([.renderer_reset none], true)

/-- Lines 797-800 of `interactive_viewer`. -/
def interactive_viewer.tail (opt : viewer_options) (rr : Option Nat) : List viewer_action :=
  (if opt.timing then [.print_timing] else []) ++ [.throttle_step, .lb_update rr]

/-- Lines 748-800 of `interactive_viewer`, after the events. -/
def interactive_viewer.frame_phase (opt : viewer_options) (ctx : context_kind)
    (st : interactive_state) (camera_moved : Bool) (inp : viewer_input) :
    List viewer_action × loop_step interactive_state :=
  if inp.init_frame then ([.init_frame], .exit st)
  else
    let moved := camera_moved || inp.camera_movement
    if (moved || !opt.accumulation) && st.rr.isNone then ([.init_frame], .null_dereference)
    else
      let calls : List viewer_action :=
        [.init_frame]
          ++ (if moved || !opt.accumulation then st.rr.toList.map .reset_accumulation else [])
          ++ (if inp.ply_refresh then .sync :: st.rr.toList.map .set_scene else [])
          ++ [.scene_update]
          ++ interactive_viewer.submit_frame st.rr
      match inp.frame with
      | none => (calls ++ interactive_viewer.tail opt st.rr, .next st)
      | some .out_of_date =>
        if (interactive_viewer.out_of_date_handler ctx).2 then
          (calls ++ (interactive_viewer.out_of_date_handler ctx).1,
            .exit { st with rr := none })
        else
          (calls ++ (interactive_viewer.out_of_date_handler ctx).1
              ++ interactive_viewer.tail opt none,
            .next { st with rr := none })
      | some e => (calls, .raised e)

/-- One pass through the body of the `while(running)` loop of
`interactive_viewer`. -/
def interactive_viewer.iteration (opt : viewer_options) (ctx : context_kind)
    (st : interactive_state) (inp : viewer_input) :
    List viewer_action × loop_step interactive_state :=
  match interactive_viewer.recreate_phase opt st inp with
  | (calls, .error e) => (calls, .raised e)
  | (calls, .ok st) =>
    let handled := inp.events.foldl interactive_viewer.handle_event ([], st, false)
    let frame := interactive_viewer.frame_phase opt ctx handled.2.1 handled.2.2 inp
    (calls ++ handled.1 ++ frame.1, frame.2)

/-- The local variables of `replay_viewer` that steer the loop. -/
structure replay_state where
  rr : Option Nat
  i : Nat
  deriving DecidableEq, Repr

/-- The warm-up loop of `replay_viewer` (lines 879-887). -/
def replay_viewer.warmup (opt : viewer_options) (r : Nat) :
    Nat → List (Option thrown) → List viewer_action × Option thrown
  | 0, _ => ([], none)
  | n + 1, outcomes =>
    if opt.skip_render then replay_viewer.warmup opt r n outcomes
    else
      match outcomes.head? with
      | some (some e) => ([.scene_update, .render r], some e)
      | _ =>
        ([.scene_update, .render r, .lb_update (some r)]
            ++ (replay_viewer.warmup opt r n outcomes.tail).1,
          (replay_viewer.warmup opt r n outcomes.tail).2)

/-- Lines 873-889 of `replay_viewer`: the renderer is created whenever `rr` is
empty; nothing is caught here. -/
def replay_viewer.create_phase (opt : viewer_options) (st : replay_state)
    (inp : viewer_input) : List viewer_action × Except thrown replay_state :=
  match st.rr with
  | some _ => ([], .ok st)
  | none =>
    match inp.create with
    | .error e => ([.create_renderer], .error e)
    | .ok r =>
      match inp.set_scene with
      | some e => ([.create_renderer, .renderer_reset (some r), .set_scene r], .error e)
      | none =>
        match replay_viewer.warmup opt r opt.warmup_frames inp.warmup with
        | (renders, some e) =>
          ([.create_renderer, .renderer_reset (some r), .set_scene r, .lb_update (some r),
              .set_displaying false] ++ renders,
            .error e)
        | (renders, none) =>
          ([.create_renderer, .renderer_reset (some r), .set_scene r, .lb_update (some r),
              .set_displaying false] ++ renders ++ [.set_displaying true],
            .ok { st with rr := some r })

/-- The handler of `vk::OutOfDateKHRError` in `replay_viewer` (lines 909-917):
the calls made and whether the loop is left by `break`. The test for `openxr`
is a second `if`, whose `else` holds the `break`. -/
def replay_viewer.out_of_date_handler (ctx : context_kind) : List viewer_action × Bool :=
  let calls : List viewer_action := [.renderer_reset none]
  let calls := if ctx = .window then calls ++ [.recreate_swapchains .window] else calls
  if ctx = .openxr then (calls ++ [.recreate_swapchains .openxr], false)
  else (calls, true)

/-- One pass through the body of the `for` loop of `replay_viewer`;
`is_animated` is the value of `s.is_playing()` before the loop. -/
def replay_viewer.iteration (opt : viewer_options) (ctx : context_kind) (is_animated : Bool)
    (st : replay_state) (inp : viewer_input) :
    List viewer_action × loop_step replay_state :=
  if opt.frames = 0 && is_animated && !inp.playing then ([], .exit st)
  else
    match replay_viewer.create_phase opt st inp with
    | (calls, .error e) => (calls, .raised e)
    | (calls, .ok st) =>
      if inp.init_frame then (calls ++ [.init_frame], .exit st)
      else
        let calls := calls ++ [.init_frame, .scene_update]
        if !opt.skip_render && decide ((st.i : Int) ≥ opt.skip_frames) then
          match st.rr with
          | none => (calls, .null_dereference)
          | some r =>
            match inp.frame with
            | none =>
              (calls ++ [.reset_accumulation r, .render r]
                  ++ (if opt.timing then [.print_timing] else []) ++ [.lb_update (some r)],
                .next { st with i := st.i + 1 })
            | some .out_of_date =>
              if (replay_viewer.out_of_date_handler ctx).2 then
                (calls ++ [.reset_accumulation r, .render r]
                    ++ (replay_viewer.out_of_date_handler ctx).1,
                  .exit { st with rr := none })
              else
                (calls ++ [.reset_accumulation r, .render r]
                    ++ (replay_viewer.out_of_date_handler ctx).1 ++ [.lb_update none],
                  .next { rr := none, i := st.i + 1 })
            | some e => (calls ++ [.reset_accumulation r, .render r], .raised e)
        else (calls ++ [.lb_update st.rr], .next { st with i := st.i + 1 })

/-- The `while(running)` loop of `interactive_viewer`, run for as long as the
list of inputs lasts: the calls made, and how the last pass ended. -/
def interactive_viewer.run (opt : viewer_options) (ctx : context_kind) :
    interactive_state → List viewer_input → List viewer_action × loop_step interactive_state
  | st, [] => ([], .next st)
  | st, inp :: rest =>
    if !st.running then ([], .exit st)
    else
      match interactive_viewer.iteration opt ctx st inp with
      | (calls, .next st) =>
        (calls ++ (interactive_viewer.run opt ctx st rest).1,
          (interactive_viewer.run opt ctx st rest).2)
      | (calls, ended) => (calls, ended)

/-- The `for` loop of `replay_viewer`, run for as long as the list of inputs
lasts; `frame_count` is the bound of the loop. -/
def replay_viewer.run (opt : viewer_options) (ctx : context_kind) (is_animated : Bool)
    (frame_count : Nat) :
    replay_state → List viewer_input → List viewer_action × loop_step replay_state
  | st, [] => ([], .next st)
  | st, inp :: rest =>
    if st.i ≥ frame_count then ([], .exit st)
    else
      match replay_viewer.iteration opt ctx is_animated st inp with
      | (calls, .next st) =>
        (calls ++ (replay_viewer.run opt ctx is_animated frame_count st rest).1,
          (replay_viewer.run opt ctx is_animated frame_count st rest).2)
      | (calls, ended) => (calls, ended)

/-! ## The shader sources of the path tracer (path_tracer_stage.cc) -/

/-- A computation that constructs `shader_source` objects: it reads and
extends the static map `binaries` and may throw. -/
abbrev construction (α : Type) :=
  std_map shader_source → Except exception α × std_map shader_source

/-- A value, with no construction. -/
def construction.pure {α : Type} (a : α) : construction α :=
  fun binaries => (.ok a, binaries)

/-- Sequencing: an exception ends the computation. -/
def construction.bind {α β : Type} (x : construction α) (f : α → construction β) :
    construction β :=
  fun binaries =>
    match x binaries with
    | (.ok a, binaries) => f a binaries
    | (.error e, binaries) => (.error e, binaries)

instance : Monad construction where
  pure := construction.pure
  bind := construction.bind

/-- The expression `shader_source(path, defines)` within a construction. -/
def construct (rs : resources) (tc : toolchain) (path : Str) (defines : std_map Str) :
    construction shader_source :=
  fun binaries => shader_source.new rs tc binaries path defines

/-- The expression `defines[key]` with no assignment: an absent key is
inserted with the empty string. -/
def std_map.touch (m : std_map Str) (key : Str) : std_map Str :=
  std_map.insert m key []

/-- The enumeration `film::filter` of the path tracer options. -/
inductive film_filter where
  | POINT
  | BOX
  | BLACKMAN_HARRIS
  deriving DecidableEq, Repr

/-- The members of `path_tracer_stage::options` that `load_sources` reads. A
floating-point member enters through the comparison that the code makes on it:
`russian_roulette_delta > 0` and `regularization_gamma != 0.0f`. -/
structure path_tracer_stage.options where
  max_ray_depth : Int
  russian_roulette_delta_positive : Bool
  use_shadow_terminator_fix : Bool
  use_white_albedo_on_first_bounce : Bool
  hide_lights : Bool
  transparent_background : Bool
  importance_sample_envmap : Bool
  regularization_gamma_nonzero : Bool
  film : film_filter
  deriving DecidableEq, Repr

/-- What `load_sources` uses of headers that are not under src: the function
`to_uppercase` of misc.hh, the function `rt_camera_stage::get_common_defines`,
and the names that the macro `TR_GBUFFER_ENTRIES` of gbuffer.hh lists. -/
structure stage_helpers where
  to_uppercase : Str → Str
  get_common_defines : std_map Str → std_map Str
  gbuffer_entries : List Str

/-- The values `eTrianglesHitGroup` and `eProceduralHitGroup` of
`vk::RayTracingShaderGroupTypeKHR`. -/
def eTrianglesHitGroup : Nat := 1
def eProceduralHitGroup : Nat := 2

/-- The defines that `path_tracer::load_sources` collects (lines 18-59);
`gbuf name` tells whether the G-buffer has the target `name`. -/
def path_tracer.defines (helpers : stage_helpers) (opt : path_tracer_stage.options)
    (gbuf : Str → Bool) : std_map Str :=
  let defines : std_map Str := []
  let defines := std_map.assign defines "MAX_BOUNCES".toList (toString opt.max_ray_depth).toList
  let defines :=
    if opt.russian_roulette_delta_positive then
      std_map.touch defines "USE_RUSSIAN_ROULETTE".toList
    else defines
  let defines :=
    if opt.use_shadow_terminator_fix then
      std_map.touch defines "USE_SHADOW_TERMINATOR_FIX".toList
    else defines
  let defines :=
    if opt.use_white_albedo_on_first_bounce then
      std_map.touch defines "USE_WHITE_ALBEDO_ON_FIRST_BOUNCE".toList
    else defines
  let defines :=
    if opt.hide_lights then std_map.touch defines "HIDE_LIGHTS".toList else defines
  let defines :=
    if opt.transparent_background then
      std_map.touch defines "USE_TRANSPARENT_BACKGROUND".toList
    else defines
  let defines :=
    if opt.importance_sample_envmap then
      std_map.touch defines "IMPORTANCE_SAMPLE_ENVMAP".toList
    else defines
  let defines :=
    if opt.regularization_gamma_nonzero then
      std_map.touch defines "PATH_SPACE_REGULARIZATION".toList
    else defines
  let defines := helpers.gbuffer_entries.foldl
    (fun defines name =>
      if gbuf name then
        std_map.touch defines ("USE_".toList ++ helpers.to_uppercase name ++ "_TARGET".toList)
      else defines)
    defines
  let defines :=
    match opt.film with
    | .POINT => std_map.touch defines "USE_POINT_FILTER".toList
    | .BOX => std_map.touch defines "USE_BOX_FILTER".toList
    | .BLACKMAN_HARRIS => std_map.touch defines "USE_BLACKMAN_HARRIS_FILTER".toList
  helpers.get_common_defines defines

/-- The function `path_tracer::load_sources`: the two sources without defines
are constructed first, then the members of the returned set from left to right. -/
def path_tracer.load_sources (rs : resources) (tc : toolchain) (helpers : stage_helpers)
    (opt : path_tracer_stage.options) (gbuf : Str → Bool) : construction shader_sources := do
  let pl_rint ← construct rs tc "shader/path_tracer_point_light.rint".toList []
  let shadow_chit ← construct rs tc "shader/path_tracer_shadow.rchit".toList []
  let defines := path_tracer.defines helpers opt gbuf
  let rgen ← construct rs tc "shader/path_tracer.rgen".toList defines
  let rchit ← construct rs tc "shader/path_tracer.rchit".toList defines
  let rahit ← construct rs tc "shader/path_tracer.rahit".toList defines
  let shadow_rahit ← construct rs tc "shader/path_tracer_shadow.rahit".toList defines
  let pl_rchit ← construct rs tc "shader/path_tracer_point_light.rchit".toList defines
  let rmiss ← construct rs tc "shader/path_tracer.rmiss".toList defines
  let shadow_rmiss ← construct rs tc "shader/path_tracer_shadow.rmiss".toList defines
  pure
    { vert := shader_source.empty
      frag := shader_source.empty
      rgen := rgen
      rhit :=
        [ ⟨eTrianglesHitGroup, rchit, rahit, shader_source.empty⟩,
          ⟨eTrianglesHitGroup, shadow_chit, shadow_rahit, shader_source.empty⟩,
          ⟨eProceduralHitGroup, pl_rchit, shader_source.empty, pl_rint⟩,
          ⟨eProceduralHitGroup, shadow_chit, shader_source.empty, pl_rint⟩ ]
      rmiss := [rmiss, shadow_rmiss]
      comp := shader_source.empty }

/-! ## The jitter history (svgf_stage.cc) -/

/-- A `vec2` of glm. -/
abbrev vec2 := float32 × float32

/-- A `vec4` of glm. -/
abbrev vec4 := float32 × float32 × float32 × float32

/-- The model of `std::vector::resize(n)`: the vector is cut to `n` elements or
filled up to `n` elements with value-initialised ones. -/
def vector_resize {α : Type} (v : List α) (n : Nat) (fill : α) : List α :=
  (v ++ List.replicate (n - v.length) fill).take n

/-- The body of the loop of `svgf_stage::update` for viewport `i`.
`camera_jitter k` is the jitter of the camera that `cur_scene->get_camera(k)`
returns and `none` when it returns `nullptr`, which the code dereferences;
the conversion of a `vec4` to a `vec2` keeps its first two components. -/
def svgf_stage.update_viewport (existing : Bool) (camera_jitter : Nat → Option vec2)
    (jitter_history : List vec4) (i : Nat) : Option (List vec4) :=
  match jitter_history[i]?, camera_jitter (i % 2 ^ 32) with
  | some v, some cur_jitter =>
    let prev_jitter : vec2 := (v.1, v.2.1)
    let prev_jitter : vec2 := if existing then prev_jitter else cur_jitter
    some (jitter_history.set i (cur_jitter.1, cur_jitter.2, prev_jitter.1, prev_jitter.2))
  | _, _ => none

/-- The function `svgf_stage::update`, as far as the member `jitter_history`
goes: the result is the history that the call leaves behind and uploads. -/
def svgf_stage.update (_opt : svgf_stage.options) (camera_jitter : Nat → Option vec2)
    (jitter_history : List vec4) : Option (List vec4) :=
  let existing : Bool := decide (jitter_history.length ≠ 0)
  let viewport_count : Nat := 1
  let jitter_history := vector_resize jitter_history viewport_count
    (.bits 0, .bits 0, .bits 0, .bits 0)
  (List.range viewport_count).foldlM (svgf_stage.update_viewport existing camera_jitter)
    jitter_history

/-! ## The push constants of the path tracer (path_tracer_stage.cc) -/

/-- The members of `path_tracer_stage::options` that
`record_command_buffer_push_constants` reads. The header is not under src;
`samples_per_pixel` is an `int`, the code subtracts an `int` from it and passes
the difference to `min` next to the literal `1`. -/
structure path_tracer_stage.sampling_options where
  samples_per_pixel : Int
  film : film_filter
  film_radius : float32
  russian_roulette_delta : float32
  min_ray_dist : float32
  indirect_clamping : float32
  regularization_gamma : float32
  deriving DecidableEq, Repr

/-- What the stage reads of an `environment_map`: `get_factor()` (a `vec3`) and
`get_projection()` converted to `int`. -/
structure environment_map where
  factor : float32 × float32 × float32
  projection : Int
  deriving DecidableEq, Repr

/-- The record `path_tracer::push_constant_buffer`. -/
structure path_tracer.push_constant_buffer where
  samples : Nat
  previous_samples : Nat
  min_ray_dist : float32
  indirect_clamping : float32
  film_radius : float32
  russian_roulette_delta : float32
  antialiasing : Int
  environment_proj : Int
  environment_factor : vec4
  regularization_gamma : float32
  deriving DecidableEq, Repr

/-- The function `path_tracer_stage::record_command_buffer_push_constants`: the
record that it pushes. The subtraction is made on `int`; the result is `none`
when it leaves the range of `int`, where the behaviour is undefined. -/
def path_tracer_stage.record_command_buffer_push_constants
    (opt : path_tracer_stage.sampling_options) (envmap : Option environment_map)
    (pass_index : Nat) : Option path_tracer.push_constant_buffer :=
  let environment_factor : vec4 :=
    match envmap with
    | some e => (e.factor.1, e.factor.2.1, e.factor.2.2, .bits 0x3F800000)
    | none => (.bits 0, .bits 0, .bits 0, .bits 0)
  let environment_proj : Int :=
    match envmap with
    | some e => e.projection
    | none => -1
  let previous_samples : Nat := pass_index % 2 ^ 32
  let difference : Int := opt.samples_per_pixel - to_int32 previous_samples
  if difference < -(2 ^ 31) ∨ 2 ^ 31 ≤ difference then none
  else
    some
      { samples := to_uint32 (min difference 1)
        previous_samples := previous_samples
        min_ray_dist := opt.min_ray_dist
        indirect_clamping := opt.indirect_clamping
        film_radius := opt.film_radius
        russian_roulette_delta := opt.russian_roulette_delta
        antialiasing := if opt.film ≠ film_filter.POINT then 1 else 0
        environment_proj := environment_proj
        environment_factor := environment_factor
        regularization_gamma := opt.regularization_gamma }

/-! ## The order of the viewports (scene.cc) -/

/-- The test `active_indices.count(i)` of a `size_t` index on a
`std::set<int>`: the index is converted to `int`. -/
def set_count (active_indices : List Int) (i : Nat) : Bool :=
  decide (to_int32 i ∈ active_indices)

/-- The function `get_viewport_reorder_mask`; an index is stored as a
`uint32_t`. -/
def get_viewport_reorder_mask (active_indices : List Int) (viewport_count : Nat) :
    List Nat :=
  let reorder : List Nat := (List.range viewport_count).foldl
    (fun reorder i => if set_count active_indices i then reorder ++ [i % 2 ^ 32] else reorder)
    []
  (List.range viewport_count).foldl
    (fun reorder i => if !set_count active_indices i then reorder ++ [i % 2 ^ 32] else reorder)
    reorder

/-- The function `scene::reorder_cameras_by_active`: the member `cameras` that
the call leaves behind. -/
def scene.reorder_cameras_by_active {camera : Type} (cameras : List camera)
    (active_indices : List Int) : List camera :=
  let new_cameras : List camera := (List.range cameras.length).foldl
    (fun new_cameras i =>
      if set_count active_indices i then new_cameras ++ cameras[i]?.toList else new_cameras)
    []
  (List.range cameras.length).foldl
    (fun new_cameras i =>
      if !set_count active_indices i then new_cameras ++ cameras[i]?.toList else new_cameras)
    new_cameras

/-! ## Specification-side notions -/

/-- The lines of a text: each newline ends a line; text after the last newline
is a line of its own when it is not empty. -/
def text_lines : Str → List Str
  | [] => []
  | c :: rest =>
    if c = '\n' then [] :: text_lines rest
    else
      match text_lines rest with
      | [] => [[c]]
      | l :: ls => (c :: l) :: ls

/-- The stage sources of a set in the order in which they are merged. -/
def shader_sources.stages (self : shader_sources) : List shader_source :=
  [self.vert, self.frag, self.rgen]
    ++ self.rhit.flatMap (fun hg => [hg.rchit, hg.rahit, hg.rint])
    ++ self.rmiss ++ [self.comp]

/-- Every descriptor binding of every stage, in merge order. -/
def shader_sources.all_bindings (self : shader_sources) : List DescriptorSetLayoutBinding :=
  self.stages.flatMap (fun src => src.bindings)

/-- The bitwise OR of the stage flags of the bindings with the given slot. -/
def flags_of_slot (slot : Nat) (l : List DescriptorSetLayoutBinding) : Nat :=
  ((l.filter (fun b => b.binding = slot)).map (fun b => b.stageFlags)).foldl (fun x y => x ||| y) 0

/-- The maximum of the descriptor counts of the bindings with the given slot. -/
def count_of_slot (slot : Nat) (l : List DescriptorSetLayoutBinding) : Nat :=
  ((l.filter (fun b => b.binding = slot)).map (fun b => b.descriptorCount)).foldl max 0

/-- The bitwise OR of the stage flags of the `i`-th push-constant range over
the stage sources that have an `i`-th range. -/
def pc_flags_at (i : Nat) (stages : List shader_source) : Nat :=
  ((stages.filterMap (fun src => src.push_constant_ranges[i]?)).map
    (fun r => r.stageFlags)).foldl (fun x y => x ||| y) 0

/-- The largest number of push-constant ranges that one stage source declares. -/
def max_pc_range_count (stages : List shader_source) : Nat :=
  (stages.map (fun src => src.push_constant_ranges.length)).foldl max 0

/-- The dispatches and barriers of a command buffer in recording order, each
dispatch with the pipeline bound when it is recorded. -/
inductive work_item where
  | dispatch (pipeline : Option pipeline_name)
  | barrier
  deriving DecidableEq, Repr

/-- The work items of a command buffer, `bound` being the pipeline bound so far. -/
def work_items (bound : Option pipeline_name) : List command → List work_item
  | [] => []
  | .bind pipeline _ :: rest => work_items (some pipeline) rest
  | .dispatch _ _ _ :: rest => .dispatch bound :: work_items bound rest
  | .pipeline_barrier _ _ _ _ :: rest => .barrier :: work_items bound rest
  | .timer_begin _ :: rest => work_items bound rest
  | .timer_end _ :: rest => work_items bound rest
  | .upload _ :: rest => work_items bound rest
  | .transition_layout_temporary _ _ _ :: rest => work_items bound rest
  | .push_constants _ :: rest => work_items bound rest

/-- The workgroup counts of the dispatches of a command buffer. -/
def dispatch_sizes : List command → List (Nat × Nat × Nat)
  | [] => []
  | .dispatch x y z :: rest => (x, y, z) :: dispatch_sizes rest
  | _ :: rest => dispatch_sizes rest

/-- The number `x` is the ceiling of `w / d`: the least number of groups of `d`
that cover `w`. -/
def is_ceil_div (w d x : Nat) : Prop :=
  w ≤ d * x ∧ ∀ n, w ≤ d * n → x ≤ n

/-- The dispatches and barriers of a command buffer in recording order: a
dispatch with the pipeline bound when it is recorded and, when the constants
pushed last are those of an à-trous pass, their `iteration`; a barrier with its
stage and access masks. -/
inductive pass_item where
  | dispatch (pipeline : Option pipeline_name) (iteration : Option Int)
  | barrier (src_stage dst_stage src_access dst_access : Nat)
  deriving DecidableEq, Repr

/-- The member `iteration` of pushed constants, for those of an à-trous pass. -/
def pushed_iteration : Option push_constants_value → Option Int
  | some (.atrous control) => some control.iteration
  | _ => none

/-- The pass items of a command buffer, `bound` being the pipeline bound so far
and `pushed` the constants pushed last. -/
def pass_items (bound : Option pipeline_name) (pushed : Option push_constants_value) :
    List command → List pass_item
  | [] => []
  | .bind pipeline _ :: rest => pass_items (some pipeline) pushed rest
  | .push_constants control :: rest => pass_items bound (some control) rest
  | .dispatch _ _ _ :: rest =>
    .dispatch bound (pushed_iteration pushed) :: pass_items bound pushed rest
  | .pipeline_barrier a b c d :: rest => .barrier a b c d :: pass_items bound pushed rest
  | .timer_begin _ :: rest => pass_items bound pushed rest
  | .timer_end _ :: rest => pass_items bound pushed rest
  | .upload _ :: rest => pass_items bound pushed rest
  | .transition_layout_temporary _ _ _ :: rest => pass_items bound pushed rest

/-- The à-trous records that a command buffer pushes, in recording order. -/
def atrous_pushes : List command → List push_constant_buffer_atrous
  | [] => []
  | .push_constants (.atrous control) :: rest => control :: atrous_pushes rest
  | _ :: rest => atrous_pushes rest

/-- A run of calls of `svgf_stage::update`, one element of `calls` being the
camera jitters that the scene holds at that call. -/
def svgf_stage.updates (opt : svgf_stage.options) :
    List (Nat → Option vec2) → List vec4 → Option (List vec4)
  | [], jitter_history => some jitter_history
  | camera_jitter :: rest, jitter_history =>
    (svgf_stage.update opt camera_jitter jitter_history).bind (svgf_stage.updates opt rest)

/-- What the override pass leaves of a merged binding `m`: the count of the
last override, in iteration order, whose name the merged name map sends to the
slot of `m`; the binding itself when there is no such override. -/
def overridden (names : std_map Nat) (count_overrides : std_map Nat)
    (m : DescriptorSetLayoutBinding) : DescriptorSetLayoutBinding :=
  match (count_overrides.filter
      (fun p => std_map.find names p.1 = some m.binding)).getLast? with
  | some p => { m with descriptorCount := p.2 }
  | none => m

/-- The twelve names that `get_descriptor_info` lists first. -/
def scene_protocol_names : List Str :=
  [ "scene".toList, "scene_metadata".toList, "vertices".toList, "indices".toList,
    "textures".toList, "directional_lights".toList, "point_lights".toList,
    "tri_lights".toList, "environment_map_tex".toList,
    "environment_map_alias_table".toList, "textures3d".toList, "sh_grids".toList ]

/-- The four names of the shadow-map bindings. -/
def shadow_map_names : List Str :=
  [ "shadow_maps".toList, "shadow_map_cascades".toList, "shadow_map_atlas".toList,
    "shadow_map_atlas_test".toList ]

/-- The record is what the constructor returns for `(path, defines)` from some
state of the binary cache. -/
def built_from (rs : resources) (tc : toolchain) (path : Str) (defines : std_map Str)
    (record : shader_source) : Prop :=
  ∃ binaries, (shader_source.new rs tc binaries path defines).1 = .ok record

/-! ## Concrete inputs -/

/-- Scenario S1: slot 0 is named `x` by the vertex stage and `y` by the
fragment stage, both with count 1. -/
def s1_sources : shader_sources :=
  { vert := ⟨[], [⟨0, 7, 1, eVertex⟩], [], [("x".toList, 0)]⟩
    frag := ⟨[], [⟨0, 7, 1, eFragment⟩], [], [("y".toList, 0)]⟩
    rgen := shader_source.empty
    rhit := []
    rmiss := []
    comp := shader_source.empty }

/-- The name `x` is bound to slot 0 by the vertex stage and to slot 1 by the
fragment stage. -/
def name_conflict_sources : shader_sources :=
  { vert := ⟨[], [⟨0, 7, 1, eVertex⟩], [], [("x".toList, 0)]⟩
    frag := ⟨[], [⟨1, 7, 1, eFragment⟩], [], [("x".toList, 1)]⟩
    rgen := shader_source.empty
    rhit := []
    rmiss := []
    comp := shader_source.empty }

/-- A compute source with a uniform buffer (descriptor type 6) at slot 0. -/
def uniform_at_slot0 : shader_source :=
  ⟨[], [⟨0, 6, 1, eCompute⟩], [], [("u".toList, 0)]⟩

/-- A compute source with a storage buffer (descriptor type 7) at slot 0. -/
def storage_at_slot0 : shader_source :=
  ⟨[], [⟨0, 7, 1, eCompute⟩], [], [("u".toList, 0)]⟩

/-- A fragment source with a three-element uniform buffer array at slot 0 and a
storage buffer at slot 1. -/
def uniform_array_frag : shader_source :=
  ⟨[], [⟨0, 6, 3, eFragment⟩, ⟨1, 7, 4, eFragment⟩], [], [("u".toList, 0), ("v".toList, 1)]⟩

/-- A file system in which every path holds the same two-line shader. -/
def one_text_resources : resources :=
  { get_resource_path := fun path => path
    load_text_file := fun _ => .ok "#version 460\nvoid main() \x7b\x7d\n".toList }

/-- A toolchain that compiles every text to the same two SPIR-V words and
reflects one storage buffer `buf` at slot 0 and one 16-byte push-constant block. -/
def one_binding_toolchain : toolchain :=
  { glslang := fun _ _ _ => .spirv [119734787, 66816]
    spv_reflect := fun _ => .module [⟨0, 7, 1, "buf".toList⟩] [⟨0, 16⟩] }

/-- A scene on a context without ray tracing, with no shadow map renderer and
no SH grid textures. -/
def raster_scene : scene :=
  { ray_tracing_supported := false
    tlas := fun _ => 0
    smr := none
    sh_grids := []
    sh_grid_textures := none
    environment_map := none
    vertex_buffer_count := 1
    index_buffer_count := 1
    texture_count := 0
    camera_data_offsets := fun _ => (0, 0)
    shadow_map_range := 0
    shadow_map_cascade_range := 0 }

/-- Options of a viewer run: no warm-up, accumulation on. -/
def plain_viewer_options : viewer_options :=
  { warmup_frames := 0
    skip_render := false
    accumulation := true
    timing := false
    skip_frames := 0
    frames := 10 }

/-- An iteration in which nothing happens: no event, and every call succeeds;
`create_renderer`, if called, returns renderer 1. -/
def quiet_input : viewer_input :=
  { create := .ok 1
    set_scene := none
    warmup := []
    events := []
    init_frame := false
    camera_movement := false
    ply_refresh := false
    playing := true
    frame := none }

/-- Helpers for the path tracer sources: ASCII upper case, no common defines,
and the two G-buffer entries `color` and `normal`. -/
def plain_stage_helpers : stage_helpers :=
  { to_uppercase := fun name => name.map Char.toUpper
    get_common_defines := fun defines => defines
    gbuffer_entries := ["color".toList, "normal".toList] }

/-- Path tracer options with every flag off and the point filter. -/
def plain_path_tracer_options : path_tracer_stage.options :=
  { max_ray_depth := 8
    russian_roulette_delta_positive := false
    use_shadow_terminator_fix := false
    use_white_albedo_on_first_bounce := false
    hide_lights := false
    transparent_background := false
    importance_sample_envmap := false
    regularization_gamma_nonzero := false
    film := .POINT }

/-- What `get_descriptor_info` returns for `raster_scene`, device 0, camera 0. -/
def raster_descriptors : List descriptor_state :=
  match raster_scene.get_descriptor_info 0 0 with
  | .ok descriptors => descriptors
  | .error _ => []

/-- A set whose vertex stage lists slot 3 twice and whose fragment stage
lists slot 1. -/
def slot_listed_twice : shader_sources :=
  { vert := { data := [1], bindings := [⟨3, 7, 1, eVertex⟩, ⟨3, 7, 4, eVertex⟩],
              push_constant_ranges := [], binding_names := [("a".toList, 3)] }
    frag := { data := [2], bindings := [⟨1, 6, 2, eFragment⟩],
              push_constant_ranges := [], binding_names := [("b".toList, 1)] }
    rgen := shader_source.empty
    rhit := []
    rmiss := []
    comp := shader_source.empty }

/-- Options of the SVGF stage that ask for two active viewports. -/
def two_viewport_options : svgf_stage.options :=
  { active_viewport_count := 2, atrous_diffuse_iters := 4, atrous_spec_iters := 4
    atrous_kernel_radius := 2, sigma_l := .bits 0, sigma_z := .bits 0, sigma_n := .bits 0
    temporal_alpha_color := .bits 0, temporal_alpha_moments := .bits 0 }

/-- A scene of two cameras: the jitter of camera `k` has the bit patterns
`(10 + k, 20 + k)`. -/
def two_camera_jitter (k : Nat) : Option vec2 :=
  if k < 2 then some (.bits (10 + k), .bits (20 + k)) else none

/-- Sampling options with the given `samples_per_pixel`. -/
def sampling_options_of (samples_per_pixel : Int) : path_tracer_stage.sampling_options :=
  { samples_per_pixel := samples_per_pixel, film := .BLACKMAN_HARRIS
    film_radius := .bits 0x3F800000, russian_roulette_delta := .bits 0
    min_ray_dist := .bits 0, indirect_clamping := .bits 0, regularization_gamma := .bits 0 }

/-- A toolchain whose front end rejects every text. -/
def failing_toolchain : toolchain :=
  { glslang := fun _ _ _ => .parse_failed "error".toList
    spv_reflect := fun _ => .failure 1 }

/-- The set that `load_sources` returns when every shader file holds the text
of `one_text_resources`, from an empty binary cache. -/
def plain_path_tracer_sources : shader_sources :=
  match (path_tracer.load_sources one_text_resources one_binding_toolchain
      plain_stage_helpers plain_path_tracer_options (fun _ => true) []).1 with
  | .ok sources => sources
  | .error _ => ⟨.empty, .empty, .empty, [], [], .empty⟩

/-! # Theorems

## Strings and maps -/

theorem char_toNat_inj {a b : Char} (h : a.toNat = b.toNat) : a = b := by
  apply Char.ext
  apply UInt32.ext
  exact h

theorem str_lt_irrefl (a : Str) : str_lt a a = false := by
  induction a with
  | nil => rfl
  | cons c rest ih => simp [str_lt, ih]

theorem str_lt_trans : ∀ (a b c : Str), str_lt a b = true → str_lt b c = true → str_lt a c = true
  | [], [], _, h, _ => by simp [str_lt] at h
  | [], _ :: _, [], _, h => by simp [str_lt] at h
  | [], _ :: _, _ :: _, _, _ => by simp [str_lt]
  | _ :: _, [], _, h, _ => by simp [str_lt] at h
  | _ :: _, _ :: _, [], _, h => by simp [str_lt] at h
  | x :: xs, y :: ys, z :: zs, h1, h2 => by
    simp only [str_lt] at h1 h2 ⊢
    split_ifs at h1 h2 ⊢ <;> first
      | rfl
      | omega
      | exact str_lt_trans xs ys zs h1 h2

theorem str_lt_total : ∀ (a b : Str), str_lt a b = false → a ≠ b → str_lt b a = true
  | [], [], _, h => absurd rfl h
  | [], _ :: _, h, _ => by simp [str_lt] at h
  | _ :: _, [], _, _ => by simp [str_lt]
  | x :: xs, y :: ys, h1, h2 => by
    simp only [str_lt] at h1 ⊢
    split_ifs at h1 ⊢ <;> first
      | rfl
      | omega
      | (have hxy : x = y := char_toNat_inj (by omega)
         subst hxy
         exact str_lt_total xs ys h1 (fun h => h2 (by rw [h])))

theorem std_map.find_assign_same {V : Type} (m : std_map V) (k : Str) (v : V) :
    std_map.find (std_map.assign m k v) k = some v := by
  induction m with
  | nil => simp [std_map.assign, std_map.find]
  | cons p rest ih =>
    obtain ⟨k', v'⟩ := p
    simp only [std_map.assign]
    split_ifs with h1 h2
    · simp [std_map.find, h1]
    · simp [std_map.find]
    · simp [std_map.find, h1, ih]

theorem std_map.find_assign_ne {V : Type} (m : std_map V) (k key : Str) (v : V) (h : key ≠ k) :
    std_map.find (std_map.assign m k v) key = std_map.find m key := by
  induction m with
  | nil => simp [std_map.assign, std_map.find, h.symm]
  | cons p rest ih =>
    obtain ⟨k', v'⟩ := p
    simp only [std_map.assign]
    split_ifs with h1 h2
    · subst h1; simp [std_map.find, h.symm]
    · simp [std_map.find, h.symm]
    · simp [std_map.find, ih]

theorem std_map.mem_assign {V : Type} (m : std_map V) (k : Str) (v : V) (q : Str × V)
    (hq : q ∈ std_map.assign m k v) : q ∈ m ∨ q = (k, v) := by
  induction m with
  | nil => simp [std_map.assign] at hq; exact Or.inr hq
  | cons p rest ih =>
    obtain ⟨k', v'⟩ := p
    simp only [std_map.assign] at hq
    split_ifs at hq with h1 h2
    · subst h1
      rcases List.mem_cons.1 hq with h | h
      · exact Or.inr h
      · exact Or.inl (List.mem_cons_of_mem _ h)
    · rcases List.mem_cons.1 hq with h | h
      · exact Or.inr h
      · exact Or.inl h
    · rcases List.mem_cons.1 hq with h | h
      · exact Or.inl (h ▸ List.mem_cons_self _ _)
      · rcases ih h with h' | h'
        · exact Or.inl (List.mem_cons_of_mem _ h')
        · exact Or.inr h'

theorem std_map.wf_assign {V : Type} (m : std_map V) (k : Str) (v : V) (h : std_map.wf m) :
    std_map.wf (std_map.assign m k v) := by
  induction m with
  | nil => simp [std_map.assign, std_map.wf]
  | cons p rest ih =>
    obtain ⟨k', v'⟩ := p
    unfold std_map.wf at h
    rw [List.pairwise_cons] at h
    obtain ⟨hhead, htail⟩ := h
    simp only [std_map.assign]
    split_ifs with h1 h2
    · subst h1
      exact List.pairwise_cons.2 ⟨hhead, htail⟩
    · refine List.pairwise_cons.2 ⟨?_, List.pairwise_cons.2 ⟨hhead, htail⟩⟩
      intro q hq
      rcases List.mem_cons.1 hq with hq | hq
      · subst hq; exact h2
      · exact str_lt_trans _ _ _ h2 (hhead q hq)
    · refine List.pairwise_cons.2 ⟨?_, ih htail⟩
      intro q hq
      rcases std_map.mem_assign rest k v q hq with hq | hq
      · exact hhead q hq
      · subst hq
        exact str_lt_total _ _ (by simpa using h2) (fun e => h1 e.symm)

theorem std_map.wf_of_list {V : Type} (entries : List (Str × V)) :
    std_map.wf (std_map.of_list entries) := by
  unfold std_map.of_list
  suffices h : ∀ (m : std_map V), std_map.wf m →
      std_map.wf (entries.foldl (fun m p => std_map.assign m p.1 p.2) m) from
    h [] List.Pairwise.nil
  induction entries with
  | nil => intro m hm; exact hm
  | cons p rest ih => intro m hm; exact ih _ (std_map.wf_assign m p.1 p.2 hm)

theorem generate_definition_src_foldl (defines : std_map Str) (acc : Str) :
    defines.foldl
      (fun ss pair =>
        ss ++ "#define ".toList ++ pair.1 ++ " ".toList ++ remove_newlines pair.2 ++ ['\n'])
      acc
    = acc ++ (defines.map (fun p =>
        "#define ".toList ++ p.1 ++ " ".toList ++ p.2.filter (fun c => c != '\n') ++ ['\n'])).flatten := by
  induction defines generalizing acc with
  | nil => simp
  | cons p rest ih =>
    rw [List.foldl_cons, ih]
    simp [remove_newlines, List.append_assoc]

theorem text_lines_terminated (l rest : Str) (h : '\n' ∉ l) :
    text_lines (l ++ '\n' :: rest) = l :: text_lines rest := by
  induction l with
  | nil => simp [text_lines]
  | cons c cs ih =>
    have hc : c ≠ '\n' := fun e => h (e ▸ List.mem_cons_self _ _)
    have hcs : '\n' ∉ cs := fun e => h (List.mem_cons_of_mem _ e)
    simp [text_lines, hc, ih hcs]

theorem text_lines_flatten (ls : List Str) (h : ∀ l ∈ ls, '\n' ∉ l) :
    text_lines (ls.map (fun l => l ++ ['\n'])).flatten = ls := by
  induction ls with
  | nil => simp [text_lines]
  | cons l rest ih =>
    have h1 : '\n' ∉ l := h l (List.mem_cons_self _ _)
    have h2 : ∀ l ∈ rest, '\n' ∉ l := fun x hx => h x (List.mem_cons_of_mem _ hx)
    simp only [List.map_cons, List.flatten_cons, List.append_assoc, List.singleton_append]
    rw [text_lines_terminated l _ h1, ih h2]

/-! ## The injected defines -/

theorem generate_definition_src_eq (defines : std_map Str) :
    generate_definition_src defines
      = (defines.map (fun p =>
          "#define ".toList ++ p.1 ++ " ".toList ++ p.2.filter (fun c => c != '\n')
            ++ ['\n'])).flatten := by
  unfold generate_definition_src
  rw [generate_definition_src_foldl]
  simp

theorem generate_definition_src_text_lines (defines : std_map Str)
    (h : ∀ p ∈ defines, '\n' ∉ p.1) :
    text_lines (generate_definition_src defines)
      = defines.map (fun p =>
          "#define ".toList ++ p.1 ++ " ".toList ++ p.2.filter (fun c => c != '\n')) := by
  rw [generate_definition_src_eq]
  have := text_lines_flatten (defines.map (fun p =>
          "#define ".toList ++ p.1 ++ " ".toList ++ p.2.filter (fun c => c != '\n'))) (by
    intro l hl
    obtain ⟨p, hp, rfl⟩ := List.mem_map.1 hl
    have := h p hp
    simp [List.mem_append, List.mem_filter, this])
  rw [List.map_map] at this
  exact this

/-- Claim C9: for every defines map (every map built by assigning entries to an
empty `std::map`), `generate_definition_src` returns the concatenation, in the
iteration order of the map, which is ascending key order, of one line
`#define <key> <value'>` plus a line terminator per entry, where `value'` is the
value with every newline character removed; the empty map gives the empty
string. -/
theorem generate_definition_src_ascending_lines (entries : List (Str × Str)) :
    generate_definition_src (std_map.of_list entries)
        = ((std_map.of_list entries).map (fun p =>
            "#define ".toList ++ p.1 ++ " ".toList ++ p.2.filter (fun c => c != '\n')
              ++ ['\n'])).flatten
      ∧ List.Pairwise (fun p q => str_lt p.1 q.1 = true) (std_map.of_list entries)
      ∧ generate_definition_src [] = [] :=
  ⟨generate_definition_src_eq _, std_map.wf_of_list entries, rfl⟩

/-- Claim C2: a define value cannot inject a line. For every defines map whose
keys contain no newline, the text of `generate_definition_src` has exactly as
many lines as the map has entries, and every line starts with `#define <key> `
for a key of the map. -/
theorem define_value_cannot_inject_line (defines : std_map Str)
    (h : ∀ p ∈ defines, '\n' ∉ p.1) :
    (text_lines (generate_definition_src defines)).length = defines.length
      ∧ ∀ l ∈ text_lines (generate_definition_src defines),
          ∃ p ∈ defines, ("#define ".toList ++ p.1 ++ " ".toList) <+: l := by
  rw [generate_definition_src_text_lines defines h]
  refine ⟨by simp, ?_⟩
  intro l hl
  obtain ⟨p, hp, rfl⟩ := List.mem_map.1 hl
  exact ⟨p, hp, List.prefix_append _ _⟩

/-- Scenario S2 for claim C2: the value `1`, newline, `#define EVIL 2` of the
key `K` yields the single line `#define K 1#define EVIL 2`. -/
theorem define_value_cannot_inject_line_witness :
    (∀ p ∈ [("K".toList, "1\n#define EVIL 2".toList)], '\n' ∉ p.1)
      ∧ text_lines (generate_definition_src [("K".toList, "1\n#define EVIL 2".toList)])
          = ["#define K 1#define EVIL 2".toList]
      ∧ ((text_lines (generate_definition_src
            [("K".toList, "1\n#define EVIL 2".toList)])).length = 1
        ∧ ∀ l ∈ text_lines (generate_definition_src
            [("K".toList, "1\n#define EVIL 2".toList)]),
          ∃ p ∈ [("K".toList, "1\n#define EVIL 2".toList)],
            ("#define ".toList ++ p.1 ++ " ".toList) <+: l) :=
  ⟨by decide, by decide,
    define_value_cannot_inject_line [("K".toList, "1\n#define EVIL 2".toList)] (by decide)⟩

/-! ## Splicing -/

theorem find_char_from_terminated (ch : Char) (l r : Str) (i : Nat) (h : ch ∉ l) :
    find_char_from ch (l ++ ch :: r) i = i + l.length := by
  induction l generalizing i with
  | nil => simp [find_char_from]
  | cons c cs ih =>
    have hc : c ≠ ch := fun e => h (e ▸ List.mem_cons_self _ _)
    have hcs : ch ∉ cs := fun e => h (List.mem_cons_of_mem _ e)
    rw [List.cons_append, find_char_from, if_neg hc, ih (i + 1) hcs, List.length_cons]
    omega

/-- When a newline follows the first `#version`, the defines go right after
the line that holds it. -/
theorem splice_defines_after_version_line (pre line rest defs : Str)
    (hfirst : string_find (pre ++ line ++ '\n' :: rest) "#version".toList = pre.length)
    (hline : '\n' ∉ line)
    (hlen : (pre ++ line ++ '\n' :: rest).length < npos) :
    splice_defines (pre ++ line ++ '\n' :: rest) defs
      = .ok (pre ++ line ++ ['\n'] ++ defs ++ rest) := by
  have hlen' : pre.length + (line.length + (rest.length + 1)) < 2 ^ 64 - 1 := by
    simpa [npos, List.length_append] using hlen
  have hne : pre.length ≠ npos := by
    unfold npos
    omega
  have hnl : find_first_of (pre ++ line ++ '\n' :: rest) '\n' pre.length
      = pre.length + line.length := by
    unfold find_first_of
    rw [List.append_assoc, List.drop_left]
    exact find_char_from_terminated _ _ _ _ hline
  have hmod : (pre.length + line.length + 1) % 2 ^ 64 = pre.length + line.length + 1 :=
    Nat.mod_eq_of_lt (by omega)
  have hsplit : pre ++ line ++ '\n' :: rest = (pre ++ line ++ ['\n']) ++ rest := by simp
  have hl : (pre ++ line ++ ['\n']).length = pre.length + line.length + 1 := by
    simp [List.length_append]
    omega
  simp only [splice_defines, hfirst, if_neg hne, hnl, hmod]
  have h1 : substr (pre ++ line ++ '\n' :: rest) 0 (pre.length + line.length + 1)
      = .ok (pre ++ line ++ ['\n']) := by
    unfold substr
    rw [if_neg (by omega), List.drop_zero, hsplit, ← hl, List.take_left]
  have h2 : substr_from (pre ++ line ++ '\n' :: rest) (pre.length + line.length + 1)
      = .ok rest := by
    unfold substr_from
    rw [if_neg (by simp [List.length_append]; omega), hsplit, ← hl, List.drop_left]
  rw [h1, h2]


/-- Claim C1 fails on the code when no line terminator follows `#version`:
`find_first_of` returns `npos`, `npos + 1` wraps to `0`, and the defines are
put in front of the source, so the `#version` line moves from line 1 to line 2
and no `#define` line follows it. -/
theorem splice_defines_version_without_newline :
    splice_defines "#version 460".toList
        (generate_definition_src [("K".toList, "1".toList)])
      = .ok "#define K 1\n#version 460".toList := by
  rfl

/-! ## The constructor and the binary cache -/

theorem shader_source.new_load_error (rs : resources) (tc : toolchain)
    (binaries : std_map shader_source) (path : Str) (defines : std_map Str) (e : exception)
    (hl : rs.load_text_file (rs.get_resource_path path) = .error e) :
    shader_source.new rs tc binaries path defines = (.error e, binaries) := by
  simp only [shader_source.new, hl]

theorem shader_source.new_splice_error (rs : resources) (tc : toolchain)
    (binaries : std_map shader_source) (path : Str) (defines : std_map Str) (src : Str)
    (e : exception)
    (hl : rs.load_text_file (rs.get_resource_path path) = .ok src)
    (hs : splice_defines src (generate_definition_src defines) = .error e) :
    shader_source.new rs tc binaries path defines = (.error e, binaries) := by
  simp only [shader_source.new, hl, hs]

theorem shader_source.new_hit (rs : resources) (tc : toolchain)
    (binaries : std_map shader_source) (path : Str) (defines : std_map Str)
    (src spliced : Str) (second : shader_source)
    (hl : rs.load_text_file (rs.get_resource_path path) = .ok src)
    (hs : splice_defines src (generate_definition_src defines) = .ok spliced)
    (hf : std_map.find binaries spliced = some second) :
    shader_source.new rs tc binaries path defines = (.ok second, binaries) := by
  simp only [shader_source.new, hl, hs, hf]

theorem shader_source.new_miss_error (rs : resources) (tc : toolchain)
    (binaries : std_map shader_source) (path : Str) (defines : std_map Str)
    (src spliced : Str) (e : exception)
    (hl : rs.load_text_file (rs.get_resource_path path) = .ok src)
    (hs : splice_defines src (generate_definition_src defines) = .ok spliced)
    (hf : std_map.find binaries spliced = none)
    (hc : shader_source.compile tc path (path_extension (rs.get_resource_path path))
      (path_parent_path (rs.get_resource_path path)) spliced = .error e) :
    shader_source.new rs tc binaries path defines = (.error e, binaries) := by
  simp only [shader_source.new, hl, hs, hf, hc]

theorem shader_source.new_miss_ok (rs : resources) (tc : toolchain)
    (binaries : std_map shader_source) (path : Str) (defines : std_map Str)
    (src spliced : Str) (this : shader_source)
    (hl : rs.load_text_file (rs.get_resource_path path) = .ok src)
    (hs : splice_defines src (generate_definition_src defines) = .ok spliced)
    (hf : std_map.find binaries spliced = none)
    (hc : shader_source.compile tc path (path_extension (rs.get_resource_path path))
      (path_parent_path (rs.get_resource_path path)) spliced = .ok this) :
    shader_source.new rs tc binaries path defines
      = (.ok this, std_map.assign binaries spliced this) := by
  simp only [shader_source.new, hl, hs, hf, hc]

/-- The cases of the constructor: what it returns and what it leaves in the cache. -/
theorem shader_source.new_cases (rs : resources) (tc : toolchain)
    (binaries : std_map shader_source) (path : Str) (defines : std_map Str) :
    (∃ e, shader_source.new rs tc binaries path defines = (.error e, binaries))
      ∨ (∃ src spliced second,
          rs.load_text_file (rs.get_resource_path path) = .ok src
            ∧ splice_defines src (generate_definition_src defines) = .ok spliced
            ∧ std_map.find binaries spliced = some second
            ∧ shader_source.new rs tc binaries path defines = (.ok second, binaries))
      ∨ (∃ src spliced this,
          rs.load_text_file (rs.get_resource_path path) = .ok src
            ∧ splice_defines src (generate_definition_src defines) = .ok spliced
            ∧ std_map.find binaries spliced = none
            ∧ shader_source.compile tc path (path_extension (rs.get_resource_path path))
                (path_parent_path (rs.get_resource_path path)) spliced = .ok this
            ∧ shader_source.new rs tc binaries path defines
                = (.ok this, std_map.assign binaries spliced this)) := by
  cases hl : rs.load_text_file (rs.get_resource_path path) with
  | error e => exact Or.inl ⟨e, shader_source.new_load_error rs tc binaries path defines e hl⟩
  | ok src =>
    cases hs : splice_defines src (generate_definition_src defines) with
    | error e =>
      exact Or.inl ⟨e, shader_source.new_splice_error rs tc binaries path defines src e hl hs⟩
    | ok spliced =>
      cases hf : std_map.find binaries spliced with
      | some second =>
        exact Or.inr (Or.inl ⟨src, spliced, second, rfl, hs, hf,
          shader_source.new_hit rs tc binaries path defines src spliced second hl hs hf⟩)
      | none =>
        cases hc : shader_source.compile tc path (path_extension (rs.get_resource_path path))
            (path_parent_path (rs.get_resource_path path)) spliced with
        | error e =>
          exact Or.inl ⟨e, shader_source.new_miss_error rs tc binaries path defines src
            spliced e hl hs hf hc⟩
        | ok this =>
          exact Or.inr (Or.inr ⟨src, spliced, this, rfl, hs, hf, hc,
            shader_source.new_miss_ok rs tc binaries path defines src spliced this hl hs hf hc⟩)
theorem foldl_reflect_binding (stage : Nat) (bindings : List SpvReflectDescriptorBinding)
    (this : shader_source) :
    (bindings.foldl (reflect_binding stage) this).bindings
        = this.bindings ++ bindings.map (fun binding =>
            ⟨binding.binding, binding.descriptor_type, binding.count, stage⟩)
      ∧ (bindings.foldl (reflect_binding stage) this).push_constant_ranges
        = this.push_constant_ranges := by
  induction bindings generalizing this with
  | nil => simp
  | cons binding rest ih =>
    rw [List.foldl_cons, (ih _).1, (ih _).2]
    simp [reflect_binding]

theorem foldl_reflect_push_constant_block (stage : Nat)
    (blocks : List SpvReflectBlockVariable) (this : shader_source) :
    (blocks.foldl (reflect_push_constant_block stage) this).bindings = this.bindings
      ∧ (blocks.foldl (reflect_push_constant_block stage) this).push_constant_ranges
        = this.push_constant_ranges ++ blocks.map (fun pc => ⟨stage, pc.offset, pc.size⟩) := by
  induction blocks generalizing this with
  | nil => simp
  | cons pc rest ih =>
    rw [List.foldl_cons, (ih _).1, (ih _).2]
    simp [reflect_push_constant_block]

/-- On a miss the extension governs the stage: a record that `compile` returns
carries the flag of `detect_shader_stage ext` on every binding and on every
push-constant range, so an extension outside the eleven known ones returns none. -/
theorem shader_source.compile_stage_flags (tc : toolchain) (path ext dir_path src : Str)
    (this : shader_source)
    (h : shader_source.compile tc path ext dir_path src = .ok this) :
    ∃ stage, detect_shader_stage ext = .ok stage
      ∧ (∀ b ∈ this.bindings, b.stageFlags = stage)
      ∧ (∀ pc ∈ this.push_constant_ranges, pc.stageFlags = stage) := by
  unfold shader_source.compile at h
  split at h
  · cases h
  · split at h
    · cases h
    · cases h
    · split at h
      · cases h
      · rename_i stage hstage
        split at h
        · cases h
        · rename_i bindings blocks hreflect
          simp only [Except.ok.injEq] at h
          refine ⟨stage, hstage, ?_, ?_⟩
          · intro b hb
            rw [← h, (foldl_reflect_push_constant_block _ _ _).1,
              (foldl_reflect_binding _ _ _).1] at hb
            simp only [shader_source.empty, List.nil_append, List.mem_map] at hb
            obtain ⟨x, _, rfl⟩ := hb
            rfl
          · intro pc hpc
            rw [← h, (foldl_reflect_push_constant_block _ _ _).2,
              (foldl_reflect_binding _ _ _).2] at hpc
            simp only [shader_source.empty, List.nil_append, List.mem_map] at hpc
            obtain ⟨x, _, rfl⟩ := hpc
            rfl

/-- Claim C3: cache determinism. When a construction with `(path, defines)`
returns a record, the next construction with the same `(path, defines)` and the
same files finds that record in the cache under the spliced text and returns
it, equal in all four fields, leaving the cache as it is; it does so whatever
the compiler would answer, so nothing is compiled again. -/
theorem shader_source_cache_determinism (rs : resources) (tc : toolchain)
    (binaries binaries' : std_map shader_source) (path : Str) (defines : std_map Str)
    (r : shader_source)
    (h : shader_source.new rs tc binaries path defines = (.ok r, binaries')) :
    (∃ src spliced, rs.load_text_file (rs.get_resource_path path) = .ok src
        ∧ splice_defines src (generate_definition_src defines) = .ok spliced
        ∧ std_map.find binaries' spliced = some r)
      ∧ ∀ tc' : toolchain,
          shader_source.new rs tc' binaries' path defines = (.ok r, binaries') := by
  have key : ∃ src spliced, rs.load_text_file (rs.get_resource_path path) = .ok src
        ∧ splice_defines src (generate_definition_src defines) = .ok spliced
        ∧ std_map.find binaries' spliced = some r := by
    rcases shader_source.new_cases rs tc binaries path defines with
      ⟨e, he⟩ | ⟨src, spliced, second, hl, hs, hf, hn⟩ | ⟨src, spliced, this, hl, hs, hf, _, hn⟩
    · rw [he] at h
      simp at h
    · rw [hn] at h
      simp only [Prod.mk.injEq, Except.ok.injEq] at h
      exact ⟨src, spliced, hl, hs, by rw [← h.1, ← h.2]; exact hf⟩
    · rw [hn] at h
      simp only [Prod.mk.injEq, Except.ok.injEq] at h
      exact ⟨src, spliced, hl, hs, by
        rw [← h.1, ← h.2]; exact std_map.find_assign_same _ _ _⟩
  refine ⟨key, ?_⟩
  intro tc'
  obtain ⟨src, spliced, hl, hs, hf⟩ := key
  exact shader_source.new_hit rs tc' binaries' path defines src spliced r hl hs hf

/-- An instance of claim C3: the first construction of `a.comp` compiles and
stores the record, the second returns it even with a compiler that rejects
every text. -/
theorem shader_source_cache_determinism_witness :
    shader_source.new one_text_resources one_binding_toolchain [] "a.comp".toList []
        = (.ok ⟨[119734787, 66816], [⟨0, 7, 1, eCompute⟩], [⟨eCompute, 0, 16⟩],
              [("buf".toList, 0)]⟩,
            [("#version 460\nvoid main() \x7b\x7d\n".toList,
              ⟨[119734787, 66816], [⟨0, 7, 1, eCompute⟩], [⟨eCompute, 0, 16⟩],
                [("buf".toList, 0)]⟩)])
      ∧ shader_source.new one_text_resources failing_toolchain
          [("#version 460\nvoid main() \x7b\x7d\n".toList,
            ⟨[119734787, 66816], [⟨0, 7, 1, eCompute⟩], [⟨eCompute, 0, 16⟩],
              [("buf".toList, 0)]⟩)]
          "a.comp".toList []
        = (.ok ⟨[119734787, 66816], [⟨0, 7, 1, eCompute⟩], [⟨eCompute, 0, 16⟩],
              [("buf".toList, 0)]⟩,
            [("#version 460\nvoid main() \x7b\x7d\n".toList,
              ⟨[119734787, 66816], [⟨0, 7, 1, eCompute⟩], [⟨eCompute, 0, 16⟩],
                [("buf".toList, 0)]⟩)]) :=
  ⟨rfl, (shader_source_cache_determinism one_text_resources one_binding_toolchain [] _
    "a.comp".toList [] _ rfl).2 failing_toolchain⟩

/-- Claim C8: the binary cache is append-only between clears. A construction
keeps every entry with its record; it leaves the cache as it is or, on a miss
that compiles, assigns the new record under the spliced text, a key that was
absent; `clear_binary_cache` leaves no entry, so a construction that follows it
and returns a record has compiled it and the cache holds that entry alone. -/
theorem binary_cache_append_only (rs : resources) (tc : toolchain)
    (binaries : std_map shader_source) (path : Str) (defines : std_map Str) :
    (∀ key record, std_map.find binaries key = some record →
        std_map.find (shader_source.new rs tc binaries path defines).2 key = some record)
      ∧ ((shader_source.new rs tc binaries path defines).2 = binaries
          ∨ ∃ spliced this, std_map.find binaries spliced = none
              ∧ (shader_source.new rs tc binaries path defines).1 = .ok this
              ∧ (shader_source.new rs tc binaries path defines).2
                  = std_map.assign binaries spliced this)
      ∧ (∀ key, std_map.find (shader_source.clear_binary_cache binaries) key = none)
      ∧ (∀ r c, shader_source.new rs tc (shader_source.clear_binary_cache binaries)
            path defines = (.ok r, c) →
          ∃ src spliced, rs.load_text_file (rs.get_resource_path path) = .ok src
            ∧ splice_defines src (generate_definition_src defines) = .ok spliced
            ∧ shader_source.compile tc path (path_extension (rs.get_resource_path path))
                (path_parent_path (rs.get_resource_path path)) spliced = .ok r
            ∧ c = [(spliced, r)]) := by
  have hwrite : (shader_source.new rs tc binaries path defines).2 = binaries
      ∨ ∃ spliced this, std_map.find binaries spliced = none
          ∧ (shader_source.new rs tc binaries path defines).1 = .ok this
          ∧ (shader_source.new rs tc binaries path defines).2
              = std_map.assign binaries spliced this := by
    rcases shader_source.new_cases rs tc binaries path defines with
      ⟨e, he⟩ | ⟨src, spliced, second, hl, hs, hf, hn⟩ | ⟨src, spliced, this, hl, hs, hf, _, hn⟩
    · exact Or.inl (by rw [he])
    · exact Or.inl (by rw [hn])
    · exact Or.inr ⟨spliced, this, hf, by rw [hn], by rw [hn]⟩
  refine ⟨?_, hwrite, fun _ => rfl, ?_⟩
  · intro key record hk
    rcases hwrite with h | ⟨spliced, this, hnone, _, h⟩
    · rw [h]; exact hk
    · rw [h, std_map.find_assign_ne]
      · exact hk
      · intro e
        rw [e, hnone] at hk
        cases hk
  · intro r c h
    rcases shader_source.new_cases rs tc (shader_source.clear_binary_cache binaries)
        path defines with
      ⟨e, he⟩ | ⟨src, spliced, second, hl, hs, hf, hn⟩ | ⟨src, spliced, this, hl, hs, hf, hc, hn⟩
    · rw [he] at h
      simp at h
    · simp [shader_source.clear_binary_cache, std_map.find] at hf
    · rw [hn] at h
      simp only [Prod.mk.injEq, Except.ok.injEq] at h
      refine ⟨src, spliced, hl, hs, by rw [← h.1]; exact hc, ?_⟩
      rw [← h.2, ← h.1]
      rfl
/-- Claim C7 fails on the code for a cache hit: `a.vert` is compiled first;
`a.frag`, a file with the same text, then gets the cached record whose
bindings and push-constant range carry the vertex stage flag although
`detect_shader_stage` gives the fragment flag for `.frag`; and `a.txt`, whose
extension is unknown, gets that record too instead of failing. -/
theorem shader_source_cache_hit_ignores_extension :
    (shader_source.new one_text_resources one_binding_toolchain [] "a.vert".toList []).1
        = .ok ⟨[119734787, 66816], [⟨0, 7, 1, eVertex⟩], [⟨eVertex, 0, 16⟩],
            [("buf".toList, 0)]⟩
      ∧ (shader_source.new one_text_resources one_binding_toolchain
          (shader_source.new one_text_resources one_binding_toolchain [] "a.vert".toList []).2
          "a.frag".toList []).1
        = .ok ⟨[119734787, 66816], [⟨0, 7, 1, eVertex⟩], [⟨eVertex, 0, 16⟩],
            [("buf".toList, 0)]⟩
      ∧ detect_shader_stage (path_extension "a.frag".toList) = .ok eFragment
      ∧ (shader_source.new one_text_resources one_binding_toolchain
          (shader_source.new one_text_resources one_binding_toolchain [] "a.vert".toList []).2
          "a.txt".toList []).1
        = .ok ⟨[119734787, 66816], [⟨0, 7, 1, eVertex⟩], [⟨eVertex, 0, 16⟩],
            [("buf".toList, 0)]⟩
      ∧ detect_shader_stage (path_extension "a.txt".toList)
        = .error (.runtime_error "Unknown shader extension .txt".toList) :=
  ⟨rfl, rfl, rfl, rfl, rfl⟩

/-! ## Merging binding names -/

theorem std_map.find_insert_of_none {V : Type} (m : std_map V) (k key : Str) (v : V)
    (h : std_map.find m k = none) :
    std_map.find (std_map.insert m k v) key
      = if key = k then some v else std_map.find m key := by
  induction m with
  | nil =>
    by_cases hk : key = k
    · simp [std_map.insert, std_map.find, hk]
    · have : ¬ k = key := fun e => hk e.symm
      simp [std_map.insert, std_map.find, hk, this]
  | cons p rest ih =>
    obtain ⟨k', v'⟩ := p
    simp only [std_map.find] at h
    split_ifs at h with h1
    simp only [std_map.insert, if_neg h1]
    split_ifs with h2 h3 h3
    · subst h3; simp [std_map.find]
    · have : ¬ k = key := fun e => h3 e.symm
      simp [std_map.find, this]
    · subst h3
      simp [std_map.find, h1, ih h]
    · simp only [std_map.find]
      rw [ih h, if_neg h3]

/-- One step of the name merge, when it does not raise. -/
theorem append_name_ok (m m1 : std_map Nat) (p : Str × Nat) (h : append_name m p = .ok m1) :
    std_map.find m1 p.1 = some p.2
      ∧ (∀ n s, std_map.find m n = some s → std_map.find m1 n = some s)
      ∧ (∀ n s, std_map.find m1 n = some s → std_map.find m n = some s ∨ (n, s) = p) := by
  unfold append_name at h
  cases hf : std_map.find m p.1 with
  | none =>
    rw [hf] at h
    simp only [Except.ok.injEq] at h
    subst h
    refine ⟨by simp [std_map.find_insert_of_none _ _ _ _ hf], ?_, ?_⟩
    · intro n s hn
      rw [std_map.find_insert_of_none _ _ _ _ hf]
      split_ifs with e
      · subst e; rw [hf] at hn; cases hn
      · exact hn
    · intro n s hn
      rw [std_map.find_insert_of_none _ _ _ _ hf] at hn
      split_ifs at hn with e
      · right
        cases hn
        rw [e]
      · exact Or.inl hn
  | some second =>
    rw [hf] at h
    simp only at h
    split_ifs at h with hne
    simp only [Except.ok.injEq] at h
    subst h
    have : second = p.2 := by simpa using hne
    subst this
    exact ⟨hf, fun _ _ hn => hn, fun _ _ hn => Or.inl hn⟩

/-- One step of the name merge, when it raises. -/
theorem append_name_error (m : std_map Nat) (p : Str × Nat) (e : exception)
    (h : append_name m p = .error e) :
    (∃ s, std_map.find m p.1 = some s ∧ s ≠ p.2)
      ∧ e = .runtime_error ("Same variable name has two different bindings: ".toList
            ++ p.1 ++ " != ".toList ++ p.1) := by
  unfold append_name at h
  cases hf : std_map.find m p.1 with
  | none => rw [hf] at h; cases h
  | some second =>
    rw [hf] at h
    simp only at h
    split_ifs at h with hne
    simp only [Except.error.injEq] at h
    exact ⟨⟨second, rfl, hne⟩, h.symm⟩

theorem foldlM_append_name_ok (l : List (Str × Nat)) :
    ∀ (m m1 : std_map Nat), l.foldlM append_name m = .ok m1 →
      (∀ n s, std_map.find m n = some s → std_map.find m1 n = some s)
        ∧ (∀ p ∈ l, std_map.find m1 p.1 = some p.2)
        ∧ (∀ n s, std_map.find m1 n = some s → std_map.find m n = some s ∨ (n, s) ∈ l) := by
  induction l with
  | nil =>
    intro m m1 h
    simp only [List.foldlM_nil, pure, Except.pure, Except.ok.injEq] at h
    subst h
    exact ⟨fun _ _ h => h, fun _ hp => (by cases hp), fun _ _ h => Or.inl h⟩
  | cons p rest ih =>
    intro m m1 h
    rw [List.foldlM_cons] at h
    cases hp : append_name m p with
    | error e => rw [hp] at h; cases h
    | ok m' =>
      rw [hp] at h
      obtain ⟨a1, a2, a3⟩ := append_name_ok m m' p hp
      obtain ⟨b1, b2, b3⟩ := ih m' m1 h
      refine ⟨fun n s hn => b1 n s (a2 n s hn), ?_, ?_⟩
      · intro q hq
        rcases List.mem_cons.1 hq with hq | hq
        · subst hq; exact b1 _ _ a1
        · exact b2 q hq
      · intro n s hn
        rcases b3 n s hn with hn | hn
        · rcases a3 n s hn with hn | hn
          · exact Or.inl hn
          · exact Or.inr (hn ▸ List.mem_cons_self _ _)
        · exact Or.inr (List.mem_cons_of_mem _ hn)

theorem foldlM_append_name_error (l : List (Str × Nat)) :
    ∀ (m : std_map Nat) (e : exception), l.foldlM append_name m = .error e →
      ∃ n, e = .runtime_error ("Same variable name has two different bindings: ".toList
            ++ n ++ " != ".toList ++ n) := by
  induction l with
  | nil => intro m e h; cases h
  | cons p rest ih =>
    intro m e h
    rw [List.foldlM_cons] at h
    cases hp : append_name m p with
    | error e' =>
      rw [hp] at h
      cases h
      exact ⟨p.1, (append_name_error m p _ hp).2⟩
    | ok m' =>
      rw [hp] at h
      exact ih m' e h

theorem foldlM_stage_names (stages : List shader_source) (m : std_map Nat) :
    stages.foldlM append_shader_names m
      = (stages.flatMap (fun src => src.binding_names)).foldlM append_name m := by
  induction stages generalizing m with
  | nil => rfl
  | cons src rest ih =>
    rw [List.foldlM_cons, List.flatMap_cons, List.foldlM_append]
    unfold append_shader_names
    congr 1
    funext m'
    exact ih m'

theorem foldlM_hit_group_names (rhit : List hit_group) (m : std_map Nat) :
    rhit.foldlM
      (fun names hg => do
        let names ← append_shader_names names hg.rchit
        let names ← append_shader_names names hg.rahit
        append_shader_names names hg.rint)
      m
    = (rhit.flatMap (fun hg => [hg.rchit, hg.rahit, hg.rint])).foldlM append_shader_names m := by
  induction rhit generalizing m with
  | nil => rfl
  | cons hg rest ih =>
    rw [List.foldlM_cons, List.flatMap_cons, List.foldlM_append]
    simp only [List.foldlM_cons, List.foldlM_nil, bind_assoc, bind_pure]
    simp only [ih]

theorem get_binding_names_eq (self : shader_sources) :
    self.get_binding_names
      = (self.stages.flatMap (fun src => src.binding_names)).foldlM append_name [] := by
  rw [← foldlM_stage_names]
  unfold shader_sources.get_binding_names shader_sources.stages
  simp only [foldlM_hit_group_names, List.foldlM_append, List.foldlM_cons, List.foldlM_nil,
    bind_assoc, bind_pure, List.cons_append, List.nil_append]

theorem get_binding_names_find (self : shader_sources) (names : std_map Nat)
    (h : self.get_binding_names = .ok names) (n : Str) (s : Nat) :
    std_map.find names n = some s ↔ ∃ src ∈ self.stages, (n, s) ∈ src.binding_names := by
  rw [get_binding_names_eq] at h
  obtain ⟨_, h2, h3⟩ := foldlM_append_name_ok _ _ _ h
  constructor
  · intro hf
    rcases h3 n s hf with h' | h'
    · simp [std_map.find] at h'
    · obtain ⟨src, hsrc, hmem⟩ := List.mem_flatMap.1 h'
      exact ⟨src, hsrc, hmem⟩
  · rintro ⟨src, hsrc, hmem⟩
    exact h2 (n, s) (List.mem_flatMap.2 ⟨src, hsrc, hmem⟩)
/-- Claim C4 as amended: when one binding name is declared with two different
slot indices by the stage sources of a set, `get_binding_names` raises the
error "Same variable name has two different bindings", and so does
`get_bindings` for every count-override map. -/
theorem get_binding_names_same_name_two_slots (self : shader_sources) (name : Str)
    (slot1 slot2 : Nat)
    (h1 : ∃ src ∈ self.stages, (name, slot1) ∈ src.binding_names)
    (h2 : ∃ src ∈ self.stages, (name, slot2) ∈ src.binding_names)
    (hne : slot1 ≠ slot2) :
    ∃ n, self.get_binding_names = .error (.runtime_error
          ("Same variable name has two different bindings: ".toList ++ n ++ " != ".toList ++ n))
      ∧ ∀ count_overrides, self.get_bindings count_overrides = .error (.runtime_error
          ("Same variable name has two different bindings: ".toList ++ n ++ " != ".toList ++ n)) := by
  have hnames : ∃ n, self.get_binding_names = .error (.runtime_error
        ("Same variable name has two different bindings: ".toList ++ n ++ " != ".toList ++ n)) := by
    rw [get_binding_names_eq]
    cases hr : (self.stages.flatMap (fun src => src.binding_names)).foldlM append_name [] with
    | error e =>
      obtain ⟨n, hn⟩ := foldlM_append_name_error _ _ _ hr
      exact ⟨n, by rw [hn]⟩
    | ok m1 =>
      exfalso
      obtain ⟨_, hall, _⟩ := foldlM_append_name_ok _ _ _ hr
      obtain ⟨a, ha, hma⟩ := h1
      obtain ⟨b, hb, hmb⟩ := h2
      have e1 := hall (name, slot1) (List.mem_flatMap.2 ⟨a, ha, hma⟩)
      have e2 := hall (name, slot2) (List.mem_flatMap.2 ⟨b, hb, hmb⟩)
      simp only at e1 e2
      rw [e1] at e2
      exact hne (Option.some.inj e2)
  obtain ⟨n, hn⟩ := hnames
  refine ⟨n, hn, ?_⟩
  intro ov
  unfold shader_sources.get_bindings
  rw [hn]

/-- An instance of the amended claim C4: the name `x` at slot 0 in the vertex
stage and at slot 1 in the fragment stage. -/
theorem get_binding_names_same_name_two_slots_witness :
    ((∃ src ∈ name_conflict_sources.stages, ("x".toList, 0) ∈ src.binding_names)
        ∧ (∃ src ∈ name_conflict_sources.stages, ("x".toList, 1) ∈ src.binding_names)
        ∧ (0 : Nat) ≠ 1)
      ∧ ∃ n, name_conflict_sources.get_binding_names = .error (.runtime_error
            ("Same variable name has two different bindings: ".toList ++ n ++ " != ".toList ++ n))
          ∧ ∀ count_overrides,
              name_conflict_sources.get_bindings count_overrides = .error (.runtime_error
                ("Same variable name has two different bindings: ".toList ++ n ++ " != ".toList ++ n)) :=
  ⟨⟨by decide, by decide, by decide⟩,
    get_binding_names_same_name_two_slots name_conflict_sources "x".toList 0 1
      (by decide) (by decide) (by decide)⟩

/-- Claim C4 fails on scenario S1: slot 0 named `x` by one stage and `y` by
another, both with count 1, merges without error, into the name map with both
names at slot 0 and a layout with one binding at slot 0. -/
theorem get_binding_names_accepts_two_names_for_one_slot :
    s1_sources.get_binding_names = .ok [("x".toList, 0), ("y".toList, 0)]
      ∧ s1_sources.get_bindings [] = .ok [⟨0, 7, 1, eVertex ||| eFragment⟩] :=
  ⟨rfl, rfl⟩

/-! ## Merging descriptor bindings -/

theorem merge_existing_slots (i : DescriptorSetLayoutBinding)
    (bs : List DescriptorSetLayoutBinding) :
    (merge_existing i bs).2.map (fun o => o.binding) = bs.map (fun o => o.binding) := by
  induction bs with
  | nil => rfl
  | cons o rest ih =>
    simp only [merge_existing]
    split_ifs with h
    · simp
    · simp [ih]

theorem merge_existing_found (i : DescriptorSetLayoutBinding)
    (bs : List DescriptorSetLayoutBinding) :
    (merge_existing i bs).1 = true ↔ i.binding ∈ bs.map (fun o => o.binding) := by
  induction bs with
  | nil => simp [merge_existing]
  | cons o rest ih =>
    simp only [merge_existing]
    split_ifs with h
    · simp [h]
    · simp only [List.map_cons, List.mem_cons]
      rw [ih]
      constructor
      · intro h'; exact Or.inr h'
      · rintro (h' | h')
        · exact absurd h'.symm h
        · exact h'

theorem merge_existing_not_found (i : DescriptorSetLayoutBinding)
    (bs : List DescriptorSetLayoutBinding) (h : (merge_existing i bs).1 = false) :
    (merge_existing i bs).2 = bs := by
  induction bs with
  | nil => rfl
  | cons o rest ih =>
    simp only [merge_existing] at h ⊢
    split_ifs at h ⊢ with h1
    simp only at h
    rw [ih h]

theorem merge_existing_find (i : DescriptorSetLayoutBinding)
    (bs : List DescriptorSetLayoutBinding) (s : Nat) :
    (merge_existing i bs).2.find? (fun o => o.binding = s)
      = if s = i.binding then
          (bs.find? (fun o => o.binding = s)).map (fun o =>
            { o with
              stageFlags := o.stageFlags ||| i.stageFlags
              descriptorCount := max i.descriptorCount o.descriptorCount })
        else bs.find? (fun o => o.binding = s) := by
  induction bs with
  | nil => simp [merge_existing]
  | cons o rest ih =>
    simp only [merge_existing]
    by_cases h : o.binding = i.binding
    · simp only [h, if_true]
      by_cases hs : s = i.binding
      · simp [hs, List.find?_cons, h]
      · have : ¬ i.binding = s := fun e => hs e.symm
        simp [hs, List.find?_cons, h, this]
    · simp only [h, if_false]
      by_cases hs : s = i.binding
      · have : ¬ o.binding = s := fun e => h (e.trans hs)
        simp only [List.find?_cons, this, decide_False]
        rw [ih]
      · simp only [List.find?_cons]
        rw [ih]
        simp [hs]

theorem append_binding_slots (bs : List DescriptorSetLayoutBinding)
    (i : DescriptorSetLayoutBinding) :
    (append_binding bs i).map (fun o => o.binding)
      = if i.binding ∈ bs.map (fun o => o.binding) then bs.map (fun o => o.binding)
        else bs.map (fun o => o.binding) ++ [i.binding] := by
  unfold append_binding
  by_cases h : (merge_existing i bs).1 = true
  · rw [if_pos h, if_pos ((merge_existing_found i bs).1 h), merge_existing_slots]
  · rw [if_neg h, if_neg (fun e => h ((merge_existing_found i bs).2 e))]
    simp [merge_existing_slots]

theorem append_binding_find (bs : List DescriptorSetLayoutBinding)
    (i : DescriptorSetLayoutBinding) (s : Nat) :
    (append_binding bs i).find? (fun o => o.binding = s)
      = if s = i.binding then
          (match bs.find? (fun o => o.binding = s) with
           | some o => some
              { o with
                stageFlags := o.stageFlags ||| i.stageFlags
                descriptorCount := max i.descriptorCount o.descriptorCount }
           | none => some i)
        else bs.find? (fun o => o.binding = s) := by
  unfold append_binding
  by_cases h : (merge_existing i bs).1 = true
  · rw [if_pos h, merge_existing_find]
    by_cases hs : s = i.binding
    · simp only [hs, if_true]
      have hm := (merge_existing_found i bs).1 h
      obtain ⟨o, ho, hob⟩ := List.mem_map.1 hm
      cases hf : bs.find? (fun o => decide (o.binding = i.binding)) with
      | none =>
        rw [List.find?_eq_none] at hf
        exact absurd (by simpa using hob) (hf o ho)
      | some o' => rfl
    · simp [hs]
  · have h' : (merge_existing i bs).1 = false := by simpa using h
    rw [if_neg h, merge_existing_not_found i bs h', List.find?_append]
    have hm : i.binding ∉ bs.map (fun o => o.binding) :=
      fun e => h ((merge_existing_found i bs).2 e)
    by_cases hs : s = i.binding
    · subst hs
      have hf : bs.find? (fun o => decide (o.binding = i.binding)) = none := by
        rw [List.find?_eq_none]
        intro o ho hob
        exact hm (List.mem_map.2 ⟨o, ho, by simpa using hob⟩)
      simp [hf]
    · have : ¬ i.binding = s := fun e => hs e.symm
      simp [hs, this]

theorem flags_of_slot_append (s : Nat) (l : List DescriptorSetLayoutBinding)
    (i : DescriptorSetLayoutBinding) :
    flags_of_slot s (l ++ [i])
      = if i.binding = s then flags_of_slot s l ||| i.stageFlags else flags_of_slot s l := by
  unfold flags_of_slot
  by_cases h : i.binding = s
  · simp [List.filter_append, h, List.foldl_append]
  · simp [List.filter_append, h]

theorem count_of_slot_append (s : Nat) (l : List DescriptorSetLayoutBinding)
    (i : DescriptorSetLayoutBinding) :
    count_of_slot s (l ++ [i])
      = if i.binding = s then max (count_of_slot s l) i.descriptorCount
        else count_of_slot s l := by
  unfold count_of_slot
  by_cases h : i.binding = s
  · simp [List.filter_append, h, List.foldl_append]
  · simp [List.filter_append, h]

theorem slot_absent_zero (s : Nat) (l : List DescriptorSetLayoutBinding)
    (h : l.find? (fun o => o.binding = s) = none) :
    flags_of_slot s l = 0 ∧ count_of_slot s l = 0 := by
  have hf : l.filter (fun b => decide (b.binding = s)) = [] := by
    rw [List.filter_eq_nil_iff]
    rw [List.find?_eq_none] at h
    exact h
  simp [flags_of_slot, count_of_slot, hf]

/-- The merged layout, slot by slot. -/
theorem merged_find (l : List DescriptorSetLayoutBinding) (s : Nat) :
    (l.foldl append_binding []).find? (fun o => o.binding = s)
      = (l.find? (fun o => o.binding = s)).map (fun i0 =>
          ⟨s, i0.descriptorType, count_of_slot s l, flags_of_slot s l⟩) := by
  induction l using List.reverseRecOn with
  | nil => rfl
  | append_singleton l i ih =>
    rw [List.foldl_append, List.foldl_cons, List.foldl_nil, append_binding_find, ih,
      List.find?_append, flags_of_slot_append, count_of_slot_append]
    by_cases hs : s = i.binding
    · subst hs
      simp only [if_true]
      cases hf : l.find? (fun o => decide (o.binding = i.binding)) with
      | none =>
        obtain ⟨h1, h2⟩ := slot_absent_zero _ _ hf
        simp [h1, h2]
      | some i0 =>
        simp [max_comm]
    · have : ¬ i.binding = s := fun e => hs e.symm
      simp [hs, this]

theorem merged_slots_nodup (l : List DescriptorSetLayoutBinding) :
    ((l.foldl append_binding []).map (fun o => o.binding)).Nodup := by
  induction l using List.reverseRecOn with
  | nil => simp
  | append_singleton l i ih =>
    rw [List.foldl_append, List.foldl_cons, List.foldl_nil, append_binding_slots]
    split_ifs with h
    · exact ih
    · exact List.Nodup.append ih (List.nodup_singleton _) (by simpa using h)

theorem merged_slots_mem (l : List DescriptorSetLayoutBinding) :
    ∀ s : Nat, s ∈ (l.foldl append_binding []).map (fun o => o.binding)
      ↔ s ∈ l.map (fun o => o.binding) := by
  induction l using List.reverseRecOn with
  | nil => simp
  | append_singleton l i ih =>
    intro s
    rw [List.foldl_append, List.foldl_cons, List.foldl_nil, append_binding_slots]
    split_ifs with h
    · rw [ih]
      simp only [List.map_append, List.mem_append, List.map_cons, List.map_nil,
        List.mem_singleton]
      constructor
      · intro h'; exact Or.inl h'
      · rintro (h' | h')
        · exact h'
        · rw [h']; exact (ih _).1 h
    · simp only [List.map_append, List.mem_append, List.map_cons, List.map_nil,
        List.mem_singleton]
      rw [ih]

theorem foldl_hit_groups (rhit : List hit_group) (bs : List DescriptorSetLayoutBinding) :
    rhit.foldl
      (fun bindings hg =>
        append_shader_bindings
          (append_shader_bindings (append_shader_bindings bindings hg.rchit) hg.rahit) hg.rint)
      bs
    = (rhit.flatMap (fun hg => [hg.rchit, hg.rahit, hg.rint])).foldl append_shader_bindings bs := by
  induction rhit generalizing bs with
  | nil => rfl
  | cons hg rest ih => simp [List.flatMap_cons, ih]

theorem foldl_stage_bindings (stages : List shader_source)
    (bs : List DescriptorSetLayoutBinding) :
    stages.foldl append_shader_bindings bs
      = (stages.flatMap (fun src => src.bindings)).foldl append_binding bs := by
  induction stages generalizing bs with
  | nil => rfl
  | cons src rest ih =>
    simp [List.flatMap_cons, List.foldl_append, ih, append_shader_bindings]

theorem merged_bindings_eq (self : shader_sources) :
    self.merged_bindings = self.all_bindings.foldl append_binding [] := by
  unfold shader_sources.merged_bindings shader_sources.all_bindings shader_sources.stages
  simp only [foldl_hit_groups]
  rw [← foldl_stage_bindings]
  simp [List.foldl_append]

theorem get_bindings_no_overrides (self : shader_sources)
    (bs : List DescriptorSetLayoutBinding) (h : self.get_bindings [] = .ok bs) :
    bs = self.merged_bindings := by
  unfold shader_sources.get_bindings at h
  cases hn : self.get_binding_names with
  | error e => rw [hn] at h; cases h
  | ok names =>
    rw [hn] at h
    simp only [List.foldl_nil] at h
    cases h
    rfl

theorem filter_slot_singleton (l : List DescriptorSetLayoutBinding) (s : Nat)
    (b : DescriptorSetLayoutBinding)
    (hn : (l.map (fun o => o.binding)).Nodup)
    (hf : l.find? (fun o => o.binding = s) = some b) :
    l.filter (fun o => o.binding = s) = [b] := by
  induction l with
  | nil => simp at hf
  | cons o rest ih =>
    rw [List.map_cons, List.nodup_cons] at hn
    by_cases h : o.binding = s
    · have hb : o = b := by simpa [List.find?_cons, h] using hf
      subst hb
      have : rest.filter (fun x => decide (x.binding = s)) = [] := by
        rw [List.filter_eq_nil_iff]
        intro x hx hxs
        exact hn.1 (List.mem_map.2 ⟨x, hx, by rw [h]; simpa using hxs⟩)
      simp [List.filter_cons, h, this]
    · have hf' : rest.find? (fun x => decide (x.binding = s)) = some b := by
        simpa [List.find?_cons, h] using hf
      simp [List.filter_cons, h, ih hn.2 hf']
/-- The merged layout is returned exactly when the names merge. -/
theorem get_bindings_returns_iff (self : shader_sources) (count_overrides : std_map Nat) :
    (∃ bs, self.get_bindings count_overrides = .ok bs)
      ↔ ∃ names, self.get_binding_names = .ok names := by
  unfold shader_sources.get_bindings
  cases hn : self.get_binding_names with
  | error e => simp
  | ok names => simp

/-- Claim C5: for every set and every slot index declared by at least one of
its stages, the list that `get_bindings` returns without count overrides holds
exactly one binding with that slot; its stage flags are the bitwise OR of the
stage flags of all stage bindings with that slot, and its descriptor count is
the maximum of their descriptor counts. -/
theorem get_bindings_merges_flags_and_counts (self : shader_sources)
    (bs : List DescriptorSetLayoutBinding) (h : self.get_bindings [] = .ok bs)
    (slot : Nat)
    (hs : ∃ src ∈ self.stages, ∃ i ∈ src.bindings, i.binding = slot) :
    ∃ b, bs.filter (fun o => o.binding = slot) = [b]
      ∧ b.stageFlags = flags_of_slot slot self.all_bindings
      ∧ b.descriptorCount = count_of_slot slot self.all_bindings := by
  have hbs := get_bindings_no_overrides self bs h
  rw [merged_bindings_eq] at hbs
  obtain ⟨src, hsrc, i, hi, hslot⟩ := hs
  have hmem : i ∈ self.all_bindings := by
    unfold shader_sources.all_bindings
    exact List.mem_flatMap.2 ⟨src, hsrc, hi⟩
  have hfind := merged_find self.all_bindings slot
  cases hf : self.all_bindings.find? (fun o => decide (o.binding = slot)) with
  | none =>
    rw [List.find?_eq_none] at hf
    exact absurd (by simpa using hslot) (hf i hmem)
  | some i0 =>
    rw [hf] at hfind
    refine ⟨⟨slot, i0.descriptorType, count_of_slot slot self.all_bindings,
      flags_of_slot slot self.all_bindings⟩, ?_, rfl, rfl⟩
    rw [hbs]
    exact filter_slot_singleton _ _ _ (merged_slots_nodup _) hfind

/-- An instance of claim C5: in scenario S1 the binding returned for slot 0
has the vertex and the fragment flag and count 1. -/
theorem get_bindings_merges_flags_and_counts_witness :
    s1_sources.get_bindings [] = .ok [⟨0, 7, 1, eVertex ||| eFragment⟩]
      ∧ (∃ src ∈ s1_sources.stages, ∃ i ∈ src.bindings, i.binding = 0)
      ∧ ∃ b, [(⟨0, 7, 1, eVertex ||| eFragment⟩ : DescriptorSetLayoutBinding)].filter
            (fun o => o.binding = 0) = [b]
          ∧ b.stageFlags = flags_of_slot 0 s1_sources.all_bindings
          ∧ b.descriptorCount = count_of_slot 0 s1_sources.all_bindings :=
  ⟨rfl, by decide,
    get_bindings_merges_flags_and_counts s1_sources _ rfl 0 (by decide)⟩

theorem mem_iff_find_slot (l : List DescriptorSetLayoutBinding)
    (hn : (l.map (fun o => o.binding)).Nodup) (e : DescriptorSetLayoutBinding) :
    e ∈ l ↔ l.find? (fun o => o.binding = e.binding) = some e := by
  constructor
  · intro he
    induction l with
    | nil => cases he
    | cons o rest ih =>
      rw [List.map_cons, List.nodup_cons] at hn
      by_cases h : o.binding = e.binding
      · rcases List.mem_cons.1 he with h' | h'
        · subst h'; simp [List.find?_cons]
        · exact absurd (List.mem_map.2 ⟨e, h', h.symm⟩) hn.1
      · rcases List.mem_cons.1 he with h' | h'
        · subst h'; exact absurd rfl h
        · simpa [List.find?_cons, h] using ih hn.2 h'
  · intro hf
    exact List.mem_of_find?_eq_some hf

theorem count_of_slot_comm (s : Nat) (x y : List DescriptorSetLayoutBinding) :
    count_of_slot s (x ++ y) = count_of_slot s (y ++ x) := by
  unfold count_of_slot
  apply List.Perm.foldl_eq' ((List.perm_append_comm.filter _).map _)
  intro a _ b _ z
  omega

theorem flags_of_slot_comm (s : Nat) (x y : List DescriptorSetLayoutBinding) :
    flags_of_slot s (x ++ y) = flags_of_slot s (y ++ x) := by
  unfold flags_of_slot
  apply List.Perm.foldl_eq' ((List.perm_append_comm.filter _).map _)
  intro a _ b _ z
  show (z ||| a) ||| b = (z ||| b) ||| a
  rw [Nat.lor_assoc, Nat.lor_comm a b, ← Nat.lor_assoc]

theorem append_shader_bindings_pair (a b : shader_source) :
    append_shader_bindings (append_shader_bindings [] a) b
      = (a.bindings ++ b.bindings).foldl append_binding [] := by
  simp [append_shader_bindings, List.foldl_append]

theorem merged_find_comm (x y : List DescriptorSetLayoutBinding)
    (h : ∀ i ∈ x, ∀ j ∈ y, i.binding = j.binding → i.descriptorType = j.descriptorType)
    (s : Nat) :
    ((x ++ y).foldl append_binding []).find? (fun o => o.binding = s)
      = ((y ++ x).foldl append_binding []).find? (fun o => o.binding = s) := by
  rw [merged_find, merged_find, count_of_slot_comm s x y, flags_of_slot_comm s x y,
    List.find?_append, List.find?_append]
  cases hx : x.find? (fun o => decide (o.binding = s)) with
  | none =>
    cases hy : y.find? (fun o => decide (o.binding = s)) <;> simp
  | some i =>
    cases hy : y.find? (fun o => decide (o.binding = s)) with
    | none => simp
    | some j =>
      have hi := List.mem_of_find?_eq_some hx
      have hj := List.mem_of_find?_eq_some hy
      have his : i.binding = s := by simpa using List.find?_some hx
      have hjs : j.binding = s := by simpa using List.find?_some hy
      simp [h i hi j hj (his.trans hjs.symm)]
/-- Claim C6 as amended: for two shader sources that give every slot they
share the same descriptor type, merging the bindings of `a` and then of `b`
into an empty layout gives the same set of (slot, type, count, flags) entries
as merging those of `b` and then of `a`. -/
theorem append_shader_bindings_comm (a b : shader_source)
    (h : ∀ x ∈ a.bindings, ∀ y ∈ b.bindings,
      x.binding = y.binding → x.descriptorType = y.descriptorType)
    (e : DescriptorSetLayoutBinding) :
    e ∈ append_shader_bindings (append_shader_bindings [] a) b
      ↔ e ∈ append_shader_bindings (append_shader_bindings [] b) a := by
  rw [append_shader_bindings_pair, append_shader_bindings_pair,
    mem_iff_find_slot _ (merged_slots_nodup _), mem_iff_find_slot _ (merged_slots_nodup _),
    merged_find_comm _ _ h]

/-- An instance of the amended claim C6: a uniform buffer at slot 0 declared by
a compute source with count 1 and by a fragment source with count 3. -/
theorem append_shader_bindings_comm_witness :
    (∀ x ∈ uniform_at_slot0.bindings, ∀ y ∈ uniform_array_frag.bindings,
        x.binding = y.binding → x.descriptorType = y.descriptorType)
      ∧ ((⟨0, 6, 3, eCompute ||| eFragment⟩ : DescriptorSetLayoutBinding)
            ∈ append_shader_bindings (append_shader_bindings [] uniform_at_slot0)
                uniform_array_frag
          ↔ (⟨0, 6, 3, eCompute ||| eFragment⟩ : DescriptorSetLayoutBinding)
            ∈ append_shader_bindings (append_shader_bindings [] uniform_array_frag)
                uniform_at_slot0) :=
  ⟨by decide,
    append_shader_bindings_comm uniform_at_slot0 uniform_array_frag (by decide) _⟩

/-- Claim C6 fails when two sources give one slot two descriptor types: the
merged entry keeps the type of the source merged first. -/
theorem append_shader_bindings_type_of_first :
    (⟨0, 6, 1, eCompute⟩ : DescriptorSetLayoutBinding)
        ∈ append_shader_bindings (append_shader_bindings [] uniform_at_slot0)
            storage_at_slot0
      ∧ (⟨0, 6, 1, eCompute⟩ : DescriptorSetLayoutBinding)
        ∉ append_shader_bindings (append_shader_bindings [] storage_at_slot0)
            uniform_at_slot0 := by
  decide

/-- Slot, count and stage flags of the merged entries do not depend on the
order of the two sources, whatever the descriptor types. -/
theorem append_shader_bindings_comm_slot_count_flags (a b : shader_source) (s : Nat) :
    ((append_shader_bindings (append_shader_bindings [] a) b).find?
        (fun o => o.binding = s)).map (fun o => (o.binding, o.descriptorCount, o.stageFlags))
      = ((append_shader_bindings (append_shader_bindings [] b) a).find?
        (fun o => o.binding = s)).map (fun o => (o.binding, o.descriptorCount, o.stageFlags)) := by
  rw [append_shader_bindings_pair, append_shader_bindings_pair, merged_find, merged_find,
    count_of_slot_comm s a.bindings b.bindings, flags_of_slot_comm s a.bindings b.bindings,
    List.find?_append, List.find?_append]
  cases hx : a.bindings.find? (fun o => decide (o.binding = s)) <;>
    cases hy : b.bindings.find? (fun o => decide (o.binding = s)) <;> simp

/-! ## Count overrides -/

theorem overridden_binding (names ov : std_map Nat) (m : DescriptorSetLayoutBinding) :
    (overridden names ov m).binding = m.binding := by
  unfold overridden
  split <;> rfl

theorem override_count_map (slot count : Nat) (l : List DescriptorSetLayoutBinding)
    (hn : (l.map (fun o => o.binding)).Nodup) :
    override_count slot count l
      = l.map (fun o => if o.binding = slot then { o with descriptorCount := count } else o) := by
  induction l with
  | nil => rfl
  | cons o rest ih =>
    rw [List.map_cons, List.nodup_cons] at hn
    simp only [override_count, List.map_cons]
    split_ifs with h
    · congr 1
      symm
      calc rest.map (fun o => if o.binding = slot then { o with descriptorCount := count } else o)
          = rest.map id := by
            apply List.map_congr_left
            intro x hx
            have : ¬ x.binding = slot := fun e =>
              hn.1 (List.mem_map.2 ⟨x, hx, e.trans h.symm⟩)
            simp [this]
        _ = rest := List.map_id _
    · rw [ih hn.2]

theorem override_pass_eq (names : std_map Nat) (bs : List DescriptorSetLayoutBinding)
    (hn : (bs.map (fun o => o.binding)).Nodup) (ov : std_map Nat) :
    ov.foldl (apply_override names) bs = bs.map (overridden names ov) := by
  induction ov using List.reverseRecOn with
  | nil =>
    have : overridden names [] = id := by
      funext m
      simp [overridden]
    rw [this, List.map_id, List.foldl_nil]
  | append_singleton ov p ih =>
    rw [List.foldl_append, List.foldl_cons, List.foldl_nil, ih]
    unfold apply_override
    cases hf : std_map.find names p.1 with
    | none =>
      simp only
      apply List.map_congr_left
      intro m _
      simp [overridden, List.filter_append, hf]
    | some slot =>
      simp only
      rw [override_count_map]
      · rw [List.map_map]
        apply List.map_congr_left
        intro m _
        simp only [Function.comp, overridden_binding]
        by_cases hm : m.binding = slot
        · simp [overridden, List.filter_append, hf, hm]
          split <;> simp
        · have : ¬ slot = m.binding := fun e => hm e.symm
          simp [overridden, List.filter_append, hf, hm, this]
      · rw [List.map_map]
        have : ((fun o => o.binding) ∘ overridden names ov)
            = (fun o : DescriptorSetLayoutBinding => o.binding) := by
          funext m
          exact overridden_binding names ov m
        rw [this]
        exact hn
/-- Claim C10 as amended: when the binding names of a set merge without
error, `get_bindings` returns, for every count-override map, the merged
bindings in their order, each with its slot, type and stage flags; the
descriptor count of a binding is the value of the last override, in ascending
name order, whose name is declared at the slot of the binding, and stays the
merged count when no override names that slot. The merged name map holds
exactly the declared (name, slot) pairs, so an override name that no stage
declares changes nothing and raises no error. -/
theorem get_bindings_count_overrides (self : shader_sources) (count_overrides names : std_map Nat)
    (h : self.get_binding_names = .ok names) :
    self.get_bindings count_overrides
        = .ok (self.merged_bindings.map (overridden names count_overrides))
      ∧ ∀ n s, std_map.find names n = some s
          ↔ ∃ src ∈ self.stages, (n, s) ∈ src.binding_names := by
  refine ⟨?_, get_binding_names_find self names h⟩
  unfold shader_sources.get_bindings
  rw [h]
  simp only
  rw [override_pass_eq]
  rw [merged_bindings_eq]
  exact merged_slots_nodup _

/-- An instance of the amended claim C10: in scenario S1 the override of `x`
by 5 and of the undeclared name `z` by 9 give slot 0 the count 5. -/
theorem get_bindings_count_overrides_witness :
    s1_sources.get_binding_names = .ok [("x".toList, 0), ("y".toList, 0)]
      ∧ s1_sources.get_bindings [("x".toList, 5), ("z".toList, 9)]
          = .ok [⟨0, 7, 5, eVertex ||| eFragment⟩]
      ∧ (s1_sources.get_bindings [("x".toList, 5), ("z".toList, 9)]
          = .ok (s1_sources.merged_bindings.map
              (overridden [("x".toList, 0), ("y".toList, 0)]
                [("x".toList, 5), ("z".toList, 9)]))
        ∧ ∀ n s, std_map.find [("x".toList, 0), ("y".toList, 0)] n = some s
            ↔ ∃ src ∈ s1_sources.stages, (n, s) ∈ src.binding_names) :=
  ⟨rfl, rfl,
    get_bindings_count_overrides s1_sources [("x".toList, 5), ("z".toList, 9)]
      [("x".toList, 0), ("y".toList, 0)] rfl⟩

/-- Claim C10 fails when two override names are declared at one slot: in
scenario S1 the overrides `x` to 5 and `y` to 7 leave the binding at slot 0,
the slot of `x`, with count 7. -/
theorem get_bindings_override_of_shared_slot :
    s1_sources.get_binding_names = .ok [("x".toList, 0), ("y".toList, 0)]
      ∧ s1_sources.get_bindings [("x".toList, 5), ("y".toList, 7)]
          = .ok [⟨0, 7, 7, eVertex ||| eFragment⟩] :=
  ⟨rfl, rfl⟩

/-! ## Push-constant ranges -/

theorem union_pc_ranges_nil_right (ranges : List PushConstantRange) :
    union_pc_ranges ranges [] = ranges := by
  cases ranges <;> rfl

theorem union_pc_ranges_length (ranges rest : List PushConstantRange) :
    (union_pc_ranges ranges rest).length = max ranges.length rest.length := by
  induction ranges generalizing rest with
  | nil => simp [union_pc_ranges]
  | cons r ranges ih =>
    cases rest with
    | nil => simp [union_pc_ranges]
    | cons p rest =>
      simp only [union_pc_ranges, List.length_cons, ih]
      omega

theorem union_pc_ranges_flags (ranges rest : List PushConstantRange) (i : Nat) :
    ((union_pc_ranges ranges rest)[i]?).map (fun r => r.stageFlags)
      = match (ranges[i]?).map (fun r => r.stageFlags),
            (rest[i]?).map (fun r => r.stageFlags) with
        | some x, some y => some (x ||| y)
        | some x, none => some x
        | none, y => y := by
  induction ranges generalizing rest i with
  | nil => simp [union_pc_ranges]
  | cons r ranges ih =>
    cases rest with
    | nil =>
      simp only [union_pc_ranges, List.getElem?_nil, Option.map_none']
      cases (r :: ranges)[i]? <;> rfl
    | cons p rest =>
      cases i with
      | zero => simp [union_pc_ranges]
      | succ i =>
        simp only [union_pc_ranges, List.getElem?_cons_succ]
        exact ih rest i

theorem foldl_hit_groups_pc (rhit : List hit_group) (ranges : List PushConstantRange) :
    rhit.foldl
      (fun ranges hg =>
        append_shader_pc_ranges
          (append_shader_pc_ranges (append_shader_pc_ranges ranges hg.rchit) hg.rahit) hg.rint)
      ranges
    = (rhit.flatMap (fun hg => [hg.rchit, hg.rahit, hg.rint])).foldl
        append_shader_pc_ranges ranges := by
  induction rhit generalizing ranges with
  | nil => rfl
  | cons hg rest ih => simp [List.flatMap_cons, ih]

theorem get_push_constant_ranges_eq (self : shader_sources) :
    self.get_push_constant_ranges = self.stages.foldl append_shader_pc_ranges [] := by
  unfold shader_sources.get_push_constant_ranges shader_sources.stages
  simp only [foldl_hit_groups_pc]
  simp [List.foldl_append]

theorem pc_ranges_length (stages : List shader_source) :
    (stages.foldl append_shader_pc_ranges []).length = max_pc_range_count stages := by
  unfold max_pc_range_count
  induction stages using List.reverseRecOn with
  | nil => rfl
  | append_singleton stages src ih =>
    rw [List.foldl_append, List.foldl_cons, List.foldl_nil, append_shader_pc_ranges,
      union_pc_ranges_length, ih, List.map_append, List.foldl_append]
    rfl

theorem pc_ranges_flags (stages : List shader_source) (i : Nat) :
    ((stages.foldl append_shader_pc_ranges [])[i]?).map (fun r => r.stageFlags)
      = if stages.filterMap (fun src => src.push_constant_ranges[i]?) = [] then none
        else some (pc_flags_at i stages) := by
  induction stages using List.reverseRecOn with
  | nil => simp
  | append_singleton stages src ih =>
    rw [List.foldl_append, List.foldl_cons, List.foldl_nil, append_shader_pc_ranges,
      union_pc_ranges_flags, ih]
    unfold pc_flags_at
    rw [List.filterMap_append]
    cases hs : src.push_constant_ranges[i]? with
    | none =>
      simp [hs]
      split_ifs <;> simp_all
    | some p =>
      by_cases he : stages.filterMap (fun src => src.push_constant_ranges[i]?) = []
      · simp [hs, he]
      · simp [hs, he, List.foldl_append]
/-- Claim C11: push-constant ranges are unioned by position. For every set,
`get_push_constant_ranges` returns a list whose length is the largest number
of ranges that one stage source declares, and whose `i`-th range has stage flags
equal to the OR of the flags of the `i`-th range over the stage sources that
have an `i`-th range. -/
theorem get_push_constant_ranges_union (self : shader_sources) :
    self.get_push_constant_ranges.length = max_pc_range_count self.stages
      ∧ ∀ i, i < self.get_push_constant_ranges.length →
          ∃ r, self.get_push_constant_ranges[i]? = some r
            ∧ r.stageFlags = pc_flags_at i self.stages := by
  rw [get_push_constant_ranges_eq]
  refine ⟨pc_ranges_length _, ?_⟩
  intro i hi
  have hf := pc_ranges_flags self.stages i
  have hsome := List.getElem?_eq_getElem hi
  rw [hsome] at hf
  refine ⟨_, hsome, ?_⟩
  simp only [Option.map_some'] at hf
  split_ifs at hf with he
  exact Option.some.inj hf

/-! ## Recorded command buffers -/

/-- Claim C15 fails on the code: whatever the options, each command buffer
that `record_command_buffers` records holds one temporal dispatch, one
estimate-variance dispatch and four à-trous dispatches, a barrier between every
two consecutive dispatches; `iteration_count` is the constant 4 and
`opt.atrous_diffuse_iters` is not read, so with `atrous_diffuse_iters = 2` the
buffers still hold four à-trous dispatches. -/
theorem svgf_record_command_buffers_four_atrous (input_features : gbuffer_target)
    (opt : svgf_stage.options) :
    (svgf_stage.record_command_buffers input_features opt).map (work_items none)
      = List.replicate MAX_FRAMES_IN_FLIGHT
          [ .dispatch (some .svgf_temporal), .barrier,
            .dispatch (some .svgf_estimate_variance), .barrier,
            .dispatch (some .svgf_atrous), .barrier,
            .dispatch (some .svgf_atrous), .barrier,
            .dispatch (some .svgf_atrous), .barrier,
            .dispatch (some .svgf_atrous) ]
      ∧ (svgf_stage.record_command_buffers input_features
            { opt with atrous_diffuse_iters := 2 }).map
          (fun cb => (work_items none cb).count (.dispatch (some .svgf_atrous)))
        = [4, 4] :=
  ⟨rfl, rfl⟩

theorem to_uint32_to_int32 (n : Nat) : to_uint32 (to_int32 n) = n % 2 ^ 32 := by
  unfold to_uint32 to_int32
  norm_num
  split_ifs <;> omega

theorem workgroups_no_wrap (w h : Nat) (hw : w < 2 ^ 32 - 15) (hh : h < 2 ^ 32 - 15) :
    workgroups (to_uint32 (to_int32 w), to_uint32 (to_int32 h))
      = ((w + 15) / 16, (h + 15) / 16) := by
  have hw' : w < 4294967281 := by norm_num at hw; exact hw
  have hh' : h < 4294967281 := by norm_num at hh; exact hh
  unfold workgroups
  rw [to_uint32_to_int32, to_uint32_to_int32]
  norm_num
  constructor <;> omega

theorem is_ceil_div_sixteen (w : Nat) : is_ceil_div w 16 ((w + 15) / 16) := by
  constructor
  · omega
  · intro n hn
    omega
/-- Claim C16 as amended: for every target size `(w, h)` with `w` and `h` at
most `2^32 - 16`, every layer count `L` below `2^32` and every
`active_viewport_count` `k ≤ L`, `set_scene` with a scene records one command
buffer per frame in flight, each with exactly one dispatch, of
`((w + 15) / 16, (h + 15) / 16, L - k)` workgroups; the first two numbers are
the ceilings of `w / 16` and `h / 16`. -/
theorem spatial_reprojection_dispatch (w h L k : Nat)
    (hw : w < 2 ^ 32 - 15) (hh : h < 2 ^ 32 - 15) (hL : L < 2 ^ 32) (hk : k ≤ L) :
    (spatial_reprojection_stage.set_scene true ⟨(w, h), L⟩ ⟨k⟩).map dispatch_sizes
        = List.replicate MAX_FRAMES_IN_FLIGHT [((w + 15) / 16, (h + 15) / 16, L - k)]
      ∧ is_ceil_div w 16 ((w + 15) / 16)
      ∧ is_ceil_div h 16 ((h + 15) / 16) := by
  refine ⟨?_, is_ceil_div_sixteen w, is_ceil_div_sixteen h⟩
  have hz : (L % 2 ^ 32 + 2 ^ 32 - k % 2 ^ 32) % 2 ^ 32 = L - k := by
    have hL' : L < 4294967296 := by norm_num at hL; exact hL
    norm_num
    omega
  have hwg := workgroups_no_wrap w h hw hh
  have hcb : ∀ i, dispatch_sizes
      (spatial_reprojection_stage.record_command_buffer ⟨(w, h), L⟩ ⟨k⟩ i)
        = [((w + 15) / 16, (h + 15) / 16, L - k)] := by
    intro i
    simp only [spatial_reprojection_stage.record_command_buffer, dispatch_sizes, hwg, hz]
  simp only [spatial_reprojection_stage.set_scene, Bool.not_true, Bool.false_eq_true, if_false,
    List.map_map]
  have hfun : (dispatch_sizes ∘
      spatial_reprojection_stage.record_command_buffer ⟨(w, h), L⟩ ⟨k⟩)
        = fun _ => [((w + 15) / 16, (h + 15) / 16, L - k)] := by
    funext i
    exact hcb i
  rw [hfun]
  rfl

/-- Scenario S5 for the amended claim C16: a 1920 x 1080 target with 45 layers
and 2 active viewports gives dispatches of (120, 68, 43) workgroups. -/
theorem spatial_reprojection_dispatch_witness :
    ((1920 : Nat) < 2 ^ 32 - 15 ∧ (1080 : Nat) < 2 ^ 32 - 15 ∧ (45 : Nat) < 2 ^ 32
        ∧ (2 : Nat) ≤ 45)
      ∧ (spatial_reprojection_stage.set_scene true ⟨(1920, 1080), 45⟩ ⟨2⟩).map dispatch_sizes
          = [[(120, 68, 43)], [(120, 68, 43)]]
      ∧ ((spatial_reprojection_stage.set_scene true ⟨(1920, 1080), 45⟩ ⟨2⟩).map dispatch_sizes
          = List.replicate MAX_FRAMES_IN_FLIGHT
              [((1920 + 15) / 16, (1080 + 15) / 16, 45 - 2)]
        ∧ is_ceil_div 1920 16 ((1920 + 15) / 16)
        ∧ is_ceil_div 1080 16 ((1080 + 15) / 16)) :=
  ⟨by decide, by decide,
    spatial_reprojection_dispatch 1920 1080 45 2 (by decide) (by decide) (by decide)
      (by decide)⟩

/-- Claim C16 fails for a width above `2^32 - 16`: for `w = 2^32 - 1` the sum
`w + 15` wraps to 14 and the dispatch is 0 groups wide, while the ceiling of
`w / 16` is `2^28`. -/
theorem spatial_reprojection_dispatch_wraps :
    (spatial_reprojection_stage.set_scene true ⟨(4294967295, 16), 45⟩ ⟨2⟩).map dispatch_sizes
        = [[(0, 1, 43)], [(0, 1, 43)]]
      ∧ is_ceil_div 4294967295 16 268435456 := by
  refine ⟨by decide, ?_⟩
  constructor
  · decide
  · intro n hn
    omega

/-- Claim C20: each push-constant record of the path tracer, of the SVGF
à-trous and temporal passes and of the spatial reprojection stage has a size
of at most 128 bytes, computed from its members (4-byte scalars, 8-byte
`pivec2`, 16-byte `pvec4`) with alignment padding, whatever power of two up to
their size the vector types are aligned to. -/
theorem push_constant_records_fit :
    ∀ pivec2_align ∈ [1, 2, 4, 8], ∀ pvec4_align ∈ [1, 2, 4, 8, 16],
      struct_sizeof (path_tracer.push_constant_buffer_members pvec4_align) ≤ 128
        ∧ struct_sizeof (push_constant_buffer_atrous_members pivec2_align) ≤ 128
        ∧ struct_sizeof (push_constant_buffer_temporal_members pivec2_align) ≤ 128
        ∧ struct_sizeof
            (spatial_reprojection_push_constant_buffer_members pivec2_align pvec4_align)
          ≤ 128 := by
  decide

/-- An instance of claim C20: with the vector types aligned to 4 bytes the
four records take 52, 24, 8 and 28 bytes. -/
theorem push_constant_records_fit_witness :
    ((4 : Nat) ∈ [1, 2, 4, 8] ∧ (4 : Nat) ∈ [1, 2, 4, 8, 16])
      ∧ (struct_sizeof (path_tracer.push_constant_buffer_members 4) = 52
          ∧ struct_sizeof (push_constant_buffer_atrous_members 4) = 24
          ∧ struct_sizeof (push_constant_buffer_temporal_members 4) = 8
          ∧ struct_sizeof (spatial_reprojection_push_constant_buffer_members 4 4) = 28)
      ∧ (struct_sizeof (path_tracer.push_constant_buffer_members 4) ≤ 128
          ∧ struct_sizeof (push_constant_buffer_atrous_members 4) ≤ 128
          ∧ struct_sizeof (push_constant_buffer_temporal_members 4) ≤ 128
          ∧ struct_sizeof (spatial_reprojection_push_constant_buffer_members 4 4) ≤ 128) :=
  ⟨⟨by decide, by decide⟩, by decide,
    push_constant_records_fit 4 (by decide) 4 (by decide)⟩

/-! ## The scene-to-stage protocol -/

theorem scene.get_descriptor_info_names (self : scene) (dev_index : Nat) (camera_index : Int)
    (descriptors : List descriptor_state)
    (h : self.get_descriptor_info dev_index camera_index = .ok descriptors) :
    descriptors.map (fun d => d.1)
      = scene_protocol_names
        ++ (if camera_index ≥ 0 then ["camera".toList] else [])
        ++ (if self.ray_tracing_supported then ["tlas".toList] else [])
        ++ (if self.smr.isSome then shadow_map_names else []) := by
  unfold scene.get_descriptor_info at h
  cases hd : self.sh_grid_image_views with
  | error e => rw [hd] at h; cases h
  | ok dii_3d =>
    rw [hd] at h
    cases hrt : self.ray_tracing_supported <;> cases hs : self.smr <;>
      by_cases hc : camera_index ≥ 0 <;>
      simp [hrt, hs, hc, scene.get_acceleration_structure, bind, Except.bind, pure,
        Except.pure] at h <;>
      subst h <;>
      simp [scene_protocol_names, shadow_map_names, hc]

/-- Claim C17 as amended: the list that `get_descriptor_info` returns holds the
twelve names scene, scene_metadata, vertices, indices, textures,
directional_lights, point_lights, tri_lights, environment_map_tex,
environment_map_alias_table, textures3d and sh_grids for every call; camera
exactly when `camera_index` is not negative; tlas exactly when ray tracing is
supported; the four shadow-map names exactly when a shadow map renderer is
set; and no name twice. -/
theorem scene.get_descriptor_info_protocol (self : scene) (dev_index : Nat)
    (camera_index : Int) (descriptors : List descriptor_state)
    (h : self.get_descriptor_info dev_index camera_index = .ok descriptors) :
    descriptors.map (fun d => d.1)
        = scene_protocol_names
          ++ (if camera_index ≥ 0 then ["camera".toList] else [])
          ++ (if self.ray_tracing_supported then ["tlas".toList] else [])
          ++ (if self.smr.isSome then shadow_map_names else [])
      ∧ (descriptors.map (fun d => d.1)).Nodup
      ∧ (∀ name ∈ scene_protocol_names, name ∈ descriptors.map (fun d => d.1))
      ∧ ("camera".toList ∈ descriptors.map (fun d => d.1) ↔ camera_index ≥ 0)
      ∧ ("tlas".toList ∈ descriptors.map (fun d => d.1) ↔ self.ray_tracing_supported = true)
      ∧ (∀ name ∈ shadow_map_names,
          name ∈ descriptors.map (fun d => d.1) ↔ self.smr.isSome = true) := by
  have hn := scene.get_descriptor_info_names self dev_index camera_index descriptors h
  rw [hn]
  refine ⟨rfl, ?_, ?_, ?_, ?_, ?_⟩
  · cases self.ray_tracing_supported <;> cases self.smr <;>
      by_cases hc : camera_index ≥ 0 <;> simp [hc] <;> decide
  · intro name hname
    simp [hname]
  · cases self.ray_tracing_supported <;> cases self.smr <;>
      by_cases hc : camera_index ≥ 0 <;> simp [hc] <;> decide
  · cases self.ray_tracing_supported <;> cases self.smr <;>
      by_cases hc : camera_index ≥ 0 <;> simp [hc] <;> decide
  · cases self.ray_tracing_supported <;> cases self.smr <;>
      by_cases hc : camera_index ≥ 0 <;> simp [hc] <;> decide

/-- An instance of the amended claim C17: a scene without ray tracing and
without shadow maps, camera 0. -/
theorem scene.get_descriptor_info_protocol_witness :
    raster_scene.get_descriptor_info 0 0 = .ok raster_descriptors
      ∧ raster_descriptors.map (fun d => d.1) = scene_protocol_names ++ ["camera".toList]
      ∧ (raster_descriptors.map (fun d => d.1)
            = scene_protocol_names
              ++ (if (0 : Int) ≥ 0 then ["camera".toList] else [])
              ++ (if raster_scene.ray_tracing_supported then ["tlas".toList] else [])
              ++ (if raster_scene.smr.isSome then shadow_map_names else [])
          ∧ (raster_descriptors.map (fun d => d.1)).Nodup
          ∧ (∀ name ∈ scene_protocol_names, name ∈ raster_descriptors.map (fun d => d.1))
          ∧ ("camera".toList ∈ raster_descriptors.map (fun d => d.1) ↔ (0 : Int) ≥ 0)
          ∧ ("tlas".toList ∈ raster_descriptors.map (fun d => d.1)
              ↔ raster_scene.ray_tracing_supported = true)
          ∧ (∀ name ∈ shadow_map_names,
              name ∈ raster_descriptors.map (fun d => d.1)
                ↔ raster_scene.smr.isSome = true)) :=
  ⟨rfl, rfl, scene.get_descriptor_info_protocol raster_scene 0 0 raster_descriptors rfl⟩

/-- Claim C17 fails for a negative `camera_index`: the call with index -1
returns the twelve first names and no camera binding. -/
theorem scene.get_descriptor_info_without_camera :
    (raster_scene.get_descriptor_info 0 (-1)).map (fun ds => ds.map (fun d => d.1))
        = .ok scene_protocol_names
      ∧ "camera".toList ∉ scene_protocol_names :=
  ⟨rfl, by decide⟩

theorem scene.sh_grid_image_views_error (self : scene) (e : exception)
    (h : self.sh_grid_image_views = .error e) :
    e = .out_of_range "unordered_map::at".toList := by
  unfold scene.sh_grid_image_views at h
  cases ht : self.sh_grid_textures with
  | none => rw [ht] at h; cases h
  | some textures =>
    rw [ht] at h
    simp only at h
    generalize self.sh_grids = grids at h
    induction grids generalizing e with
    | nil => cases h
    | cons g rest ih =>
      rw [List.mapM_cons] at h
      cases hg : unordered_map_at textures g with
      | error e' =>
        rw [hg] at h
        cases h
        unfold unordered_map_at at hg
        split at hg
        · cases hg
        · cases hg; rfl
      | ok v =>
        rw [hg] at h
        cases hr : List.mapM (unordered_map_at textures) rest with
        | error e' =>
          rw [hr] at h
          cases h
          exact ih _ hr
        | ok vs =>
          rw [hr] at h
          cases h

theorem scene.get_descriptor_info_error (self : scene) (dev_index : Nat) (camera_index : Int)
    (e : exception) (h : self.get_descriptor_info dev_index camera_index = .error e) :
    e = .out_of_range "unordered_map::at".toList := by
  unfold scene.get_descriptor_info at h
  cases hd : self.sh_grid_image_views with
  | error e' =>
    rw [hd] at h
    cases h
    exact scene.sh_grid_image_views_error self _ hd
  | ok dii_3d =>
    rw [hd] at h
    cases hrt : self.ray_tracing_supported <;>
      simp [hrt, scene.get_acceleration_structure, bind, Except.bind, pure, Except.pure] at h
/-- Claim C18: `get_acceleration_structure` raises an error exactly when the
context does not support ray tracing, the error "Trying to use TLAS, but ray
tracing is not available!", and otherwise returns the TLAS handle of the
requested device; `get_descriptor_info` never raises a runtime error, and
without ray tracing support its result does not depend on the TLAS. -/
theorem scene.tlas_requires_ray_tracing (self : scene) (device_index : Nat) :
    ((∃ e, self.get_acceleration_structure device_index = .error e)
        ↔ self.ray_tracing_supported = false)
      ∧ (self.ray_tracing_supported = false →
          self.get_acceleration_structure device_index
            = .error (.runtime_error
                "Trying to use TLAS, but ray tracing is not available!".toList))
      ∧ (self.ray_tracing_supported = true →
          self.get_acceleration_structure device_index = .ok (self.tlas device_index))
      ∧ (∀ camera_index what,
          self.get_descriptor_info device_index camera_index ≠ .error (.runtime_error what))
      ∧ (self.ray_tracing_supported = false → ∀ camera_index tlas,
          scene.get_descriptor_info { self with tlas := tlas } device_index camera_index
            = self.get_descriptor_info device_index camera_index) := by
  refine ⟨?_, ?_, ?_, ?_, ?_⟩
  · unfold scene.get_acceleration_structure
    cases self.ray_tracing_supported <;> simp
  · intro h
    simp [scene.get_acceleration_structure, h]
  · intro h
    simp [scene.get_acceleration_structure, h]
  · intro camera_index what h
    have := scene.get_descriptor_info_error self device_index camera_index _ h
    cases this
  · intro h camera_index tlas
    simp [scene.get_descriptor_info, scene.sh_grid_image_views, h]

/-! ## The frame loops -/

/-- Claim C12 fails on the code in `replay_viewer`: on a window the handler
drops the renderer and recreates the swapchains, and then leaves the loop,
the `break` being the `else` of the test for OpenXR; on a looking-glass display
it leaves the loop without recreating anything. Only on OpenXR does the loop
go on. In `interactive_viewer` the handler recreates the swapchains of all
three backends and does not leave the loop. -/
theorem replay_viewer_out_of_date_breaks :
    replay_viewer.out_of_date_handler .window
        = ([.renderer_reset none, .recreate_swapchains .window], true)
      ∧ replay_viewer.out_of_date_handler .looking_glass = ([.renderer_reset none], true)
      ∧ replay_viewer.out_of_date_handler .openxr
        = ([.renderer_reset none, .recreate_swapchains .openxr], false)
      ∧ (∀ ctx ∈ [context_kind.window, context_kind.openxr, context_kind.looking_glass],
          interactive_viewer.out_of_date_handler ctx
            = ([.renderer_reset none, .recreate_swapchains ctx], false))
      ∧ replay_viewer.run plain_viewer_options .window false 10 ⟨some 0, 0⟩
          [{ quiet_input with frame := some .out_of_date }, quiet_input]
        = ([.init_frame, .scene_update, .reset_accumulation 0, .render 0,
              .renderer_reset none, .recreate_swapchains .window],
            .exit ⟨none, 0⟩) :=
  ⟨rfl, rfl, rfl, by decide, rfl⟩

/-- Claim C13 fails on the code in `interactive_viewer`: the handler empties
`rr` and leaves `recreate_renderer` clear, so the iterations that follow call
neither `create_renderer` nor `set_scene`; they begin and end frames with no
renderer, and an iteration in which the camera moves calls
`reset_accumulation` through the empty `rr`. In `replay_viewer` (on OpenXR) the
next iteration creates a renderer and sets the scene before it renders. -/
theorem interactive_viewer_keeps_null_renderer :
    interactive_viewer.run plain_viewer_options .window ⟨some 0, true, false, true⟩
        [{ quiet_input with frame := some .out_of_date }, quiet_input, quiet_input]
      = ([.init_frame, .scene_update, .render 0,
            .renderer_reset none, .recreate_swapchains .window,
            .throttle_step, .lb_update none,
            .init_frame, .scene_update, .begin_end_frame, .throttle_step, .lb_update none,
            .init_frame, .scene_update, .begin_end_frame, .throttle_step, .lb_update none],
          .next ⟨none, true, false, true⟩)
      ∧ (interactive_viewer.run plain_viewer_options .window ⟨some 0, true, false, true⟩
          [{ quiet_input with frame := some .out_of_date },
            { quiet_input with camera_movement := true }]).2
        = .null_dereference
      ∧ replay_viewer.run plain_viewer_options .openxr false 10 ⟨some 0, 0⟩
          [{ quiet_input with frame := some .out_of_date }, quiet_input]
        = ([.init_frame, .scene_update, .reset_accumulation 0, .render 0,
              .renderer_reset none, .recreate_swapchains .openxr, .lb_update none,
              .create_renderer, .renderer_reset (some 1), .set_scene 1, .lb_update (some 1),
              .set_displaying false, .set_displaying true,
              .init_frame, .scene_update, .reset_accumulation 1, .render 1,
              .lb_update (some 1)],
            .next ⟨some 1, 2⟩) :=
  ⟨rfl, rfl, rfl⟩

theorem interactive_viewer.events_without_f5 (events : List sdl_event)
    (h : sdl_event.f5 ∉ events) (acc : List viewer_action × interactive_state × Bool) :
    (events.foldl interactive_viewer.handle_event acc).1 = acc.1
      ∧ (events.foldl interactive_viewer.handle_event acc).2.1.rr = acc.2.1.rr
      ∧ (events.foldl interactive_viewer.handle_event acc).2.1.recreate_renderer
          = acc.2.1.recreate_renderer := by
  induction events generalizing acc with
  | nil => exact ⟨rfl, rfl, rfl⟩
  | cons ev rest ih =>
    have hrest : sdl_event.f5 ∉ rest := fun e => h (List.mem_cons_of_mem _ e)
    have hev : ev ≠ .f5 := fun e => h (e ▸ List.mem_cons_self _ _)
    rw [List.foldl_cons]
    obtain ⟨h1, h2, h3⟩ := ih hrest (interactive_viewer.handle_event acc ev)
    rw [h1, h2, h3]
    cases ev <;> first | exact absurd rfl hev | exact ⟨rfl, rfl, rfl⟩

/-- While `rr` is empty and `recreate_renderer` is clear, an iteration of
`interactive_viewer` without the F5 key does not call `create_renderer` and
leaves both as they are. -/
theorem interactive_viewer.null_renderer_stays (opt : viewer_options) (ctx : context_kind)
    (st : interactive_state) (inp : viewer_input)
    (hrr : st.rr = none) (hre : st.recreate_renderer = false)
    (hf5 : sdl_event.f5 ∉ inp.events) :
    viewer_action.create_renderer ∉ (interactive_viewer.iteration opt ctx st inp).1
      ∧ ∀ st', (interactive_viewer.iteration opt ctx st inp).2 = .next st' →
          st'.rr = none ∧ st'.recreate_renderer = false := by
  obtain ⟨h1, h2, h3⟩ := interactive_viewer.events_without_f5 inp.events hf5 ([], st, false)
  simp only at h1 h2 h3
  rw [hrr] at h2
  rw [hre] at h3
  generalize hst : (inp.events.foldl interactive_viewer.handle_event ([], st, false)) = handled
    at h1 h2 h3
  obtain ⟨calls, st1, moved⟩ := handled
  simp only at h1 h2 h3
  subst h1
  have hiter : interactive_viewer.iteration opt ctx st inp
      = ((interactive_viewer.frame_phase opt ctx st1 moved inp).1,
          (interactive_viewer.frame_phase opt ctx st1 moved inp).2) := by
    simp only [interactive_viewer.iteration, interactive_viewer.recreate_phase, hre]
    simp [hst]
  rw [hiter]
  simp only
  unfold interactive_viewer.frame_phase
  by_cases hi : inp.init_frame = true
  · simp [hi]
  · simp only [hi, Bool.false_eq_true, if_false, h2, Option.isNone_none, Bool.and_true,
      Option.toList_none, List.map_nil, interactive_viewer.submit_frame]
    by_cases hm : (moved || inp.camera_movement || !opt.accumulation) = true
    · simp [hm]
    · simp only [hm, Bool.false_eq_true, if_false]
      cases hfr : inp.frame with
      | none =>
        simp only
        constructor
        · cases inp.ply_refresh <;> cases opt.timing <;> simp [interactive_viewer.tail]
        · intro st' hst'
          cases hst'
          exact ⟨h2, h3⟩
      | some e =>
        cases e with
        | out_of_date =>
          simp only
          cases ctx <;> simp only [interactive_viewer.out_of_date_handler, Bool.false_eq_true,
            if_false, if_true] <;> constructor <;>
            first
              | (intro st' hst'; cases hst'; exact ⟨rfl, h3⟩)
              | (intro st' hst'; cases hst')
              | (cases inp.ply_refresh <;> cases opt.timing <;> simp [interactive_viewer.tail])
        | runtime_error what =>
          simp only
          constructor
          · cases inp.ply_refresh <;> simp
          · intro st' hst'; cases hst'
        | other what =>
          simp only
          constructor
          · cases inp.ply_refresh <;> simp
          · intro st' hst'; cases hst'

/-- Claim C14 as amended: the hot-reload request clears the binary cache,
drops the renderer in use and clears `crash_on_exception`; when
`create_renderer` then fails with a runtime error, the error is logged and
not propagated, `recreate_renderer` is cleared and `rr` stays empty, so that
frames are begun and ended without a renderer. -/
theorem hot_reload_failure_is_logged (opt : viewer_options) (st : interactive_state)
    (inp : viewer_input) (e : thrown)
    (he : e.is_runtime_error = true) (hc : inp.create = .error e) :
    interactive_viewer.handle_event ([], st, false) .f5
        = ([.clear_binary_cache, .renderer_reset none],
            { st with rr := none, recreate_renderer := true, crash_on_exception := false },
            false)
      ∧ interactive_viewer.recreate_phase opt
          { st with rr := none, recreate_renderer := true, crash_on_exception := false } inp
        = ([.create_renderer, .log e.what],
            .ok { st with
                  rr := none, recreate_renderer := false, crash_on_exception := false })
      ∧ interactive_viewer.submit_frame none = [.begin_end_frame] := by
  refine ⟨rfl, ?_, rfl⟩
  simp [interactive_viewer.recreate_phase, interactive_viewer.create_block, hc, he]

/-- An instance of the amended claim C14: renderer 7 is in use when F5 is
pressed and the re-creation fails to compile a shader. -/
theorem hot_reload_failure_is_logged_witness :
    ((thrown.runtime_error "Failed to compile shader/svgf_atrous.comp: error".toList
          ).is_runtime_error = true
        ∧ ({ quiet_input with
              create := .error (.runtime_error
                "Failed to compile shader/svgf_atrous.comp: error".toList) }
            : viewer_input).create
          = .error (.runtime_error "Failed to compile shader/svgf_atrous.comp: error".toList))
      ∧ (interactive_viewer.handle_event ([], ⟨some 7, true, false, true⟩, false) .f5
          = ([.clear_binary_cache, .renderer_reset none], ⟨none, true, true, false⟩, false)
        ∧ interactive_viewer.recreate_phase plain_viewer_options ⟨none, true, true, false⟩
            { quiet_input with
              create := .error (.runtime_error
                "Failed to compile shader/svgf_atrous.comp: error".toList) }
          = ([.create_renderer,
                .log "Failed to compile shader/svgf_atrous.comp: error".toList],
              .ok ⟨none, true, false, false⟩)
        ∧ interactive_viewer.submit_frame none = [.begin_end_frame]) :=
  ⟨⟨rfl, rfl⟩,
    hot_reload_failure_is_logged plain_viewer_options ⟨some 7, true, false, true⟩
      { quiet_input with
        create := .error (.runtime_error
          "Failed to compile shader/svgf_atrous.comp: error".toList) }
      (.runtime_error "Failed to compile shader/svgf_atrous.comp: error".toList) rfl rfl⟩

/-- Claim C14 fails on the code: renderer 7 is in use when F5 is pressed; the
request drops it, the failed re-creation is logged, and no renderer is in use
afterwards. -/
theorem hot_reload_failure_drops_renderer :
    interactive_viewer.run plain_viewer_options .window ⟨some 7, true, false, true⟩
        [{ quiet_input with events := [.f5] },
          { quiet_input with
            create := .error (.runtime_error
              "Failed to compile shader/svgf_atrous.comp: error".toList) }]
      = ([.clear_binary_cache, .renderer_reset none,
            .init_frame, .scene_update, .begin_end_frame, .throttle_step, .lb_update none,
            .create_renderer,
            .log "Failed to compile shader/svgf_atrous.comp: error".toList,
            .init_frame, .scene_update, .begin_end_frame, .throttle_step, .lb_update none],
          .next ⟨none, true, false, false⟩) :=
  rfl

/-! ## The shader sources of the path tracer -/

theorem construction.bind_eq_ok {α β : Type} (x : construction α) (f : α → construction β)
    (binaries binaries' : std_map shader_source) (b : β)
    (h : (x >>= f) binaries = (.ok b, binaries')) :
    ∃ a mid, x binaries = (.ok a, mid) ∧ f a mid = (.ok b, binaries') := by
  have hb : (x >>= f) binaries = construction.bind x f binaries := rfl
  rw [hb] at h
  unfold construction.bind at h
  cases hx : x binaries with
  | mk r mid =>
    rw [hx] at h
    cases r with
    | error e => simp at h
    | ok a => exact ⟨a, mid, rfl, h⟩

theorem construct_built_from (rs : resources) (tc : toolchain) (path : Str)
    (defines : std_map Str) (binaries mid : std_map shader_source) (record : shader_source)
    (h : construct rs tc path defines binaries = (.ok record, mid)) :
    built_from rs tc path defines record :=
  ⟨binaries, by unfold construct at h; rw [h]⟩
/-- Claim C19: the set that `path_tracer::load_sources` returns has exactly two
miss shaders, the primary miss and then the shadow miss, and exactly four hit
groups: triangles with the primary closest-hit and any-hit; triangles with the
shadow closest-hit and the shadow any-hit; procedural with the point-light
closest-hit, no any-hit and the point-light intersection shader; procedural
with the same shadow closest-hit, no any-hit and the same intersection shader.
Each record is what the constructor returns for its file, the two shared
ones without defines. -/
theorem path_tracer.load_sources_binding_table (rs : resources) (tc : toolchain)
    (helpers : stage_helpers) (opt : path_tracer_stage.options) (gbuf : Str → Bool)
    (binaries binaries' : std_map shader_source) (sources : shader_sources)
    (h : path_tracer.load_sources rs tc helpers opt gbuf binaries = (.ok sources, binaries')) :
    ∃ pl_rint shadow_chit rgen rchit rahit shadow_rahit pl_rchit rmiss shadow_rmiss,
      built_from rs tc "shader/path_tracer_point_light.rint".toList [] pl_rint
        ∧ built_from rs tc "shader/path_tracer_shadow.rchit".toList [] shadow_chit
        ∧ built_from rs tc "shader/path_tracer.rgen".toList
            (path_tracer.defines helpers opt gbuf) rgen
        ∧ built_from rs tc "shader/path_tracer.rchit".toList
            (path_tracer.defines helpers opt gbuf) rchit
        ∧ built_from rs tc "shader/path_tracer.rahit".toList
            (path_tracer.defines helpers opt gbuf) rahit
        ∧ built_from rs tc "shader/path_tracer_shadow.rahit".toList
            (path_tracer.defines helpers opt gbuf) shadow_rahit
        ∧ built_from rs tc "shader/path_tracer_point_light.rchit".toList
            (path_tracer.defines helpers opt gbuf) pl_rchit
        ∧ built_from rs tc "shader/path_tracer.rmiss".toList
            (path_tracer.defines helpers opt gbuf) rmiss
        ∧ built_from rs tc "shader/path_tracer_shadow.rmiss".toList
            (path_tracer.defines helpers opt gbuf) shadow_rmiss
        ∧ sources.rmiss = [rmiss, shadow_rmiss]
        ∧ sources.rhit =
            [ ⟨eTrianglesHitGroup, rchit, rahit, shader_source.empty⟩,
              ⟨eTrianglesHitGroup, shadow_chit, shadow_rahit, shader_source.empty⟩,
              ⟨eProceduralHitGroup, pl_rchit, shader_source.empty, pl_rint⟩,
              ⟨eProceduralHitGroup, shadow_chit, shader_source.empty, pl_rint⟩ ]
        ∧ sources.rgen = rgen
        ∧ sources.vert = shader_source.empty
        ∧ sources.frag = shader_source.empty
        ∧ sources.comp = shader_source.empty := by
  unfold path_tracer.load_sources at h
  obtain ⟨pl_rint, b1, h1, h⟩ := construction.bind_eq_ok _ _ _ _ _ h
  obtain ⟨shadow_chit, b2, h2, h⟩ := construction.bind_eq_ok _ _ _ _ _ h
  obtain ⟨rgen, b3, h3, h⟩ := construction.bind_eq_ok _ _ _ _ _ h
  obtain ⟨rchit, b4, h4, h⟩ := construction.bind_eq_ok _ _ _ _ _ h
  obtain ⟨rahit, b5, h5, h⟩ := construction.bind_eq_ok _ _ _ _ _ h
  obtain ⟨shadow_rahit, b6, h6, h⟩ := construction.bind_eq_ok _ _ _ _ _ h
  obtain ⟨pl_rchit, b7, h7, h⟩ := construction.bind_eq_ok _ _ _ _ _ h
  obtain ⟨rmiss, b8, h8, h⟩ := construction.bind_eq_ok _ _ _ _ _ h
  obtain ⟨shadow_rmiss, b9, h9, h⟩ := construction.bind_eq_ok _ _ _ _ _ h
  have hs : sources =
      { vert := shader_source.empty
        frag := shader_source.empty
        rgen := rgen
        rhit :=
          [ ⟨eTrianglesHitGroup, rchit, rahit, shader_source.empty⟩,
            ⟨eTrianglesHitGroup, shadow_chit, shadow_rahit, shader_source.empty⟩,
            ⟨eProceduralHitGroup, pl_rchit, shader_source.empty, pl_rint⟩,
            ⟨eProceduralHitGroup, shadow_chit, shader_source.empty, pl_rint⟩ ]
        rmiss := [rmiss, shadow_rmiss]
        comp := shader_source.empty } := by
    have hp : ∀ (a : shader_sources) (b : std_map shader_source),
        (pure a : construction shader_sources) b = (.ok a, b) := fun _ _ => rfl
    rw [hp] at h
    simp only [Prod.mk.injEq, Except.ok.injEq] at h
    exact h.1.symm
  refine ⟨pl_rint, shadow_chit, rgen, rchit, rahit, shadow_rahit, pl_rchit, rmiss,
    shadow_rmiss,
    construct_built_from _ _ _ _ _ _ _ h1, construct_built_from _ _ _ _ _ _ _ h2,
    construct_built_from _ _ _ _ _ _ _ h3, construct_built_from _ _ _ _ _ _ _ h4,
    construct_built_from _ _ _ _ _ _ _ h5, construct_built_from _ _ _ _ _ _ _ h6,
    construct_built_from _ _ _ _ _ _ _ h7, construct_built_from _ _ _ _ _ _ _ h8,
    construct_built_from _ _ _ _ _ _ _ h9, ?_⟩
  rw [hs]
  exact ⟨rfl, rfl, rfl, rfl, rfl, rfl⟩

/-- An instance of claim C19: every shader file holds the same text and
compiles. -/
theorem path_tracer.load_sources_binding_table_witness :
    path_tracer.load_sources one_text_resources one_binding_toolchain plain_stage_helpers
        plain_path_tracer_options (fun _ => true) []
      = (.ok plain_path_tracer_sources,
          (path_tracer.load_sources one_text_resources one_binding_toolchain
            plain_stage_helpers plain_path_tracer_options (fun _ => true) []).2)
      ∧ plain_path_tracer_sources.rmiss.length = 2
      ∧ plain_path_tracer_sources.rhit.map (fun hg => hg.type)
          = [eTrianglesHitGroup, eTrianglesHitGroup, eProceduralHitGroup, eProceduralHitGroup]
      ∧ ∃ pl_rint shadow_chit rgen rchit rahit shadow_rahit pl_rchit rmiss shadow_rmiss,
          built_from one_text_resources one_binding_toolchain
              "shader/path_tracer_point_light.rint".toList [] pl_rint
            ∧ built_from one_text_resources one_binding_toolchain
                "shader/path_tracer_shadow.rchit".toList [] shadow_chit
            ∧ built_from one_text_resources one_binding_toolchain
                "shader/path_tracer.rgen".toList
                (path_tracer.defines plain_stage_helpers plain_path_tracer_options
                  (fun _ => true)) rgen
            ∧ built_from one_text_resources one_binding_toolchain
                "shader/path_tracer.rchit".toList
                (path_tracer.defines plain_stage_helpers plain_path_tracer_options
                  (fun _ => true)) rchit
            ∧ built_from one_text_resources one_binding_toolchain
                "shader/path_tracer.rahit".toList
                (path_tracer.defines plain_stage_helpers plain_path_tracer_options
                  (fun _ => true)) rahit
            ∧ built_from one_text_resources one_binding_toolchain
                "shader/path_tracer_shadow.rahit".toList
                (path_tracer.defines plain_stage_helpers plain_path_tracer_options
                  (fun _ => true)) shadow_rahit
            ∧ built_from one_text_resources one_binding_toolchain
                "shader/path_tracer_point_light.rchit".toList
                (path_tracer.defines plain_stage_helpers plain_path_tracer_options
                  (fun _ => true)) pl_rchit
            ∧ built_from one_text_resources one_binding_toolchain
                "shader/path_tracer.rmiss".toList
                (path_tracer.defines plain_stage_helpers plain_path_tracer_options
                  (fun _ => true)) rmiss
            ∧ built_from one_text_resources one_binding_toolchain
                "shader/path_tracer_shadow.rmiss".toList
                (path_tracer.defines plain_stage_helpers plain_path_tracer_options
                  (fun _ => true)) shadow_rmiss
            ∧ plain_path_tracer_sources.rmiss = [rmiss, shadow_rmiss]
            ∧ plain_path_tracer_sources.rhit =
                [ ⟨eTrianglesHitGroup, rchit, rahit, shader_source.empty⟩,
                  ⟨eTrianglesHitGroup, shadow_chit, shadow_rahit, shader_source.empty⟩,
                  ⟨eProceduralHitGroup, pl_rchit, shader_source.empty, pl_rint⟩,
                  ⟨eProceduralHitGroup, shadow_chit, shader_source.empty, pl_rint⟩ ]
            ∧ plain_path_tracer_sources.rgen = rgen
            ∧ plain_path_tracer_sources.vert = shader_source.empty
            ∧ plain_path_tracer_sources.frag = shader_source.empty
            ∧ plain_path_tracer_sources.comp = shader_source.empty :=
  ⟨rfl, rfl, rfl,
    path_tracer.load_sources_binding_table one_text_resources one_binding_toolchain
      plain_stage_helpers plain_path_tracer_options (fun _ => true) [] _
      plain_path_tracer_sources rfl⟩

/-! ## Splicing only inserts -/

theorem find_from_bound (pat : Str) (s : Str) (i : Nat) :
    find_from pat s i = npos ∨ find_from pat s i ≤ i + s.length := by
  induction s generalizing i with
  | nil =>
    unfold find_from
    split_ifs
    · right; simp
    · left; rfl
  | cons c rest ih =>
    unfold find_from
    split_ifs
    · right; omega
    · rcases ih (i + 1) with h | h
      · left; exact h
      · right
        simp only [List.length_cons]
        omega

theorem find_char_from_bound (ch : Char) (l : Str) (i : Nat) :
    find_char_from ch l i = npos ∨ find_char_from ch l i < i + l.length := by
  induction l generalizing i with
  | nil => left; rfl
  | cons c rest ih =>
    unfold find_char_from
    split_ifs
    · right; simp only [List.length_cons]; omega
    · rcases ih (i + 1) with h | h
      · left; exact h
      · right
        simp only [List.length_cons]
        omega

/-- The offset at which the constructor cuts the source is within the source. -/
theorem splice_offset_le (src : Str) (pos : Nat) :
    (find_first_of src '\n' pos + 1) % 2 ^ 64 ≤ src.length := by
  unfold find_first_of
  rcases find_char_from_bound '\n' (src.drop pos) pos with h | h
  · rw [h]
    have : (npos + 1) % 2 ^ 64 = 0 := by decide
    rw [this]
    exact Nat.zero_le _
  · by_cases hp : pos ≤ src.length
    · rw [List.length_drop] at h
      calc (find_char_from '\n' (src.drop pos) pos + 1) % 2 ^ 64
          ≤ find_char_from '\n' (src.drop pos) pos + 1 := Nat.mod_le _ _
        _ ≤ src.length := by omega
    · have hd : src.drop pos = [] := List.drop_eq_nil_of_le (by omega)
      rw [hd]
      have : (find_char_from '\n' [] pos + 1) % 2 ^ 64 = 0 := by
        unfold find_char_from
        decide
      rw [this]
      exact Nat.zero_le _

theorem splice_defines_split (src definition_src : Str) :
    ∃ p s, src = p ++ s ∧ splice_defines src definition_src = .ok (p ++ definition_src ++ s) := by
  unfold splice_defines
  simp only
  split_ifs with h
  · exact ⟨[], src, rfl, rfl⟩
  · have hle := splice_offset_le src (string_find src "#version".toList)
    refine ⟨src.take ((find_first_of src '\n' (string_find src "#version".toList) + 1) % 2 ^ 64),
      src.drop ((find_first_of src '\n' (string_find src "#version".toList) + 1) % 2 ^ 64),
      (List.take_append_drop _ _).symm, ?_⟩
    have h0 : ¬ (0 > src.length) := by omega
    have h1 : ¬ ((find_first_of src '\n' (string_find src "#version".toList) + 1) % 2 ^ 64
        > src.length) := by omega
    simp only [substr, substr_from, h0, h1, if_false, List.drop_zero]

/-- Claim C27: splicing only inserts text. For every source and every defines
map the spliced text is `p ++ generate_definition_src defines ++ s` for a split
`p ++ s` of the source, so its length is the sum of the two lengths and taking
the inserted text out gives the source back; with an empty defines map the
spliced text is the source itself. -/
theorem splice_only_inserts (src : Str) (defines : std_map Str) :
    (∃ p s spliced, src = p ++ s
        ∧ splice_defines src (generate_definition_src defines) = .ok spliced
        ∧ spliced = p ++ generate_definition_src defines ++ s
        ∧ spliced.length = src.length + (generate_definition_src defines).length)
      ∧ splice_defines src (generate_definition_src []) = .ok src := by
  constructor
  · obtain ⟨p, s, hsrc, hsp⟩ := splice_defines_split src (generate_definition_src defines)
    refine ⟨p, s, _, hsrc, hsp, rfl, ?_⟩
    rw [hsrc]
    simp only [List.length_append]
    omega
  · obtain ⟨p, s, hsrc, hsp⟩ := splice_defines_split src (generate_definition_src [])
    rw [hsp, hsrc]
    simp [generate_definition_src]

/-! ## The jitter history and the passes of SVGF -/

theorem svgf_stage.update_eq (opt : svgf_stage.options) (camera_jitter : Nat → Option vec2)
    (jitter_history : List vec4) :
    svgf_stage.update opt camera_jitter jitter_history
      = (camera_jitter 0).map (fun cur =>
          [(cur.1, cur.2,
            (match jitter_history with
             | [] => cur
             | v :: _ => (v.1, v.2.1)).1,
            (match jitter_history with
             | [] => cur
             | v :: _ => (v.1, v.2.1)).2)]) := by
  cases jitter_history with
  | nil =>
    cases h : camera_jitter 0 with
    | none => simp [svgf_stage.update, svgf_stage.update_viewport, vector_resize, h, List.range_succ]
    | some cur =>
      simp [svgf_stage.update, svgf_stage.update_viewport, vector_resize, h, List.range_succ]
  | cons v rest =>
    cases h : camera_jitter 0 with
    | none => simp [svgf_stage.update, svgf_stage.update_viewport, vector_resize, h, List.range_succ]
    | some cur =>
      simp [svgf_stage.update, svgf_stage.update_viewport, vector_resize, h, List.range_succ]

/-- Claim C21 fails on the code: `svgf_stage::update` sets `viewport_count` to
the constant 1 and does not read `opt.active_viewport_count`. Whatever the
options and the history before the call, the history that a call leaves behind
has one entry, built from the jitter of camera 0 (the call dereferences a null
pointer when the scene has no camera 0); with `active_viewport_count = 2` and
two cameras the history still has the single entry of camera 0. -/
theorem svgf_update_single_entry (opt : svgf_stage.options)
    (camera_jitter : Nat → Option vec2) (jitter_history : List vec4) :
    (svgf_stage.update opt camera_jitter jitter_history).map List.length
        = (camera_jitter 0).map (fun _ => 1)
      ∧ svgf_stage.update two_viewport_options two_camera_jitter []
        = some [(.bits 10, .bits 20, .bits 10, .bits 20)] := by
  refine ⟨?_, by decide⟩
  rw [svgf_stage.update_eq]
  cases camera_jitter 0 <;> rfl

/-- Claim C22: in every command buffer that `record_command_buffers` records,
the dispatches are, in this order, the temporal pass, the estimate-variance
pass and the à-trous iterations 0, 1, 2, 3, and between every two consecutive
dispatches there is exactly one barrier, from the compute stage to the compute
stage, from shader writes to shader reads. -/
theorem svgf_passes_separated_by_barriers (input_features : gbuffer_target)
    (opt : svgf_stage.options) :
    (svgf_stage.record_command_buffers input_features opt).map (pass_items none none)
      = List.replicate MAX_FRAMES_IN_FLIGHT
          [ .dispatch (some .svgf_temporal) none,
            .barrier eComputeShader eComputeShader eShaderWrite eShaderRead,
            .dispatch (some .svgf_estimate_variance) none,
            .barrier eComputeShader eComputeShader eShaderWrite eShaderRead,
            .dispatch (some .svgf_atrous) (some 0),
            .barrier eComputeShader eComputeShader eShaderWrite eShaderRead,
            .dispatch (some .svgf_atrous) (some 1),
            .barrier eComputeShader eComputeShader eShaderWrite eShaderRead,
            .dispatch (some .svgf_atrous) (some 2),
            .barrier eComputeShader eComputeShader eShaderWrite eShaderRead,
            .dispatch (some .svgf_atrous) (some 3) ] := by
  rfl

/-- Claim C23 fails on the code: the constants pushed for à-trous iteration
`j` carry `iteration = j` and `iteration_count = 4`, but the member `stride` is
never assigned, in no iteration; the loop sets `size`, `iteration_count` and
`iteration` only. -/
theorem svgf_atrous_stride_unassigned (input_features : gbuffer_target)
    (opt : svgf_stage.options) :
    (svgf_stage.record_command_buffers input_features opt).map
        (fun cb => (atrous_pushes cb).map
          (fun control => (control.iteration, control.iteration_count, control.stride)))
      = List.replicate MAX_FRAMES_IN_FLIGHT
          [(0, 4, none), (1, 4, none), (2, 4, none), (3, 4, none)] := by
  rfl

theorem svgf_stage.updates_append (opt : svgf_stage.options)
    (a b : List (Nat → Option vec2)) (h : List vec4) :
    svgf_stage.updates opt (a ++ b) h
      = (svgf_stage.updates opt a h).bind (svgf_stage.updates opt b) := by
  induction a generalizing h with
  | nil => rfl
  | cons c rest ih =>
    simp only [List.cons_append, svgf_stage.updates]
    cases svgf_stage.update opt c h with
    | none => rfl
    | some h1 => exact ih h1

theorem svgf_stage.updates_returns (opt : svgf_stage.options)
    (calls : List (Nat → Option vec2)) (hc : ∀ c ∈ calls, (c 0).isSome = true)
    (h : List vec4) : ∃ h1, svgf_stage.updates opt calls h = some h1 := by
  induction calls generalizing h with
  | nil => exact ⟨h, rfl⟩
  | cons c rest ih =>
    have hc0 := hc c (List.mem_cons_self _ _)
    obtain ⟨j, hj⟩ := Option.isSome_iff_exists.1 hc0
    simp only [svgf_stage.updates, svgf_stage.update_eq, hj, Option.map_some', Option.some_bind]
    exact ih (fun c1 h1 => hc c1 (List.mem_cons_of_mem _ h1)) _

/-- Claim C24: the jitter history holds (current, previous). Starting from the
empty history of a new stage, the first `svgf_stage::update` leaves the entry
`(j, j)` for the jitter `j` of the camera at that call, and a later update
leaves `(jn, jp)`: the jitter `jn` of the camera at this call and its jitter
`jp` at the call before, whatever the calls before those two were. -/
theorem svgf_jitter_history_current_previous (opt : svgf_stage.options)
    (earlier : List (Nat → Option vec2)) (previous last : Nat → Option vec2) (jp jn : vec2)
    (he : ∀ c ∈ earlier, (c 0).isSome = true) (hp : previous 0 = some jp)
    (hn : last 0 = some jn) :
    svgf_stage.updates opt [previous] [] = some [(jp.1, jp.2, jp.1, jp.2)]
      ∧ svgf_stage.updates opt (earlier ++ [previous, last]) []
        = some [(jn.1, jn.2, jp.1, jp.2)] := by
  constructor
  · simp [svgf_stage.updates, svgf_stage.update_eq, hp]
  · rw [svgf_stage.updates_append]
    obtain ⟨h1, hh⟩ := svgf_stage.updates_returns opt earlier he []
    rw [hh]
    cases h1 <;> simp [svgf_stage.updates, svgf_stage.update_eq, hp, hn]

/-- An instance of claim C24: after three updates, the camera having the
jitters `(1, 2)` and `(3, 4)` at the last two, the entry is `(3, 4, 1, 2)`. -/
theorem svgf_jitter_history_current_previous_witness :
    (∀ c ∈ [two_camera_jitter], (c 0).isSome = true)
      ∧ svgf_stage.updates two_viewport_options
          [two_camera_jitter, fun _ => some (.bits 1, .bits 2), fun _ => some (.bits 3, .bits 4)]
          []
        = some [(.bits 3, .bits 4, .bits 1, .bits 2)] :=
  ⟨by decide,
    (svgf_jitter_history_current_previous two_viewport_options [two_camera_jitter]
      (fun _ => some (.bits 1, .bits 2)) (fun _ => some (.bits 3, .bits 4))
      (.bits 1, .bits 2) (.bits 3, .bits 4) (by decide) rfl rfl).2⟩

theorem push_constants_in_range (opt : path_tracer_stage.sampling_options)
    (envmap : Option environment_map) (pass_index : Nat)
    (h1 : 1 ≤ opt.samples_per_pixel) (h2 : opt.samples_per_pixel < 2 ^ 31)
    (h3 : (pass_index : Int) < opt.samples_per_pixel) :
    ∃ control, path_tracer_stage.record_command_buffer_push_constants opt envmap pass_index
        = some control
      ∧ control.previous_samples = pass_index ∧ control.samples = 1 := by
  have hp : pass_index % 2 ^ 32 = pass_index := Nat.mod_eq_of_lt (by omega)
  have hi : to_int32 pass_index = (pass_index : Int) := by
    unfold to_int32
    rw [hp]
    rw [if_pos (by omega)]
  have hd : ¬ (opt.samples_per_pixel - (pass_index : Int) < -(2 ^ 31)
      ∨ 2 ^ 31 ≤ opt.samples_per_pixel - (pass_index : Int)) := by omega
  have hm : min (opt.samples_per_pixel - (pass_index : Int)) 1 = 1 := by omega
  simp only [path_tracer_stage.record_command_buffer_push_constants, hp, hi, hd, if_false, hm]
  exact ⟨_, rfl, rfl, rfl⟩

/-- Claim C25: for `samples_per_pixel` at least 1 (an `int`) and
`pass_index` below it, the pushed record has `previous_samples = pass_index`
and `samples = 1`, which is `min(samples_per_pixel - previous_samples, 1)`
stored as a 32-bit unsigned value; the samples of the passes
`0 .. samples_per_pixel - 1` sum to `samples_per_pixel`. -/
theorem path_tracer_one_sample_per_pass (opt : path_tracer_stage.sampling_options)
    (envmap : Option environment_map) (pass_index : Nat)
    (h1 : 1 ≤ opt.samples_per_pixel) (h2 : opt.samples_per_pixel < 2 ^ 31)
    (h3 : (pass_index : Int) < opt.samples_per_pixel) :
    (∃ control, path_tracer_stage.record_command_buffer_push_constants opt envmap pass_index
          = some control
        ∧ control.previous_samples = pass_index ∧ control.samples = 1
        ∧ control.samples
          = to_uint32 (min (opt.samples_per_pixel - (control.previous_samples : Int)) 1))
      ∧ ((List.range opt.samples_per_pixel.toNat).map
          (fun p => ((path_tracer_stage.record_command_buffer_push_constants opt envmap p).map
            (fun control => control.samples)).getD 0)).sum
        = opt.samples_per_pixel.toNat := by
  constructor
  · obtain ⟨control, hc, hprev, hs⟩ := push_constants_in_range opt envmap pass_index h1 h2 h3
    refine ⟨control, hc, hprev, hs, ?_⟩
    rw [hs, hprev]
    have hm : min (opt.samples_per_pixel - (pass_index : Int)) 1 = 1 := by omega
    rw [hm]
    rfl
  · have hall : ∀ p ∈ List.range opt.samples_per_pixel.toNat,
        ((path_tracer_stage.record_command_buffer_push_constants opt envmap p).map
            (fun control => control.samples)).getD 0 = 1 := by
      intro p hp
      rw [List.mem_range] at hp
      obtain ⟨control, hc, _, hs⟩ := push_constants_in_range opt envmap p h1 h2 (by omega)
      rw [hc]
      exact hs
    rw [List.map_congr_left hall]
    simp

/-- An instance of claim C25: with 4 samples per pixel, pass 2 pushes
`previous_samples = 2` and `samples = 1`, and the four passes sum to 4. -/
theorem path_tracer_one_sample_per_pass_witness :
    ((1 : Int) ≤ 4 ∧ (4 : Int) < 2 ^ 31 ∧ ((2 : Nat) : Int) < 4)
      ∧ path_tracer_stage.record_command_buffer_push_constants (sampling_options_of 4) none 2
        = some
            { samples := 1, previous_samples := 2, min_ray_dist := .bits 0
              indirect_clamping := .bits 0, film_radius := .bits 0x3F800000
              russian_roulette_delta := .bits 0, antialiasing := 1, environment_proj := -1
              environment_factor := (.bits 0, .bits 0, .bits 0, .bits 0)
              regularization_gamma := .bits 0 }
      ∧ ((List.range 4).map
          (fun p => ((path_tracer_stage.record_command_buffer_push_constants
            (sampling_options_of 4) none p).map (fun control => control.samples)).getD 0)).sum
        = 4 :=
  ⟨by decide, by decide,
    (path_tracer_one_sample_per_pass (sampling_options_of 4) none 2 (by decide) (by decide)
      (by decide)).2⟩

/-! ## Name conflicts and the slots of the merged layout -/

theorem std_map.mem_insert {V : Type} (m : std_map V) (k : Str) (v : V) (q : Str × V)
    (hq : q ∈ std_map.insert m k v) : q ∈ m ∨ q = (k, v) := by
  induction m with
  | nil => simp [std_map.insert] at hq; exact Or.inr hq
  | cons p rest ih =>
    obtain ⟨k', v'⟩ := p
    simp only [std_map.insert] at hq
    split_ifs at hq with h1 h2
    · exact Or.inl hq
    · rcases List.mem_cons.1 hq with h | h
      · exact Or.inr h
      · exact Or.inl h
    · rcases List.mem_cons.1 hq with h | h
      · exact Or.inl (h ▸ List.mem_cons_self _ _)
      · rcases ih h with h' | h'
        · exact Or.inl (List.mem_cons_of_mem _ h')
        · exact Or.inr h'

theorem std_map.wf_insert {V : Type} (m : std_map V) (k : Str) (v : V) (h : std_map.wf m) :
    std_map.wf (std_map.insert m k v) := by
  induction m with
  | nil => simp [std_map.insert, std_map.wf]
  | cons p rest ih =>
    obtain ⟨k', v'⟩ := p
    unfold std_map.wf at h
    rw [List.pairwise_cons] at h
    obtain ⟨hhead, htail⟩ := h
    simp only [std_map.insert]
    split_ifs with h1 h2
    · exact List.pairwise_cons.2 ⟨hhead, htail⟩
    · refine List.pairwise_cons.2 ⟨?_, List.pairwise_cons.2 ⟨hhead, htail⟩⟩
      intro q hq
      rcases List.mem_cons.1 hq with hq | hq
      · subst hq; exact h2
      · exact str_lt_trans _ _ _ h2 (hhead q hq)
    · refine List.pairwise_cons.2 ⟨?_, ih htail⟩
      intro q hq
      rcases std_map.mem_insert rest k v q hq with hq | hq
      · exact hhead q hq
      · subst hq
        exact str_lt_total _ _ (by simpa using h2) (fun e => h1 e.symm)

theorem foldlM_append_name_wf (l : List (Str × Nat)) :
    ∀ (m m1 : std_map Nat), std_map.wf m → l.foldlM append_name m = .ok m1 → std_map.wf m1 := by
  induction l with
  | nil =>
    intro m m1 hw h
    simp only [List.foldlM_nil, pure, Except.pure, Except.ok.injEq] at h
    subst h
    exact hw
  | cons p rest ih =>
    intro m m1 hw h
    rw [List.foldlM_cons] at h
    cases hp : append_name m p with
    | error e => rw [hp] at h; cases h
    | ok m2 =>
      rw [hp] at h
      refine ih m2 m1 ?_ h
      unfold append_name at hp
      cases hf : std_map.find m p.1 with
      | none =>
        rw [hf] at hp
        simp only [Except.ok.injEq] at hp
        subst hp
        exact std_map.wf_insert _ _ _ hw
      | some second =>
        rw [hf] at hp
        simp only at hp
        split_ifs at hp with hne
        simp only [Except.ok.injEq] at hp
        subst hp
        exact hw

theorem foldlM_append_name_conflict (l : List (Str × Nat)) :
    ∀ (m : std_map Nat) (e : exception), l.foldlM append_name m = .error e →
      ∃ p ∈ l, ∃ s, s ≠ p.2 ∧ (std_map.find m p.1 = some s ∨ (p.1, s) ∈ l) := by
  induction l with
  | nil => intro m e h; cases h
  | cons p rest ih =>
    intro m e h
    rw [List.foldlM_cons] at h
    cases hp : append_name m p with
    | error e1 =>
      obtain ⟨⟨s, hs, hne⟩, _⟩ := append_name_error m p e1 hp
      exact ⟨p, List.mem_cons_self _ _, s, hne, Or.inl hs⟩
    | ok m2 =>
      rw [hp] at h
      obtain ⟨q, hq, s, hne, hor⟩ := ih m2 e h
      refine ⟨q, List.mem_cons_of_mem _ hq, s, hne, ?_⟩
      rcases hor with h1 | h1
      · rcases (append_name_ok m m2 p hp).2.2 q.1 s h1 with h2 | h2
        · exact Or.inl h2
        · exact Or.inr (h2 ▸ List.mem_cons_self _ _)
      · exact Or.inr (List.mem_cons_of_mem _ h1)

/-- Claim C26: `get_binding_names` raises an error if and only if some name is
declared with two different slot indices by stage sources of the set (a stage
map holds a name once, so these are two sources); when no name is, it returns
a map in which a name is bound to a slot exactly when some stage source
declares the name with that slot. -/
theorem get_binding_names_raises_iff_conflict (self : shader_sources) :
    ((∃ e, self.get_binding_names = .error e)
        ↔ ∃ src1 ∈ self.stages, ∃ src2 ∈ self.stages, ∃ n s1 s2,
            (n, s1) ∈ src1.binding_names ∧ (n, s2) ∈ src2.binding_names ∧ s1 ≠ s2)
      ∧ ((¬ ∃ src1 ∈ self.stages, ∃ src2 ∈ self.stages, ∃ n s1 s2,
            (n, s1) ∈ src1.binding_names ∧ (n, s2) ∈ src2.binding_names ∧ s1 ≠ s2)
          → ∃ names, self.get_binding_names = .ok names ∧ std_map.wf names
              ∧ ∀ n s, std_map.find names n = some s
                  ↔ ∃ src ∈ self.stages, (n, s) ∈ src.binding_names) := by
  have hiff : (∃ e, self.get_binding_names = .error e)
        ↔ ∃ src1 ∈ self.stages, ∃ src2 ∈ self.stages, ∃ n s1 s2,
            (n, s1) ∈ src1.binding_names ∧ (n, s2) ∈ src2.binding_names ∧ s1 ≠ s2 := by
    constructor
    · rintro ⟨e, he⟩
      rw [get_binding_names_eq] at he
      obtain ⟨p, hp, s, hne, hor⟩ := foldlM_append_name_conflict _ _ _ he
      rcases hor with h1 | h1
      · simp [std_map.find] at h1
      · obtain ⟨src1, hs1, hm1⟩ := List.mem_flatMap.1 h1
        obtain ⟨src2, hs2, hm2⟩ := List.mem_flatMap.1 hp
        exact ⟨src1, hs1, src2, hs2, p.1, s, p.2, hm1, hm2, hne⟩
    · rintro ⟨src1, hs1, src2, hs2, n, s1, s2, hm1, hm2, hne⟩
      cases hg : self.get_binding_names with
      | error e => exact ⟨e, rfl⟩
      | ok names =>
        have h1 := (get_binding_names_find self names hg n s1).2 ⟨src1, hs1, hm1⟩
        have h2 := (get_binding_names_find self names hg n s2).2 ⟨src2, hs2, hm2⟩
        rw [h1] at h2
        exact absurd (Option.some.inj h2) hne
  refine ⟨hiff, ?_⟩
  intro hno
  cases hg : self.get_binding_names with
  | error e => exact absurd (hiff.1 ⟨e, hg⟩) hno
  | ok names =>
    refine ⟨names, rfl, ?_, get_binding_names_find self names hg⟩
    rw [get_binding_names_eq] at hg
    exact foldlM_append_name_wf _ _ _ List.Pairwise.nil hg

/-- Claim C30: the list that `get_bindings` returns has pairwise distinct
slot indices, and a slot index occurs in it if and only if some stage source of
the set declares a binding with that slot; nothing is assumed on the stage
lists, which may hold a slot more than once. -/
theorem get_bindings_one_binding_per_slot (self : shader_sources)
    (count_overrides : std_map Nat) (bs : List DescriptorSetLayoutBinding)
    (h : self.get_bindings count_overrides = .ok bs) :
    (bs.map (fun b => b.binding)).Nodup
      ∧ ∀ slot, slot ∈ bs.map (fun b => b.binding)
          ↔ ∃ src ∈ self.stages, ∃ i ∈ src.bindings, i.binding = slot := by
  have hslots : bs.map (fun b => b.binding)
      = (self.all_bindings.foldl append_binding []).map (fun b => b.binding) := by
    unfold shader_sources.get_bindings at h
    cases hn : self.get_binding_names with
    | error e => rw [hn] at h; cases h
    | ok names =>
      rw [hn] at h
      simp only [Except.ok.injEq] at h
      rw [← h, merged_bindings_eq,
        override_pass_eq names _ (merged_slots_nodup _) count_overrides, List.map_map]
      apply List.map_congr_left
      intro m _
      exact overridden_binding names count_overrides m
  rw [hslots]
  refine ⟨merged_slots_nodup _, ?_⟩
  intro slot
  rw [merged_slots_mem]
  unfold shader_sources.all_bindings
  simp only [List.mem_map, List.mem_flatMap]
  constructor
  · rintro ⟨i, ⟨src, hsrc, hi⟩, hslot⟩
    exact ⟨src, hsrc, i, hi, hslot⟩
  · rintro ⟨src, hsrc, i, hi, hslot⟩
    exact ⟨i, ⟨src, hsrc, hi⟩, hslot⟩

/-- An instance of claim C30: the vertex stage lists slot 3 twice and the
fragment stage lists slot 1; the returned list holds slot 3 once and slot 1
once. -/
theorem get_bindings_one_binding_per_slot_witness :
    slot_listed_twice.get_bindings [("a".toList, 9)]
        = .ok [⟨3, 7, 9, eVertex⟩, ⟨1, 6, 2, eFragment⟩]
      ∧ ([(⟨3, 7, 9, eVertex⟩ : DescriptorSetLayoutBinding), ⟨1, 6, 2, eFragment⟩].map
            (fun b => b.binding)).Nodup
      ∧ ∀ slot, slot ∈ [(⟨3, 7, 9, eVertex⟩ : DescriptorSetLayoutBinding),
              ⟨1, 6, 2, eFragment⟩].map (fun b => b.binding)
          ↔ ∃ src ∈ slot_listed_twice.stages, ∃ i ∈ src.bindings, i.binding = slot :=
  ⟨rfl, get_bindings_one_binding_per_slot slot_listed_twice [("a".toList, 9)] _ rfl⟩

/-! ## The order of the viewports -/

theorem foldl_push_back_if {β : Type} (p : Nat → Bool) (f : Nat → List β) (l : List Nat)
    (acc : List β) :
    l.foldl (fun reorder i => if p i then reorder ++ f i else reorder) acc
      = acc ++ (l.filter p).flatMap f := by
  induction l generalizing acc with
  | nil => simp
  | cons i rest ih =>
    rw [List.foldl_cons, ih]
    by_cases h : p i = true
    · simp [h, List.filter_cons]
    · simp [h, List.filter_cons]

theorem flatMap_push_back {α β : Type} (f : α → β) (l : List α) :
    l.flatMap (fun i => [f i]) = l.map f := by
  induction l with
  | nil => rfl
  | cons a rest ih => rw [List.flatMap_cons, ih]; rfl

theorem get_viewport_reorder_mask_eq (active_indices : List Int) (viewport_count : Nat) :
    get_viewport_reorder_mask active_indices viewport_count
      = ((List.range viewport_count).filter (set_count active_indices)).map (fun i => i % 2 ^ 32)
        ++ ((List.range viewport_count).filter (fun i => !set_count active_indices i)).map
            (fun i => i % 2 ^ 32) := by
  unfold get_viewport_reorder_mask
  simp only
  rw [foldl_push_back_if (set_count active_indices) (fun i => [i % 2 ^ 32]),
    foldl_push_back_if (fun i => !set_count active_indices i) (fun i => [i % 2 ^ 32])]
  rw [flatMap_push_back, flatMap_push_back, List.nil_append]

theorem to_int32_small (i : Nat) (h : i < 2 ^ 31) : to_int32 i = (i : Int) := by
  unfold to_int32
  have hp : i % 2 ^ 32 = i := Nat.mod_eq_of_lt (by omega)
  rw [hp, if_pos h]

theorem set_count_small (active_indices : List Int) (i : Nat) (h : i < 2 ^ 31) :
    set_count active_indices i = decide ((i : Int) ∈ active_indices) := by
  unfold set_count
  rw [to_int32_small i h]

theorem map_mod_range_filter (p : Nat → Bool) (n : Nat) (h : n ≤ 2 ^ 32) :
    ((List.range n).filter p).map (fun i => i % 2 ^ 32) = (List.range n).filter p := by
  conv_rhs => rw [← List.map_id ((List.range n).filter p)]
  apply List.map_congr_left
  intro i hi
  have hlt : i < n := List.mem_range.1 (List.mem_of_mem_filter hi)
  exact Nat.mod_eq_of_lt (by omega)

/-- The mask for at most `2^31` viewports: no conversion changes an index. -/
theorem get_viewport_reorder_mask_small (active_indices : List Int) (n : Nat)
    (h : n ≤ 2 ^ 31) :
    get_viewport_reorder_mask active_indices n
      = (List.range n).filter (fun i : Nat => decide ((i : Int) ∈ active_indices))
        ++ (List.range n).filter (fun i : Nat => !decide ((i : Int) ∈ active_indices)) := by
  rw [get_viewport_reorder_mask_eq, map_mod_range_filter _ n (by omega),
    map_mod_range_filter _ n (by omega)]
  congr 1
  · apply List.filter_congr
    intro i hi
    exact set_count_small _ i (by have := List.mem_range.1 hi; omega)
  · apply List.filter_congr
    intro i hi
    rw [set_count_small _ i (by have := List.mem_range.1 hi; omega)]

theorem partition_sorted_eq_range (p : Nat → Bool) (n k : Nat)
    (hp : ∀ i, i < n → (p i = true ↔ i < k)) :
    (List.range n).filter p ++ (List.range n).filter (fun i => !p i) = List.range n := by
  apply List.eq_of_perm_of_sorted (r := fun a b : Nat => a ≤ b)
    (List.filter_append_perm p (List.range n))
  · unfold List.Sorted
    rw [List.pairwise_append]
    have hr : List.Pairwise (fun a b : Nat => a ≤ b) (List.range n) :=
      (List.pairwise_lt_range n).imp (fun h => Nat.le_of_lt h)
    refine ⟨hr.sublist (List.filter_sublist _), hr.sublist (List.filter_sublist _), ?_⟩
    intro a ha b hb
    rw [List.mem_filter, List.mem_range] at ha hb
    have h1 := (hp a ha.1).1 ha.2
    have h2 : ¬ b < k := by
      intro hlt
      have := (hp b hb.1).2 hlt
      simp [this] at hb
    omega
  · exact (List.pairwise_lt_range n).imp (fun h => Nat.le_of_lt h)

/-- Claim C28 as amended: for at most `2^31` viewports the mask is the indices
below `n` that are in the active set, in ascending order, followed by the other
indices below `n` in ascending order; it is a permutation of `0 .. n-1` of
length `n`, members of the active set outside `[0, n)` do not change it, and
it is the identity when the active set is empty or is `0 .. k-1`. -/
theorem get_viewport_reorder_mask_partition (active_indices : List Int) (n : Nat)
    (h : n ≤ 2 ^ 31) :
    get_viewport_reorder_mask active_indices n
        = (List.range n).filter (fun i : Nat => decide ((i : Int) ∈ active_indices))
          ++ (List.range n).filter (fun i : Nat => !decide ((i : Int) ∈ active_indices))
      ∧ (get_viewport_reorder_mask active_indices n).Perm (List.range n)
      ∧ (get_viewport_reorder_mask active_indices n).length = n
      ∧ get_viewport_reorder_mask
            (active_indices.filter (fun a => decide (0 ≤ a ∧ a < (n : Int)))) n
          = get_viewport_reorder_mask active_indices n
      ∧ get_viewport_reorder_mask [] n = List.range n
      ∧ ∀ k : Nat, (∀ a : Int, a ∈ active_indices ↔ 0 ≤ a ∧ a < (k : Int))
          → get_viewport_reorder_mask active_indices n = List.range n := by
  have hperm : (get_viewport_reorder_mask active_indices n).Perm (List.range n) := by
    rw [get_viewport_reorder_mask_small _ n h]
    exact List.filter_append_perm _ _
  refine ⟨get_viewport_reorder_mask_small _ n h, hperm, ?_, ?_, ?_, ?_⟩
  · rw [hperm.length_eq, List.length_range]
  · rw [get_viewport_reorder_mask_small _ n h, get_viewport_reorder_mask_small _ n h]
    have hmem : ∀ i ∈ List.range n,
        decide ((i : Int) ∈ active_indices.filter (fun a => decide (0 ≤ a ∧ a < (n : Int))))
          = decide ((i : Int) ∈ active_indices) := by
      intro i hi
      have hlt := List.mem_range.1 hi
      rw [decide_eq_decide, List.mem_filter]
      constructor
      · intro h1; exact h1.1
      · intro h1
        refine ⟨h1, ?_⟩
        simp only [decide_eq_true_eq]
        omega
    congr 1
    · exact List.filter_congr hmem
    · apply List.filter_congr
      intro i hi
      rw [hmem i hi]
  · rw [get_viewport_reorder_mask_small _ n h]
    simp
  · intro k hk
    rw [get_viewport_reorder_mask_small _ n h]
    apply partition_sorted_eq_range _ n k
    intro i _
    rw [decide_eq_true_eq, hk]
    omega

/-- An instance of the amended claim C28: with the active set `{-1, 2, 5}`
and three viewports the mask is `[2, 0, 1]`; with `{0, 1}` it is the identity. -/
theorem get_viewport_reorder_mask_partition_witness :
    (3 : Nat) ≤ 2 ^ 31
      ∧ get_viewport_reorder_mask [2, 5, -1] 3 = [2, 0, 1]
      ∧ get_viewport_reorder_mask [0, 1] 3 = [0, 1, 2] :=
  ⟨by decide,
    (get_viewport_reorder_mask_partition [2, 5, -1] 3 (by decide)).1.trans (by decide),
    by decide⟩

/-- Claim C28 fails above `2^31` viewports: the loop index is converted to
`int` for the membership test, so with the active set `{-2147483648}`, which
has no member in `[0, n)`, and `n = 2147483649` the mask starts with the index
2147483648, while the mask of the empty active set starts with 0. -/
theorem get_viewport_reorder_mask_wraps :
    (get_viewport_reorder_mask [-2147483648] 2147483649).head? = some 2147483648
      ∧ (get_viewport_reorder_mask [] 2147483649).head? = some 0
      ∧ ∀ a ∈ [(-2147483648 : Int)], ¬ (0 ≤ a ∧ a < 2147483649) := by
  have key : ∀ m : Nat, m = 2147483648 →
      (get_viewport_reorder_mask [-2147483648] (m + 1)).head? = some 2147483648
        ∧ (get_viewport_reorder_mask [] (m + 1)).head? = some 0 := by
    intro m hm
    constructor
    · rw [get_viewport_reorder_mask_eq, List.range_succ, List.filter_append]
      have h1 : (List.range m).filter (set_count [-2147483648]) = [] := by
        rw [List.filter_eq_nil_iff]
        intro i hi
        have hlt := List.mem_range.1 hi
        rw [set_count_small _ i (by omega)]
        simp only [List.mem_singleton, decide_eq_true_eq]
        omega
      have h2 : set_count [-2147483648] m = true := by
        rw [hm]
        decide
      rw [h1, List.filter_cons, if_pos h2]
      simp only [List.nil_append, List.filter_nil, List.map_cons, List.map_nil,
        List.cons_append, List.head?_cons]
      rw [hm]
      rfl
    · rw [get_viewport_reorder_mask_eq, List.range_succ_eq_map]
      simp [set_count]
  refine ⟨(key 2147483648 rfl).1, (key 2147483648 rfl).2, ?_⟩
  intro a ha
  rw [List.mem_singleton] at ha
  subst ha
  decide

theorem flatMap_getElem?_range {camera : Type} (cameras : List camera) :
    (List.range cameras.length).flatMap (fun i => cameras[i]?.toList) = cameras := by
  induction cameras with
  | nil => rfl
  | cons c rest ih =>
    rw [List.length_cons, List.range_succ_eq_map, List.flatMap_cons, List.flatMap_map]
    simpa using ih

theorem map_some_flatMap_getElem? {camera : Type} (cameras : List camera) (l : List Nat)
    (h : ∀ i ∈ l, i < cameras.length) :
    (l.flatMap (fun i => cameras[i]?.toList)).map some = l.map (fun i => cameras[i]?) := by
  induction l with
  | nil => rfl
  | cons i rest ih =>
    have hi := h i (List.mem_cons_self _ _)
    rw [List.flatMap_cons, List.map_append, ih (fun j hj => h j (List.mem_cons_of_mem _ hj)),
      List.map_cons, List.getElem?_eq_getElem hi]
    rfl

theorem scene.reorder_cameras_by_active_eq {camera : Type} (cameras : List camera)
    (active_indices : List Int) :
    scene.reorder_cameras_by_active cameras active_indices
      = (((List.range cameras.length).filter (set_count active_indices))
          ++ ((List.range cameras.length).filter (fun i => !set_count active_indices i))).flatMap
            (fun i => cameras[i]?.toList) := by
  unfold scene.reorder_cameras_by_active
  simp only
  rw [foldl_push_back_if (set_count active_indices) (fun i => cameras[i]?.toList),
    foldl_push_back_if (fun i => !set_count active_indices i) (fun i => cameras[i]?.toList),
    List.nil_append, List.flatMap_append]

/-- Claim C29 as amended: for a camera list `c` of at most `2^31` cameras the
reordered list `r` has `r[k] = c[m[k]]` at every position, `m` being the mask
of `get_viewport_reorder_mask` for the length of `c`; `r` is a permutation of
`c` of the same length, and it is the cameras at active indices in their order
in `c` followed by the other cameras in their order in `c`. -/
theorem reorder_cameras_by_active_agrees_with_mask {camera : Type} (cameras : List camera)
    (active_indices : List Int) (h : cameras.length ≤ 2 ^ 31) :
    (scene.reorder_cameras_by_active cameras active_indices).map some
        = (get_viewport_reorder_mask active_indices cameras.length).map (fun i => cameras[i]?)
      ∧ (scene.reorder_cameras_by_active cameras active_indices).Perm cameras
      ∧ (scene.reorder_cameras_by_active cameras active_indices).length = cameras.length
      ∧ (scene.reorder_cameras_by_active cameras active_indices).map some
        = ((List.range cameras.length).filter
              (fun i : Nat => decide ((i : Int) ∈ active_indices))).map (fun i => cameras[i]?)
          ++ ((List.range cameras.length).filter
              (fun i : Nat => !decide ((i : Int) ∈ active_indices))).map
                (fun i => cameras[i]?) := by
  have hperm : (scene.reorder_cameras_by_active cameras active_indices).Perm cameras := by
    rw [scene.reorder_cameras_by_active_eq]
    have hp := (List.filter_append_perm (set_count active_indices)
      (List.range cameras.length)).flatMap_right (fun i => cameras[i]?.toList)
    rw [flatMap_getElem?_range] at hp
    exact hp
  have hsome : (scene.reorder_cameras_by_active cameras active_indices).map some
      = (get_viewport_reorder_mask active_indices cameras.length).map
          (fun i => cameras[i]?) := by
    rw [scene.reorder_cameras_by_active_eq, get_viewport_reorder_mask_eq,
      map_mod_range_filter _ _ (by omega), map_mod_range_filter _ _ (by omega)]
    apply map_some_flatMap_getElem?
    intro i hi
    rcases List.mem_append.1 hi with h1 | h1
    · exact List.mem_range.1 (List.mem_of_mem_filter h1)
    · exact List.mem_range.1 (List.mem_of_mem_filter h1)
  refine ⟨hsome, hperm, hperm.length_eq, ?_⟩
  rw [hsome, get_viewport_reorder_mask_small _ _ h, List.map_append]

/-- An instance of the amended claim C29: with the active set `{-1, 2, 5}`
the cameras `a, b, c` become `c, a, b`, which is `c[m[k]]` for the mask
`m = [2, 0, 1]`. -/
theorem reorder_cameras_by_active_agrees_with_mask_witness :
    ['a', 'b', 'c'].length ≤ 2 ^ 31
      ∧ scene.reorder_cameras_by_active ['a', 'b', 'c'] [2, 5, -1] = ['c', 'a', 'b']
      ∧ (scene.reorder_cameras_by_active ['a', 'b', 'c'] [2, 5, -1]).map some
        = (get_viewport_reorder_mask [2, 5, -1] ['a', 'b', 'c'].length).map
            (fun i => ['a', 'b', 'c'][i]?) :=
  ⟨by decide, by decide,
    (reorder_cameras_by_active_agrees_with_mask ['a', 'b', 'c'] [2, 5, -1] (by decide)).1⟩

theorem scene.reorder_cameras_by_active_nil {camera : Type} (cameras : List camera) :
    scene.reorder_cameras_by_active cameras [] = cameras := by
  rw [scene.reorder_cameras_by_active_eq]
  have h1 : (List.range cameras.length).filter (set_count []) = [] := by
    rw [List.filter_eq_nil_iff]
    intro i _
    simp [set_count]
  have h2 : (List.range cameras.length).filter (fun i => !set_count [] i)
      = List.range cameras.length := by
    rw [List.filter_eq_self]
    intro i _
    simp [set_count]
  rw [h1, h2, List.nil_append, flatMap_getElem?_range]

/-- Claim C29 fails above `2^32` cameras: the mask stores an index as a
`uint32_t`. With `2^32 + 1` cameras, camera `i` being the number `i`, and no
active index, position `2^32` of the reordered list holds camera `2^32`, while
the mask holds 0 there, the index of camera 0. -/
theorem reorder_cameras_by_active_mask_truncates :
    (scene.reorder_cameras_by_active (List.range 4294967297) [])[4294967296]?
        = some 4294967296
      ∧ (get_viewport_reorder_mask [] 4294967297)[4294967296]? = some 0
      ∧ (List.range 4294967297)[0]? = some 0 := by
  refine ⟨?_, ?_, ?_⟩
  · rw [scene.reorder_cameras_by_active_nil]
    exact List.getElem?_range (by norm_num)
  · rw [get_viewport_reorder_mask_eq]
    have h1 : (List.range 4294967297).filter (set_count []) = [] := by
      rw [List.filter_eq_nil_iff]
      intro i _
      simp [set_count]
    have h2 : (List.range 4294967297).filter (fun i => !set_count [] i)
        = List.range 4294967297 := by
      rw [List.filter_eq_self]
      intro i _
      simp [set_count]
    rw [h1, h2, List.map_nil, List.nil_append, List.getElem?_map,
      List.getElem?_range (by norm_num)]
    rfl
  · exact List.getElem?_range (by norm_num)


end tr
